import Mathlib

/-!
# IM-Server (`main.go`): message fan-out, recall, call signalling and sessions

A shallow embedding of the message, call, connection and token handlers of
`IM-Server/main.go`.

* The MySQL tables are lists of rows in insertion order; a `Where(...).Find`
  is a filter over the table and a `Where(...).First` is the first matching
  row.  A write whose error the handler reports takes its outcome from the
  environment (`Env.dbErr`).  The queries of the delivery, push, drain,
  send-check, connect and join code, and the writes whose error the program
  drops, fail one by one, as the environment says (`Env.dbDown`, `DBStmt`): a
  failed `Find` leaves its destination empty, a failed `First` returns an
  error, a failed write changes nothing.  In the recall and call handlers a
  failing query takes the branch of the missing row, and the target lists of
  the notification jobs are those built when their query answers.  A table
  keeps its primary key; the program creates no unique index on `msg_id` (its
  `AutoMigrate` call is commented out), so the insert of a message fails only
  when the store says so.
* Redis is a list of entries with an optional expiry instant; every Redis call
  on a key can fail (`Env.redisDown`), which is how an unreachable store shows.
* `socketServer.BroadcastToRoom` appends to the log `State.broadcasts`.
* A `go f(...)` statement does not run `f`: the handler returns the spawned
  calls as a list of `Job`s, and `runJob` runs one of them later, on the
  state of that later moment and with its own environment.  A run of a job or
  of a handler is a whole run: no statement of another run comes between two of
  its statements.  The two statements that `saveOfflineMessage` runs for a user
  are definitions of their own (`createOfflineMessage`, `incrOfflineCount`), so
  that a drain between them can be written down.
* Instants are integers (nanoseconds since the Unix epoch); one run of a
  handler or job happens at the single instant `Env.now`.
* A `float64` is the exact value `mant * 2 ^ exp`; a conversion, a quotient or a
  sum is the exact result rounded to 53 bits (`roundF64`).
* Library functions that the source calls and does not contain (base64, the AES
  block cipher, the JSON and JWT parsers) are parameters (`Codec`, `JWTLib`).
-/

namespace IMServer

/-! ## Rows of the tables -/

/-- Row of table `friends`. -/
structure Friend where
  ID : Nat
  UserFUID : String
  FriendFUID : String
  Remark : String
  Status : Nat
  deriving DecidableEq, Repr

/-- Row of table `group_members`. -/
structure GroupMember where
  ID : Nat
  GroupQUID : String
  UserFUID : String
  Role : Nat
  MuteEndTime : Int
  Status : Nat
  deriving DecidableEq, Repr

/-- Row of table `messages`. -/
structure Message where
  ID : Nat
  MsgID : String
  SenderFUID : String
  ReceiverType : Nat
  ReceiverID : String
  ContentType : Nat
  Content : String
  FontStyle : String
  FontSize : Int
  FontColor : String
  IsRecalled : Bool
  IsRead : Bool
  SendTime : Int
  CreatedAt : Int
  UpdatedAt : Int
  deriving DecidableEq, Repr

/-- Row of table `offline_messages`. -/
structure OfflineMessage where
  ID : Nat
  UserFUID : String
  MsgID : String
  Status : Nat
  CreatedAt : Int
  deriving DecidableEq, Repr

/-- Row of the call table (`Call`, primary key `CallID`). -/
structure Call where
  CallID : String
  SenderFUID : String
  ReceiverType : Nat
  ReceiverID : String
  CallType : Nat
  Status : Nat
  StartTime : Int
  EndTime : Int
  Duration : Int
  CreateTime : Int
  deriving DecidableEq, Repr

/-- The zero `time.Time` (January 1 of year 1, UTC) as nanoseconds since the Unix epoch. -/
def zeroTime : Int := -62135596800 * 1000000000

/-! ## Redis -/

/-- A value held under a Redis key: a string (`SET`) or a counter (`INCR`). -/
inductive RedisValue where
  | str (s : String)
  | int (n : Int)
  deriving DecidableEq, Repr

/-- One Redis key with its value and (when set) the instant at which it expires. -/
structure RedisEntry where
  key : String
  val : RedisValue
  expireAt : Option Int
  deriving DecidableEq, Repr

/-- An entry is live at `now` when it has no expiry or its expiry is still ahead. -/
def RedisEntry.live (now : Int) (e : RedisEntry) : Bool :=
  match e.expireAt with
  | none => true
  | some t => decide (now < t)

/-- The live entry stored under `key`, if any. -/
def redisFind (rdb : List RedisEntry) (now : Int) (key : String) : Option RedisEntry :=
  rdb.find? (fun e => decide (e.key = key) && e.live now)

/-- The store without any entry under `key`. -/
def redisErase (rdb : List RedisEntry) (key : String) : List RedisEntry :=
  rdb.filter (fun e => decide (e.key ≠ key))

/-- A message pushed by `socketServer.BroadcastToRoom("", room, event, data)`. -/
structure Broadcast where
  room : String
  event : String
  msgID : String
  isRecalled : Bool
  deriving DecidableEq, Repr

/-! ## State and environment -/

/-- Row of table `groups`. -/
structure Group where
  ID : Nat
  QUID : String
  Name : String
  OwnerFUID : String
  Status : Nat
  deriving DecidableEq, Repr

/-- The tables, the Redis store and the log of socket.io broadcasts. -/
structure State where
  friends : List Friend
  groups : List Group
  groupMembers : List GroupMember
  groupMemberSeq : Nat
  messages : List Message
  messageSeq : Nat
  offlineMessages : List OfflineMessage
  offlineSeq : Nat
  calls : List Call
  rdb : List RedisEntry
  broadcasts : List Broadcast
  deriving DecidableEq, Repr

/-- The database statements that fail one by one: the queries of the delivery, push, drain,
send-check, connect and join code, and the writes whose error the program drops. -/
inductive DBStmt where
  /-- The insert `db.Create(&offlineMsg)` of `saveOfflineMessage` for the user `userFUID`. -/
  | createOffline (userFUID : String)
  /-- The query `Find(&members)` of `saveOfflineMessage`. -/
  | findMembers
  /-- The write `db.Model(&message).Update("is_read", true)` of `pushMessageToClient`. -/
  | markRead
  /-- The query `First(&friend)` of the send handlers. -/
  | findFriend
  /-- The query `First(&reverseFriend)` of the send handlers. -/
  | findBlacklist
  /-- The query `First(&member)` of the send handlers. -/
  | findMember
  /-- The query `Find(&offlineMsgs)` of `getOfflineMessageHandler`. -/
  | findOffline
  /-- The query `Find(&messages)` of `getOfflineMessageHandler`. -/
  | findMessages
  /-- The write `Update("status", 1)` of `getOfflineMessageHandler`. -/
  | markDelivered
  /-- The query `Find(&groupMembers)` of the connect handler. -/
  | findMemberships
  /-- The write `Delete(&OfflineMessage{})` of `messageAutoCleanTask`. -/
  | deleteOffline
  /-- The query `First(&group)` of `joinGroupHandler`. -/
  | joinFindGroup
  /-- The query `First(&member)` of `joinGroupHandler`. -/
  | joinFindMember
  /-- The query `Count(&memberCount)` of `joinGroupHandler`. -/
  | joinCount
  deriving DecidableEq, Repr

/-- What one run of a handler or job takes from outside the program. -/
structure Env where
  /-- The reading of `time.Now()`. -/
  now : Int
  /-- Keys on which a Redis call fails in this run. -/
  redisDown : String → Bool
  /-- Whether the write whose error the handler checks fails in this run. -/
  dbErr : Bool
  /-- The statements of `DBStmt` that fail in this run. -/
  dbDown : DBStmt → Bool
  /-- The text of the error returned by a failing call (`err.Error()`). -/
  errText : String
  /-- The results of the successive `rand.Read` calls of `generateUniqueID`. -/
  draws : List (Except String (List Nat))
  /-- The rendering `t.Format("2006-01-02 15:04:05")` of an instant. -/
  formatTime : Int → String

/-- The configuration values (`cfg`) that the modelled handlers read. -/
structure Config where
  /-- The value `cfg.Business.Message.RecallTimeout`, in seconds. -/
  RecallTimeout : Int
  /-- The value `cfg.Business.Notify.Ntfy.Enable`. -/
  NtfyEnable : Bool
  deriving DecidableEq, Repr

/-- Seconds to nanoseconds (`time.Second`). -/
def second : Int := 1000000000

/-- Conversion to `int64`, wrapping. -/
def wrap64 (x : Int) : Int := (x + 2 ^ 63) % 2 ^ 64 - 2 ^ 63

/-! ### Redis calls -/

/-- The call `rdb.Exists(ctx, key).Result()`: the number of live keys among `key`, or an error. -/
def rdbExists (env : Env) (rdb : List RedisEntry) (key : String) : Except String Int :=
  if env.redisDown key then .error env.errText
  else .ok (if (redisFind rdb env.now key).isSome then 1 else 0)

/-- The call `rdb.Incr(ctx, key)`, whose result the callers ignore: a missing (or expired) key
starts at 1, a counter is incremented and keeps its expiry, and a failing call, a string value
or an overflow of `int64` leaves the store as it is. -/
def rdbIncr (env : Env) (rdb : List RedisEntry) (key : String) : List RedisEntry :=
  if env.redisDown key then rdb
  else
    match redisFind rdb env.now key with
    | none => redisErase rdb key ++ [⟨key, .int 1, none⟩]
    | some e =>
      match e.val with
      | .int n =>
        if n + 1 < 2 ^ 63 then redisErase rdb key ++ [⟨key, .int (n + 1), e.expireAt⟩] else rdb
      | .str _ => rdb

/-- The call `rdb.SetNX(ctx, key, value, ttl).Result()`: sets the key only when no live entry
holds it, and tells whether it did. -/
def rdbSetNX (env : Env) (rdb : List RedisEntry) (key : String) (val : RedisValue) (ttl : Int) :
    Except String (Bool × List RedisEntry) :=
  if env.redisDown key then .error env.errText
  else if (redisFind rdb env.now key).isSome then .ok (false, rdb)
  else .ok (true, redisErase rdb key ++ [⟨key, val, some (env.now + ttl)⟩])

/-- The call `rdb.Del(ctx, key)`, whose result the callers ignore. -/
def rdbDel (env : Env) (rdb : List RedisEntry) (key : String) : List RedisEntry :=
  if env.redisDown key then rdb else redisErase rdb key

/-! ### Database calls -/

/-- The rows that a `Find` whose error is dropped leaves in its destination: the rows of the
query, and none when the statement fails. -/
def findOrEmpty {α : Type} (env : Env) (stmt : DBStmt) (rows : List α) : List α :=
  if env.dbDown stmt then [] else rows

/-- The outcome of a `First`: the row when the statement succeeds and finds one (`err == nil`),
and `none` when it fails or finds no row (`err != nil`). -/
def firstOrError {α : Type} (env : Env) (stmt : DBStmt) (row : Option α) : Option α :=
  if env.dbDown stmt then none else row

/-! ## Offline queue and push -/

/-- The statement `db.Create(&offlineMsg)` of `saveOfflineMessage` (its error is dropped):
a new row with the next auto-increment key, status 0 and creation time `now`, and no row when
the insert fails. -/
def createOfflineMessage (env : Env) (s : State) (userFUID msgID : String) : State :=
  if env.dbDown (.createOffline userFUID) then s
  else
    { s with
      offlineMessages := s.offlineMessages ++ [⟨s.offlineSeq + 1, userFUID, msgID, 0, env.now⟩]
      offlineSeq := s.offlineSeq + 1 }

/-- The statement `rdb.Incr(ctx, "offline_msg_count:"+fuid)` of `saveOfflineMessage`. -/
def incrOfflineCount (env : Env) (s : State) (userFUID : String) : State :=
  { s with rdb := rdbIncr env s.rdb ("offline_msg_count:" ++ userFUID) }

/-- The two statements that `saveOfflineMessage` runs for one user: create the row, then
`rdb.Incr(ctx, "offline_msg_count:"+fuid)`. -/
def enqueueOffline (env : Env) (s : State) (userFUID msgID : String) : State :=
  incrOfflineCount env (createOfflineMessage env s userFUID msgID) userFUID

/-- The query `db.Where("group_quid = ? AND status = 1", g).Find(&members)`. -/
def activeMembers (s : State) (groupQUID : String) : List GroupMember :=
  s.groupMembers.filter (fun m => decide (m.GroupQUID = groupQUID ∧ m.Status = 1))

/-- The test `err != nil || online == 0` on the result of `rdb.Exists`. -/
def treatedOffline (r : Except String Int) : Bool :=
  match r with
  | .error _ => true
  | .ok n => decide (n = 0)

/-- The test `err == nil && online > 0` on the result of `rdb.Exists`. -/
def seenOnline (r : Except String Int) : Bool :=
  match r with
  | .error _ => false
  | .ok n => decide (n > 0)

/-- The body of the loop of `saveOfflineMessage` over the members of a group. -/
def saveOfflineMember (env : Env) (msgID : String) (s : State) (member : GroupMember) : State :=
  if treatedOffline (rdbExists env s.rdb ("online_user:" ++ member.UserFUID)) then
    enqueueOffline env s member.UserFUID msgID
  else s

/-- The function `saveOfflineMessage(receiverType, receiverID, msgID)`, run from its first
statement to its last with no statement of another run in between. -/
def saveOfflineMessage (env : Env) (s : State) (receiverType : Nat) (receiverID msgID : String) :
    State :=
  if receiverType = 1 then
    enqueueOffline env s receiverID msgID
  else
    (findOrEmpty env .findMembers (activeMembers s receiverID)).foldl
      (saveOfflineMember env msgID) s

/-- The statement `db.Model(&message).Update(column, value)` on a flag of a message, when it
succeeds: the row with the primary key of `message` gets the new flags and a new
`updated_at`. -/
def updateMessage (env : Env) (s : State) (message : Message) (f : Message → Message) : State :=
  { s with
    messages := s.messages.map (fun m =>
      if m.ID = message.ID then { f m with UpdatedAt := env.now } else m) }

/-- The function `pushMessageToClient(message)`.  The error of the update of `is_read` is
dropped; the queries for the sender and for the members of the group only feed values that
the broadcast log does not hold. -/
def pushMessageToClient (env : Env) (s : State) (message : Message) : State :=
  if message.ReceiverType = 1 then
    let groupID := "user:" ++ message.ReceiverID
    if seenOnline (rdbExists env s.rdb ("online_user:" ++ message.ReceiverID)) then
      let s1 := { s with
        broadcasts := s.broadcasts ++ [⟨groupID, "new_message", message.MsgID, message.IsRecalled⟩] }
      if env.dbDown .markRead then s1
      else updateMessage env s1 message (fun m => { m with IsRead := true })
    else s
  else
    let groupID := "group:" ++ message.ReceiverID
    { s with
      broadcasts := s.broadcasts ++ [⟨groupID, "new_message", message.MsgID, message.IsRecalled⟩] }

/-- The function `pushRecallMessageToClient(message)`. -/
def pushRecallMessageToClient (s : State) (message : Message) : State :=
  if message.ReceiverType = 1 then
    { s with broadcasts := s.broadcasts ++ [⟨"user:" ++ message.ReceiverID, "recall_message", message.MsgID, true⟩] }
  else
    { s with broadcasts := s.broadcasts ++ [⟨"group:" ++ message.ReceiverID, "recall_message", message.MsgID, true⟩] }

/-! ## Responses -/

/-- The JSON body written by `success` and `fail` (`Response`), with the type of `data` left open. -/
structure Response (α : Type) where
  Code : Int
  Msg : String
  Data : Option α
  Count : Int
  deriving DecidableEq, Repr

/-- The function `success(c, data)`. -/
def success {α : Type} (data : α) : Response α := ⟨200, "success", some data, 0⟩

/-- The function `success(c, data, count)`. -/
def successCount {α : Type} (data : α) (count : Int) : Response α := ⟨200, "success", some data, count⟩

/-- The function `fail(c, code, msg)`. -/
def fail {α : Type} (code : Int) (msg : String) : Response α := ⟨code, msg, none, 0⟩

/-! ## Draining the offline queue -/

/-- The fields of a message that `getOfflineMessageHandler` returns; `send_time` is the instant
that the handler renders with its fixed layout. -/
structure MessageData where
  msg_id : String
  sender_fuid : String
  receiver_type : Nat
  receiver_id : String
  content_type : Nat
  content : String
  font_style : String
  font_size : Int
  font_color : String
  is_recalled : Bool
  send_time : Int
  deriving DecidableEq, Repr

/-- The map built for one message in the result of `getOfflineMessageHandler`. -/
def messageData (msg : Message) : MessageData :=
  ⟨msg.MsgID, msg.SenderFUID, msg.ReceiverType, msg.ReceiverID, msg.ContentType, msg.Content,
    msg.FontStyle, msg.FontSize, msg.FontColor, msg.IsRecalled, msg.SendTime⟩

/-- The query `db.Where("user_fuid = ? AND status = 0", fuid).Find(&offlineMsgs)`. -/
def pendingOffline (s : State) (fuid : String) : List OfflineMessage :=
  s.offlineMessages.filter (fun om => decide (om.UserFUID = fuid ∧ om.Status = 0))

/-- The query `db.Where("msg_id IN ?", msgIDs).Find(&messages)`, run only for a non-empty list. -/
def messagesIn (s : State) (msgIDs : List String) : List Message :=
  if msgIDs.length > 0 then s.messages.filter (fun m => decide (m.MsgID ∈ msgIDs)) else []

/-- The statement `db.Model(&OfflineMessage{}).Where("user_fuid = ?", fuid).Update("status", 1)`
(its error is dropped): every row of the user gets status 1, and no row changes when the
update fails. -/
def markDelivered (env : Env) (s : State) (fuid : String) : State :=
  if env.dbDown .markDelivered then s
  else
    { s with
      offlineMessages := s.offlineMessages.map (fun (om : OfflineMessage) =>
        if om.UserFUID = fuid then { om with Status := 1 } else om) }

/-- The handler `getOfflineMessageHandler` for the logged-in user `currentFUID`, run from its
first statement to its last with no statement of another run in between.  The error of the
first query is reported with code 500; the errors of the second query, of the update and of
`rdb.Del` are dropped. -/
def getOfflineMessageHandler (env : Env) (s : State) (currentFUID : String) :
    State × Response (List MessageData) :=
  if currentFUID = "" then (s, fail 401 "未登录")
  else if env.dbDown .findOffline then (s, fail 500 ("查询离线消息失败: " ++ env.errText))
  else
    let offlineMsgs := pendingOffline s currentFUID
    let msgIDs := offlineMsgs.map (fun om => om.MsgID)
    let messages := findOrEmpty env .findMessages (messagesIn s msgIDs)
    let result := messages.map messageData
    let s1 := markDelivered env s currentFUID
    let s2 := { s1 with rdb := rdbDel env s1.rdb ("offline_msg_count:" ++ currentFUID) }
    (s2, successCount result (Int.ofNat result.length))

/-! ## Identifiers -/

/-- The constant `charset` of `generateUniqueID`. -/
def charset : List Char :=
  "0123456789abcdefghijklmnopqrstuvwxyzABCDEFGHIJKLMNOPQRSTUVWXYZ".toList

/-- The loop `b[i] = charset[int(b[i])%len(charset)]` over a buffer of `length` bytes filled by
`rand.Read` with the bytes `b`. -/
def encodeID (length : Nat) (b : List Nat) : String :=
  String.mk ((List.range length).map (fun i => charset.getD ((b.getD i 0 % 256) % charset.length) '0'))

/-- The function `generateUniqueID(length)`.  Each recursive call consumes one result of
`rand.Read`; `none` means that every supplied draw collided, so the function is still retrying. -/
def generateUniqueID (env : Env) (length : Nat) :
    List (Except String (List Nat)) → List RedisEntry → Option (Except String String × List RedisEntry)
  | [], _ => none
  | .error e :: _, rdb => some (.error e, rdb)
  | .ok b :: rest, rdb =>
    let id := encodeID length b
    match rdbSetNX env rdb ("unique_id:" ++ id) (.int 1) (3600 * second) with
    | .error e => some (.error e, rdb)
    | .ok (true, rdb1) => some (.ok id, rdb1)
    | .ok (false, rdb1) => generateUniqueID env length rest rdb1

/-! ## Background jobs -/

/-- A call started with `go`: the function and its arguments. -/
inductive Job where
  | saveOfflineMessage (receiverType : Nat) (receiverID msgID : String)
  | pushMessageToClient (message : Message)
  | ntfyOffline (currentFUID : String) (receiverType : Nat) (receiverID content : String)
  | pushRecallMessageToClient (message : Message)
  | pushCallNotification (call : Call) (action : String) (extra : List String)
  | sendNtfyNotification (title content targetFUID : String)
  deriving DecidableEq, Repr

/-- The target list `targetFUIDs` built by the anonymous `go func()` of `sendMessageHandler`. -/
def ntfyTargetFUIDs (s : State) (currentFUID : String) (receiverType : Nat) (receiverID : String) :
    List String :=
  if receiverType = 1 then [receiverID]
  else
    (s.groupMembers.filter (fun m =>
      decide (m.GroupQUID = receiverID ∧ m.UserFUID ≠ currentFUID ∧ m.Status = 1))).map
      (fun m => m.UserFUID)

/-- The target list `targetFUIDs` built by `pushCallNotification`. -/
def callTargetFUIDs (s : State) (call : Call) : List String :=
  if call.ReceiverType = 1 then [call.ReceiverID]
  else (activeMembers s call.ReceiverID).map (fun m => m.UserFUID)

/-- One run of a job.  The ntfy jobs only post to the external notifier and
`pushCallNotification` only builds its notification and target list, so they leave the state
as it is. -/
def runJob (env : Env) (s : State) : Job → State
  | .saveOfflineMessage receiverType receiverID msgID =>
    saveOfflineMessage env s receiverType receiverID msgID
  | .pushMessageToClient message => pushMessageToClient env s message
  | .ntfyOffline _ _ _ _ => s
  | .pushRecallMessageToClient message => pushRecallMessageToClient s message
  | .pushCallNotification _ _ _ => s
  | .sendNtfyNotification _ _ _ => s

/-! ## Sending -/

/-- The query `db.Where("user_fuid = ? AND friend_fuid = ? AND status = ?", u, f, st).First(&friend)`. -/
def firstFriend (s : State) (userFUID friendFUID : String) (status : Nat) : Option Friend :=
  s.friends.find? (fun f =>
    decide (f.UserFUID = userFUID ∧ f.FriendFUID = friendFUID ∧ f.Status = status))

/-- The query `db.Where("group_quid = ? AND user_fuid = ? AND status = 1", g, u).First(&member)`. -/
def firstMember (s : State) (groupQUID userFUID : String) : Option GroupMember :=
  s.groupMembers.find? (fun m =>
    decide (m.GroupQUID = groupQUID ∧ m.UserFUID = userFUID ∧ m.Status = 1))

/-- The JSON body of a request to `sendMessageHandler`. -/
structure SendMessageReq where
  ReceiverType : Nat
  ReceiverID : String
  ContentType : Nat
  Content : String
  FontStyle : String
  FontSize : Int
  FontColor : String
  deriving DecidableEq, Repr

/-- The binding rules of `SendMessageReq` (`required`, `oneof=1 2`, `oneof=1 2 3 4 5`). -/
def SendMessageReq.valid (req : SendMessageReq) : Bool :=
  decide ((req.ReceiverType = 1 ∨ req.ReceiverType = 2) ∧ req.ReceiverID ≠ "" ∧
    (1 ≤ req.ContentType ∧ req.ContentType ≤ 5) ∧ req.Content ≠ "")

/-- The receiver check of `sendMessageHandler` ("验证接收方合法性"): the code and text of the
failure it reports, or `none` when the handler goes on.  The friend and the member query stop
the send on `err != nil`; the blacklist query stops it only on `err == nil`, so a blacklist
query that fails lets the send go on. -/
def sendCheck (env : Env) (s : State) (currentFUID : String) (receiverType : Nat)
    (receiverID : String) : Option (Int × String) :=
  if receiverType = 1 then
    match firstOrError env .findFriend (firstFriend s currentFUID receiverID 1) with
    | none => some (400, "该用户不是你的好友，无法发送消息")
    | some _ =>
      match firstOrError env .findBlacklist (firstFriend s receiverID currentFUID 2) with
      | some _ => some (403, "对方已将你加入黑名单，无法发送消息")
      | none => none
  else if receiverType = 2 then
    match firstOrError env .findMember (firstMember s receiverID currentFUID) with
    | none => some (403, "你不是该群成员，无法发送消息")
    | some member =>
      if member.MuteEndTime > env.now then
        some (403, "你已被禁言，禁言结束时间：" ++ env.formatTime member.MuteEndTime)
      else none
  else none

/-- The data of a successful send: `msg_id` and the formatted `send_time`. -/
structure SendData where
  msg_id : String
  send_time : String
  deriving DecidableEq, Repr

/-- The statement `db.Create(&message)`: it fails when the store reports an error; otherwise
the row gets the next auto-increment key and its `created_at` and `updated_at`.  The program
itself keeps no index on `msg_id` (the tag `uniqueIndex` is read by `AutoMigrate` only, and
that call is commented out), so an identifier that a stored message already has does not make
the insert fail. -/
def createMessage (env : Env) (s : State) (message : Message) : Option (State × Message) :=
  if env.dbErr then none
  else
    let row := { message with ID := s.messageSeq + 1, CreatedAt := env.now, UpdatedAt := env.now }
    some ({ s with messages := s.messages ++ [row], messageSeq := s.messageSeq + 1 }, row)

/-- The record `message` that `sendMessageHandler` builds ("创建消息记录"), with the defaults of
the font parameters. -/
def newMessage (env : Env) (currentFUID : String) (req : SendMessageReq) (msgID : String) :
    Message :=
  let fontStyle := if req.FontStyle = "" then "思源黑体" else req.FontStyle
  let fontSize := if req.FontSize ≤ 0 then 14 else req.FontSize
  let fontColor := if req.FontColor = "" then "#000000" else req.FontColor
  { ID := 0, MsgID := msgID, SenderFUID := currentFUID, ReceiverType := req.ReceiverType,
    ReceiverID := req.ReceiverID, ContentType := req.ContentType, Content := req.Content,
    FontStyle := fontStyle, FontSize := fontSize, FontColor := fontColor,
    IsRecalled := false, IsRead := false, SendTime := env.now,
    CreatedAt := zeroTime, UpdatedAt := zeroTime }

/-- The handler `sendMessageHandler` for the logged-in user `currentFUID`. -/
def sendMessageHandler (env : Env) (s : State) (currentFUID : String) (req : SendMessageReq) :
    Option (State × Response SendData × List Job) :=
  if currentFUID = "" then some (s, fail 401 "未登录", [])
  else if ¬ req.valid then some (s, fail 400 ("参数错误: " ++ env.errText), [])
  else
    match sendCheck env s currentFUID req.ReceiverType req.ReceiverID with
    | some (code, msg) => some (s, fail code msg, [])
    | none =>
      match generateUniqueID env 32 env.draws s.rdb with
      | none => none
      | some (.error e, rdb1) => some ({ s with rdb := rdb1 }, fail 500 ("生成消息ID失败: " ++ e), [])
      | some (.ok msgID, rdb1) =>
        match createMessage env { s with rdb := rdb1 } (newMessage env currentFUID req msgID) with
        | none => some ({ s with rdb := rdb1 }, fail 500 ("保存消息失败: " ++ env.errText), [])
        | some (s2, row) =>
          some (s2, success ⟨row.MsgID, env.formatTime row.SendTime⟩,
            [.saveOfflineMessage req.ReceiverType req.ReceiverID msgID,
             .pushMessageToClient row,
             .ntfyOffline currentFUID req.ReceiverType req.ReceiverID req.Content])

/-! ## Recall -/

/-- The result of `t.Sub(u)`: the difference, held at the least or greatest `Duration` when it
does not fit. -/
def timeSub (t u : Int) : Int :=
  if t - u > 2 ^ 63 - 1 then 2 ^ 63 - 1
  else if t - u < -(2 ^ 63) then -(2 ^ 63)
  else t - u

/-- The value `time.Duration(cfg.Business.Message.RecallTimeout) * time.Second`. -/
def recallTimeout (cfg : Config) : Int := wrap64 (cfg.RecallTimeout * second)

/-- The text of the failure of `recallMessageHandler` for an expired recall window. -/
def recallExpiredMsg (cfg : Config) : String :=
  "消息超过" ++ toString (Int.tdiv cfg.RecallTimeout 60) ++ "分钟，无法撤回"

/-- The handler `recallMessageHandler` for the logged-in user `currentFUID` and the path
parameter `msg_id`. -/
def recallMessageHandler (cfg : Config) (env : Env) (s : State) (currentFUID msgID : String) :
    State × Response String × List Job :=
  if currentFUID = "" then (s, fail 401 "未登录", [])
  else if msgID = "" then (s, fail 400 "消息ID不能为空", [])
  else
    match s.messages.find? (fun m => decide (m.MsgID = msgID ∧ m.SenderFUID = currentFUID)) with
    | none => (s, fail 400 "消息不存在或不是你发送的", [])
    | some message =>
      if timeSub env.now message.SendTime > recallTimeout cfg then
        (s, fail 400 (recallExpiredMsg cfg), [])
      else if env.dbErr then (s, fail 500 ("撤回消息失败: " ++ env.errText), [])
      else
        (updateMessage env s message (fun m => { m with IsRecalled := true }),
          success "撤回消息成功",
          [.pushRecallMessageToClient { message with IsRecalled := true, UpdatedAt := env.now }])

/-! ## Call signalling -/

/-- The JSON body of a request to `initCallHandler`. -/
structure InitCallReq where
  ReceiverType : Nat
  ReceiverID : String
  CallType : Nat
  deriving DecidableEq, Repr

/-- The binding rules of `InitCallReq` (`required`, `oneof=1 2`). -/
def InitCallReq.valid (req : InitCallReq) : Bool :=
  decide ((req.ReceiverType = 1 ∨ req.ReceiverType = 2) ∧ req.ReceiverID ≠ "" ∧
    (req.CallType = 1 ∨ req.CallType = 2))

/-- The receiver check of `initCallHandler`: the failure it reports, or `none`. -/
def initCallCheck (s : State) (currentFUID : String) (receiverType : Nat) (receiverID : String) :
    Option (Int × String) :=
  if receiverType = 1 then
    match firstFriend s currentFUID receiverID 1 with
    | none => some (400, "该用户不是你的好友，无法发起通话")
    | some _ => none
  else if receiverType = 2 then
    match firstMember s receiverID currentFUID with
    | none => some (403, "你不是该群成员，无法发起群通话")
    | some _ => none
  else none

/-- The data of a successful `initCallHandler`. -/
structure InitCallData where
  call_id : String
  create_time : String
  status : String
  deriving DecidableEq, Repr

/-- The query `db.Where("call_id = ?", id).First(&call)`. -/
def firstCall (s : State) (callID : String) : Option Call :=
  s.calls.find? (fun c => decide (c.CallID = callID))

/-- The statement `db.Create(&call)`: it fails when the store fails or when the primary key
`call_id` is already taken. -/
def createCall (env : Env) (s : State) (call : Call) : Option State :=
  if env.dbErr ∨ call.CallID ∈ s.calls.map (fun c => c.CallID) then none
  else some { s with calls := s.calls ++ [call] }

/-- The record `call` that `initCallHandler` builds: status 0 (waiting for an answer), the
start time, end time and duration at their zero values. -/
def newCall (env : Env) (currentFUID : String) (req : InitCallReq) (callID : String) : Call :=
  { CallID := callID, SenderFUID := currentFUID, ReceiverType := req.ReceiverType,
    ReceiverID := req.ReceiverID, CallType := req.CallType, Status := 0,
    StartTime := zeroTime, EndTime := zeroTime, Duration := 0, CreateTime := env.now }

/-- The handler `initCallHandler` for the logged-in user `currentFUID`. -/
def initCallHandler (env : Env) (s : State) (currentFUID : String) (req : InitCallReq) :
    Option (State × Response InitCallData × List Job) :=
  if currentFUID = "" then some (s, fail 401 "未登录", [])
  else if ¬ req.valid then some (s, fail 400 ("参数错误: " ++ env.errText), [])
  else
    match initCallCheck s currentFUID req.ReceiverType req.ReceiverID with
    | some (code, msg) => some (s, fail code msg, [])
    | none =>
      match generateUniqueID env 32 env.draws s.rdb with
      | none => none
      | some (.error e, rdb1) => some ({ s with rdb := rdb1 }, fail 500 ("生成通话ID失败: " ++ e), [])
      | some (.ok callID, rdb1) =>
        match createCall env { s with rdb := rdb1 } (newCall env currentFUID req callID) with
        | none => some ({ s with rdb := rdb1 }, fail 500 ("创建通话记录失败: " ++ env.errText), [])
        | some s2 =>
          some (s2, success ⟨callID, env.formatTime env.now, "等待对方接听"⟩,
            [.pushCallNotification (newCall env currentFUID req callID) "incoming" []])

/-- The statement `db.Model(&call).Updates(...)`: the row with the primary key of `call` gets
the new columns. -/
def updateCall (s : State) (call : Call) (f : Call → Call) : State :=
  { s with calls := s.calls.map (fun c => if c.CallID = call.CallID then f c else c) }

/-- The data of a successful `acceptCallHandler`. -/
structure AcceptCallData where
  call_id : String
  start_time : String
  status : String
  deriving DecidableEq, Repr

/-- The receiver check of `acceptCallHandler` ("验证是否为通话接收方"): the failure it reports,
or `none`. -/
def acceptCheck (s : State) (call : Call) (currentFUID : String) : Option (Int × String) :=
  if call.ReceiverType = 1 ∧ call.ReceiverID ≠ currentFUID then some (403, "无权操作此通话")
  else if call.ReceiverType = 2 ∧ (firstMember s call.ReceiverID currentFUID).isNone then
    some (403, "你不是该群成员，无权接听")
  else none

/-- The handler `acceptCallHandler` for the logged-in user `currentFUID` and the body field
`call_id`. -/
def acceptCallHandler (env : Env) (s : State) (currentFUID callID : String) :
    State × Response AcceptCallData × List Job :=
  if currentFUID = "" then (s, fail 401 "未登录", [])
  else if callID = "" then (s, fail 400 ("参数错误: " ++ env.errText), [])
  else
    match firstCall s callID with
    | none => (s, fail 400 "通话记录不存在", [])
    | some call =>
      match acceptCheck s call currentFUID with
      | some (code, msg) => (s, fail code msg, [])
      | none =>
        if call.Status ≠ 0 then (s, fail 400 "该通话状态不允许接听", [])
        else if env.dbErr then (s, fail 500 ("更新通话状态失败: " ++ env.errText), [])
        else
          (updateCall s call (fun c => { c with Status := 1, StartTime := env.now }),
            success ⟨call.CallID, env.formatTime env.now, "通话中"⟩,
            [.pushCallNotification { call with Status := 1, StartTime := env.now } "accepted" []])

/-- The receiver check of `rejectCallHandler`: the failure it reports, or `none`. -/
def rejectCheck (call : Call) (currentFUID : String) : Option (Int × String) :=
  if call.ReceiverType = 1 ∧ call.ReceiverID ≠ currentFUID then some (403, "无权操作此通话")
  else none

/-- The handler `rejectCallHandler` for the logged-in user `currentFUID` and the body fields
`call_id` and `reason` (at most 100 characters). -/
def rejectCallHandler (env : Env) (s : State) (currentFUID callID reason : String) :
    State × Response String × List Job :=
  if currentFUID = "" then (s, fail 401 "未登录", [])
  else if callID = "" ∨ reason.length > 100 then (s, fail 400 ("参数错误: " ++ env.errText), [])
  else
    match firstCall s callID with
    | none => (s, fail 400 "通话记录不存在", [])
    | some call =>
      match rejectCheck call currentFUID with
      | some (code, msg) => (s, fail code msg, [])
      | none =>
        if call.Status ≠ 0 then (s, fail 400 "该通话状态不允许拒绝", [])
        else if env.dbErr then (s, fail 500 ("更新通话状态失败: " ++ env.errText), [])
        else
          (updateCall s call (fun c => { c with Status := 2, EndTime := env.now }),
            success "已拒绝通话",
            [.pushCallNotification { call with Status := 2, EndTime := env.now } "rejected" [reason]])

/-- The function `isGroupMember(groupQUID, userFUID)`: the count of active rows is positive. -/
def isGroupMember (s : State) (groupQUID userFUID : String) : Bool :=
  decide ((s.groupMembers.filter (fun m =>
    decide (m.GroupQUID = groupQUID ∧ m.UserFUID = userFUID ∧ m.Status = 1))).length > 0)

/-! ### Durations in seconds (`float64`) -/

/-- A finite `float64`, held as the exact value `mant * 2 ^ exp` (the sign is that of `mant`). -/
structure F64 where
  mant : Int
  exp : Int
  deriving DecidableEq, Repr

/-- The numerator of the value of a `float64` over the denominator `F64.den`. -/
def F64.num (x : F64) : Int := x.mant * 2 ^ x.exp.toNat

/-- The denominator (a power of two) of the value of a `float64`. -/
def F64.den (x : F64) : Nat := 2 ^ (-x.exp).toNat

/-- The quotient `n / d` rounded to the nearest natural number, a tie going to the even one. -/
def roundHalfEven (n d : Nat) : Nat :=
  if 2 * (n % d) < d then n / d
  else if d < 2 * (n % d) then n / d + 1
  else if n / d % 2 = 0 then n / d
  else n / d + 1

/-- The number of halvings that take `n` below 2, counted with `fuel` steps at most. -/
def log2Fuel : Nat → Nat → Nat
  | 0, _ => 0
  | fuel + 1, n => if n < 2 then 0 else log2Fuel fuel (n / 2) + 1

/-- The position of the leading bit of `n` (for `n > 0`, the `k` with `2^k ≤ n < 2^(k+1)`). -/
def log2Floor (n : Nat) : Nat := log2Fuel n n

/-- The binary exponent `e` of the 53-bit significand of `n / d` (for `n, d > 0`): the one with
`2^52 ≤ (n / d) / 2^e < 2^53`.  The leading bits give it up to one; the comparison settles it. -/
def exponentOf (n d : Nat) : Int :=
  let e0 : Int := (log2Floor n : Int) - (log2Floor d : Int) - 52
  if 2 ^ 52 * (d * 2 ^ e0.toNat) ≤ n * 2 ^ (-e0).toNat then e0 else e0 - 1

/-- The `float64` nearest to the fraction `n / d` (`d > 0`): a significand of 53 bits, rounded to
nearest with a tie going to the even significand, as every `float64` conversion and operation
rounds.  The exponent is not bounded: the values met here are zero or of a magnitude between
`10^-9` and `2^63`, far inside the range of normal `float64` values. -/
def roundF64 (n : Int) (d : Nat) : F64 :=
  if n = 0 then ⟨0, 0⟩
  else
    let e := exponentOf n.natAbs d
    ⟨n.sign * roundHalfEven (n.natAbs * 2 ^ (-e).toNat) (d * 2 ^ e.toNat), e⟩

/-- The conversion `float64(n)` of an integer. -/
def F64.ofInt (n : Int) : F64 := roundF64 n 1

/-- The sum `x + y` of two `float64` values: the exact sum, rounded. -/
def F64.add (x y : F64) : F64 := roundF64 (x.num * y.den + y.num * x.den) (x.den * y.den)

/-- The quotient `x / y` of two `float64` values (`y` not zero): the exact quotient, rounded. -/
def F64.div (x y : F64) : F64 := roundF64 (x.num * y.num.sign * y.den) (x.den * y.num.natAbs)

/-- The conversion `int(x)` of a `float64` that fits `int`: the fraction is cut off (toward
zero). -/
def F64.toInt (x : F64) : Int := Int.tdiv x.num x.den

/-- The method `Duration.Seconds` of package `time` on a duration `d` in nanoseconds:
`sec := d / Second; nsec := d % Second; return float64(sec) + float64(nsec)/1e9`. -/
def Seconds (d : Int) : F64 :=
  let sec := Int.tdiv d second
  let nsec := Int.tmod d second
  F64.add (F64.ofInt sec) (F64.div (F64.ofInt nsec) (F64.ofInt 1000000000))

/-- The value `int(d.Seconds())` for a duration `d` in nanoseconds: the seconds as a `float64`,
cut to an integer. -/
def durationSeconds (d : Int) : Int := (Seconds d).toInt

/-- The data of a successful `endCallHandler`. -/
structure EndCallData where
  msg : String
  duration : Int
  end_time : String
  deriving DecidableEq, Repr

/-- The permission check of `endCallHandler` ("验证操作权限"): `isSender || isReceiver`. -/
def endAllowed (s : State) (call : Call) (currentFUID : String) : Bool :=
  let isSender := decide (call.SenderFUID = currentFUID)
  let isReceiver := (decide (call.ReceiverType = 1) && decide (call.ReceiverID = currentFUID)) ||
    (decide (call.ReceiverType = 2) && isGroupMember s call.ReceiverID currentFUID)
  isSender || isReceiver

/-- The handler `endCallHandler` for the logged-in user `currentFUID` and the body field
`call_id`. -/
def endCallHandler (env : Env) (s : State) (currentFUID callID : String) :
    State × Response EndCallData × List Job :=
  if currentFUID = "" then (s, fail 401 "未登录", [])
  else if callID = "" then (s, fail 400 ("参数错误: " ++ env.errText), [])
  else
    match firstCall s callID with
    | none => (s, fail 400 "通话记录不存在", [])
    | some call =>
      if !endAllowed s call currentFUID then (s, fail 403 "无权结束此通话", [])
      else if call.Status ≠ 1 then (s, fail 400 "该通话状态不允许结束", [])
      else if env.dbErr then (s, fail 500 ("更新通话状态失败: " ++ env.errText), [])
      else
        let endTime := env.now
        let duration := durationSeconds (timeSub endTime call.StartTime)
        (updateCall s call (fun c => { c with Status := 3, EndTime := endTime, Duration := duration }),
          success ⟨"通话已结束", duration, env.formatTime endTime⟩,
          [.pushCallNotification { call with Status := 3, EndTime := endTime, Duration := duration }
            "ended" ["通话时长: " ++ toString duration ++ "秒"]])

/-! ## Steps of call signalling -/

/-- One request to call signalling: initiate, accept, reject or end, by any user. -/
inductive CallStep : State → State → Prop where
  | init (env : Env) (s : State) (currentFUID : String) (req : InitCallReq) (s' : State)
      (resp : Response InitCallData) (jobs : List Job)
      (h : initCallHandler env s currentFUID req = some (s', resp, jobs)) : CallStep s s'
  | accept (env : Env) (s : State) (currentFUID callID : String) :
      CallStep s (acceptCallHandler env s currentFUID callID).1
  | reject (env : Env) (s : State) (currentFUID callID reason : String) :
      CallStep s (rejectCallHandler env s currentFUID callID reason).1
  | ending (env : Env) (s : State) (currentFUID callID : String) :
      CallStep s (endCallHandler env s currentFUID callID).1

/-- The status changes ringing (0) to active (1), rejected (2) or missed (4), and active (1)
to ended (3). -/
def AllowedTransition (a b : Nat) : Prop :=
  (a = 0 ∧ b = 1) ∨ (a = 0 ∧ b = 2) ∨ (a = 0 ∧ b = 4) ∨ (a = 1 ∧ b = 3)

/-- The primary key of the call table: no two rows share a `CallID`. -/
def CallsKeyed (s : State) : Prop := (s.calls.map (fun c => c.CallID)).Nodup

instance (s : State) : Decidable (CallsKeyed s) := by
  delta CallsKeyed
  infer_instance

/-- The response of `acceptCallHandler` for a call in a status other than ringing. -/
def acceptInvalidState : Response AcceptCallData := fail 400 "该通话状态不允许接听"

/-- The response of `rejectCallHandler` for a call in a status other than ringing. -/
def rejectInvalidState : Response String := fail 400 "该通话状态不允许拒绝"

/-- The response of `endCallHandler` for a call in a status other than active. -/
def endInvalidState : Response EndCallData := fail 400 "该通话状态不允许结束"

/-! ## Voice messages -/

/-- The JSON body of a request to `sendVoiceMessageHandler`. -/
structure SendVoiceReq where
  ReceiverType : Nat
  ReceiverID : String
  Duration : Int
  VoiceURL : String
  FontStyle : String
  FontSize : Int
  FontColor : String
  deriving DecidableEq, Repr

/-- The binding rules of `SendVoiceReq` (`required`, `oneof=1 2`, `min=1`). -/
def SendVoiceReq.valid (req : SendVoiceReq) : Bool :=
  decide ((req.ReceiverType = 1 ∨ req.ReceiverType = 2) ∧ req.ReceiverID ≠ "" ∧
    1 ≤ req.Duration ∧ req.VoiceURL ≠ "")

/-- The receiver check of `sendVoiceMessageHandler`: the failure it reports, or `none`; the
three queries are tested as in `sendCheck`. -/
def voiceCheck (env : Env) (s : State) (currentFUID : String) (receiverType : Nat)
    (receiverID : String) : Option (Int × String) :=
  if receiverType = 1 then
    match firstOrError env .findFriend (firstFriend s currentFUID receiverID 1) with
    | none => some (400, "该用户不是你的好友，无法发送语音消息")
    | some _ =>
      match firstOrError env .findBlacklist (firstFriend s receiverID currentFUID 2) with
      | some _ => some (403, "对方已将你加入黑名单，无法发送消息")
      | none => none
  else if receiverType = 2 then
    match firstOrError env .findMember (firstMember s receiverID currentFUID) with
    | none => some (403, "你不是该群成员，无法发送语音消息")
    | some member =>
      if member.MuteEndTime > env.now then
        some (403, "你已被禁言，禁言结束时间：" ++ env.formatTime member.MuteEndTime)
      else none
  else none

/-- The record `message` that `sendVoiceMessageHandler` builds: content type 6 and a JSON
content holding the URL and the duration. -/
def newVoiceMessage (env : Env) (currentFUID : String) (req : SendVoiceReq) (msgID : String) :
    Message :=
  let fontStyle := if req.FontStyle = "" then "思源黑体" else req.FontStyle
  let fontSize := if req.FontSize ≤ 0 then 14 else req.FontSize
  let fontColor := if req.FontColor = "" then "#000000" else req.FontColor
  { ID := 0, MsgID := msgID, SenderFUID := currentFUID, ReceiverType := req.ReceiverType,
    ReceiverID := req.ReceiverID, ContentType := 6,
    Content := "\x7b\"url\":\"" ++ req.VoiceURL ++ "\",\"duration\":" ++ toString req.Duration ++ "\x7d",
    FontStyle := fontStyle, FontSize := fontSize, FontColor := fontColor,
    IsRecalled := false, IsRead := false, SendTime := env.now,
    CreatedAt := zeroTime, UpdatedAt := zeroTime }

/-- The data of a successful `sendVoiceMessageHandler`. -/
structure SendVoiceData where
  msg_id : String
  send_time : String
  duration : Int
  deriving DecidableEq, Repr

/-- The handler `sendVoiceMessageHandler` for the logged-in user `currentFUID`. -/
def sendVoiceMessageHandler (env : Env) (s : State) (currentFUID : String) (req : SendVoiceReq) :
    Option (State × Response SendVoiceData × List Job) :=
  if currentFUID = "" then some (s, fail 401 "未登录", [])
  else if ¬ req.valid then some (s, fail 400 ("参数错误: " ++ env.errText), [])
  else
    match voiceCheck env s currentFUID req.ReceiverType req.ReceiverID with
    | some (code, msg) => some (s, fail code msg, [])
    | none =>
      match generateUniqueID env 32 env.draws s.rdb with
      | none => none
      | some (.error e, rdb1) => some ({ s with rdb := rdb1 }, fail 500 ("生成消息ID失败: " ++ e), [])
      | some (.ok msgID, rdb1) =>
        match createMessage env { s with rdb := rdb1 } (newVoiceMessage env currentFUID req msgID) with
        | none => some ({ s with rdb := rdb1 }, fail 500 ("保存语音消息失败: " ++ env.errText), [])
        | some (s2, row) =>
          some (s2, success ⟨row.MsgID, env.formatTime row.SendTime, req.Duration⟩,
            [.saveOfflineMessage req.ReceiverType req.ReceiverID msgID,
             .pushMessageToClient row])

/-! ## Joining a group -/

/-- The configuration values that `joinGroupHandler` reads. -/
structure GroupConfig where
  /-- The value `cfg.Business.Group.MemberMax`. -/
  MemberMax : Int
  /-- The value `cfg.Business.Notify.Ntfy.Enable`. -/
  NtfyEnable : Bool
  deriving DecidableEq, Repr

/-- The query `db.Where("quid = ? AND status = 1", quid).First(&group)`. -/
def firstGroup (s : State) (quid : String) : Option Group :=
  s.groups.find? (fun g => decide (g.QUID = quid ∧ g.Status = 1))

/-- The query `db.Where("group_quid = ? AND user_fuid = ?", g, u).First(&member)`: the first
row of the user in the group, of any status. -/
def firstMembership (s : State) (groupQUID userFUID : String) : Option GroupMember :=
  s.groupMembers.find? (fun m => decide (m.GroupQUID = groupQUID ∧ m.UserFUID = userFUID))

/-- The statement `db.Save(&member)`, when it succeeds: the row with the primary key of
`member` gets the values of `member`. -/
def saveMember (s : State) (member : GroupMember) : State :=
  { s with groupMembers := s.groupMembers.map (fun m => if m.ID = member.ID then member else m) }

/-- The statements of `joinGroupHandler` from the check of the member count ("检查群成员数量是否
超限") to its end; `written` holds the responses that the handler has written before.  The
error of the count is dropped, so a count that fails leaves `memberCount` at 0.  The data of
a success is the text under `msg`. -/
def joinAsNewMember (cfg : GroupConfig) (env : Env) (s : State)
    (currentFUID nickname groupQUID : String) (group : Group) (written : List (Response String)) :
    State × List (Response String) × List Job :=
  let memberCount : Int :=
    if env.dbDown .joinCount then 0 else ((activeMembers s groupQUID).length : Int)
  if memberCount ≥ cfg.MemberMax then
    (s, written ++ [fail 400 ("群成员数量已达上限(" ++ toString cfg.MemberMax ++ ")")], [])
  else if env.dbErr then (s, written ++ [fail 500 ("加入群聊失败: " ++ env.errText)], [])
  else
    ({ s with
        groupMembers := s.groupMembers ++ [⟨s.groupMemberSeq + 1, groupQUID, currentFUID, 0, zeroTime, 1⟩]
        groupMemberSeq := s.groupMemberSeq + 1 },
      written ++ [success "加入群聊成功"],
      if cfg.NtfyEnable then
        [.sendNtfyNotification "入群通知"
          ("用户" ++ nickname ++ "(" ++ currentFUID ++ ")加入群聊" ++ group.Name) group.OwnerFUID]
      else [])

/-- The handler `joinGroupHandler` for the logged-in user `currentFUID` (with the nickname
`nickname`) and the requested group: the state, the responses it writes, in order, and the
jobs it starts.  After the failure "已加入该群聊" the handler does not return: it goes on to
the count and the insert. -/
def joinGroupHandler (cfg : GroupConfig) (env : Env) (s : State)
    (currentFUID nickname groupQUID : String) : State × List (Response String) × List Job :=
  if currentFUID = "" then (s, [fail 401 "未登录"], [])
  else if groupQUID = "" then (s, [fail 400 ("参数错误: " ++ env.errText)], [])
  else
    match firstOrError env .joinFindGroup (firstGroup s groupQUID) with
    | none => (s, [fail 400 "群聊不存在或已解散"], [])
    | some group =>
      match firstOrError env .joinFindMember (firstMembership s groupQUID currentFUID) with
      | none => joinAsNewMember cfg env s currentFUID nickname groupQUID group []
      | some member =>
        if member.Status = 1 then
          joinAsNewMember cfg env s currentFUID nickname groupQUID group [fail 400 "已加入该群聊"]
        else if member.Status = 0 then
          if env.dbErr then (s, [fail 500 ("恢复群成员身份失败: " ++ env.errText)], [])
          else (saveMember s { member with Status := 1 }, [success "重新加入群聊成功"], [])
        else joinAsNewMember cfg env s currentFUID nickname groupQUID group []

/-! ## Steps of the message subsystem -/

/-- One step of the message subsystem: a send, a run of a job (delivery, push or
notification, with any arguments), a recall, or a drain of the offline queue. -/
inductive MsgStep : State → State → Prop where
  | send (env : Env) (s : State) (currentFUID : String) (req : SendMessageReq) (s' : State)
      (resp : Response SendData) (jobs : List Job)
      (h : sendMessageHandler env s currentFUID req = some (s', resp, jobs)) : MsgStep s s'
  | sendVoice (env : Env) (s : State) (currentFUID : String) (req : SendVoiceReq) (s' : State)
      (resp : Response SendVoiceData) (jobs : List Job)
      (h : sendVoiceMessageHandler env s currentFUID req = some (s', resp, jobs)) : MsgStep s s'
  | job (env : Env) (s : State) (j : Job) : MsgStep s (runJob env s j)
  | recalling (cfg : Config) (env : Env) (s : State) (currentFUID msgID : String) :
      MsgStep s (recallMessageHandler cfg env s currentFUID msgID).1
  | drain (env : Env) (s : State) (currentFUID : String) :
      MsgStep s (getOfflineMessageHandler env s currentFUID).1

/-- The columns of a message that are written once, by the insert. -/
def Message.fixedPart (m : Message) : Nat × String × String × Nat × String × Nat × String × Int :=
  (m.ID, m.MsgID, m.SenderFUID, m.ReceiverType, m.ReceiverID, m.ContentType, m.Content, m.SendTime)

/-- The row `m'` is the row `m` at a later moment: the same fixed columns, and still recalled
if `m` was. -/
def Message.Kept (m m' : Message) : Prop :=
  m'.fixedPart = m.fixedPart ∧ (m.IsRecalled = true → m'.IsRecalled = true)

/-- Every row of `messages` in `s` is still there in `s'`, at the same place, kept. -/
def MessagesKept (s s' : State) : Prop :=
  ∀ (i : Nat) (m : Message), s.messages[i]? = some m →
    ∃ m' : Message, s'.messages[i]? = some m' ∧ m.Kept m'

/-! ## Measures used in the statements -/

/-- The rows that `s'` holds in `offline_messages` after the rows of `s`. -/
def newOfflineRows (s s' : State) : List OfflineMessage :=
  s'.offlineMessages.drop s.offlineMessages.length

/-- The number of rows of `rows` that belong to the user `userFUID`. -/
def rowsOf (rows : List OfflineMessage) (userFUID : String) : Nat :=
  rows.countP (fun om => decide (om.UserFUID = userFUID))

/-- The number of active membership rows of `userFUID` in the group `groupQUID`. -/
def membershipRows (s : State) (groupQUID userFUID : String) : Nat :=
  (activeMembers s groupQUID).countP (fun m => decide (m.UserFUID = userFUID))

/-- The counter stored under `offline_msg_count:<fuid>`, when there is one. -/
def offlineCounter (s : State) (now : Int) (userFUID : String) : Option RedisValue :=
  (redisFind s.rdb now ("offline_msg_count:" ++ userFUID)).map (fun e => e.val)

/-- The identifiers in the data of a response of `getOfflineMessageHandler`. -/
def drainedIDs (r : Response (List MessageData)) : List String :=
  (r.Data.getD []).map (fun d => d.msg_id)

/-- Run jobs one after the other, in the order of the list. -/
def runJobs (env : Env) (s : State) (jobs : List Job) : State :=
  jobs.foldl (runJob env) s

/-! ## Sample states -/

/-- A sample environment: every store answers, and the one draw of random bytes is 0, 1, ..., 31. -/
def demoEnv : Env :=
  { now := 1700000000 * second
    redisDown := fun _ => false
    dbErr := false
    dbDown := fun _ => false
    errText := "connection refused"
    draws := [.ok (List.range 32)]
    formatTime := fun t => toString t }

/-- The sample environment with Redis unreachable for the presence key of `bob`. -/
def demoEnvDown : Env :=
  { demoEnv with redisDown := fun key => decide (key = "online_user:bob") }

/-- A sample state: `alice` and `bob` are friends and `bob` has a live presence key. -/
def demoDirect : State :=
  { friends := [⟨1, "alice", "bob", "", 1⟩, ⟨2, "bob", "alice", "", 1⟩]
    groups := []
    groupMembers := []
    groupMemberSeq := 0
    messages := []
    messageSeq := 0
    offlineMessages := []
    offlineSeq := 0
    calls := []
    rdb := [⟨"online_user:bob", .str "conn-1", some (1700003600 * second)⟩]
    broadcasts := [] }

/-- A sample state: the group `g1` has the active members `alice`, `bob` and `carol`, and the
former member `dave`; only `bob` has a live presence key. -/
def demoGroup : State :=
  { friends := []
    groups := [⟨1, "g1", "Group One", "alice", 1⟩]
    groupMembers := [⟨1, "g1", "alice", 1, zeroTime, 1⟩, ⟨2, "g1", "bob", 0, zeroTime, 1⟩,
      ⟨3, "g1", "carol", 0, zeroTime, 1⟩, ⟨4, "g1", "dave", 0, zeroTime, 0⟩]
    groupMemberSeq := 4
    messages := []
    messageSeq := 0
    offlineMessages := []
    offlineSeq := 0
    calls := []
    rdb := [⟨"online_user:bob", .str "conn-1", some (1700003600 * second)⟩]
    broadcasts := [] }

/-- A sample direct text message to `bob`. -/
def demoSendDirect : SendMessageReq := ⟨1, "bob", 1, "ciphertext", "", 0, ""⟩

/-- A sample text message to the group `g1`. -/
def demoSendGroup : SendMessageReq := ⟨2, "g1", 1, "ciphertext", "", 0, ""⟩

/-- The handler `sendMessageHandler` followed by its jobs, run in the order in which they were
started: one of the schedules of the three `go` statements. -/
def sendAndDeliver (env : Env) (s : State) (currentFUID : String) (req : SendMessageReq) :
    Option State :=
  (sendMessageHandler env s currentFUID req).map (fun r => runJobs env r.1 r.2.2)

/-- A sample stored message: a direct text message from `alice` to `bob`. -/
def demoMessage : Message :=
  { ID := 1, MsgID := "m1", SenderFUID := "alice", ReceiverType := 1, ReceiverID := "bob",
    ContentType := 1, Content := "ciphertext", FontStyle := "思源黑体", FontSize := 14,
    FontColor := "#000000", IsRecalled := false, IsRead := false,
    SendTime := 1700000000 * second, CreatedAt := 1700000000 * second,
    UpdatedAt := 1700000000 * second }

/-- The sender `currentFUID` may send to the target: for a direct target there is an active
friend row from the sender to the receiver and no blacklist row from the receiver to the
sender; for a group target there is an active membership row of the sender whose
`MuteEndTime` is not after `now`. -/
def SendAuthorized (env : Env) (s : State) (currentFUID : String) (receiverType : Nat)
    (receiverID : String) : Prop :=
  if receiverType = 1 then
    (∃ f ∈ s.friends, f.UserFUID = currentFUID ∧ f.FriendFUID = receiverID ∧ f.Status = 1) ∧
    ¬ ∃ f ∈ s.friends, f.UserFUID = receiverID ∧ f.FriendFUID = currentFUID ∧ f.Status = 2
  else if receiverType = 2 then
    ∃ m ∈ s.groupMembers, m.GroupQUID = receiverID ∧ m.UserFUID = currentFUID ∧ m.Status = 1 ∧
      m.MuteEndTime ≤ env.now
  else False

instance (env : Env) (s : State) (currentFUID : String) (receiverType : Nat) (receiverID : String) :
    Decidable (SendAuthorized env s currentFUID receiverType receiverID) := by
  delta SendAuthorized
  infer_instance

/-- What a run of `saveOfflineMessage` keeps: every table but `offline_messages`, the log of
broadcasts, and the presence keys of Redis. -/
structure OfflineFrame (env : Env) (s s' : State) : Prop where
  friends : s'.friends = s.friends
  groupMembers : s'.groupMembers = s.groupMembers
  messages : s'.messages = s.messages
  messageSeq : s'.messageSeq = s.messageSeq
  calls : s'.calls = s.calls
  broadcasts : s'.broadcasts = s.broadcasts
  presence : ∀ a, redisFind s'.rdb env.now ("online_user:" ++ a)
    = redisFind s.rdb env.now ("online_user:" ++ a)

/-- A sample configuration: a recall window of 120 seconds. -/
def demoCfg : Config := ⟨120, false⟩

/-- A sample state: the message `demoMessage` from `alice` to `bob` is stored. -/
def demoStored : State :=
  { demoDirect with messages := [demoMessage], messageSeq := 1 }

/-- A sample state: the message of `demoStored` has been recalled. -/
def demoRecalled : State :=
  { demoDirect with messages := [{ demoMessage with IsRecalled := true }], messageSeq := 1 }

/-- The sample environment, `sec` seconds after `demoMessage` was sent. -/
def demoEnvAfter (sec : Int) : Env :=
  { demoEnv with now := (1700000000 + sec) * second }

/-- A sample state: `alice` has called her friend `bob` (call `c1`, accepted and active) and
`carol` has called `bob` (call `c2`, still ringing). -/
def demoCalls : State :=
  { demoDirect with
    calls := [⟨"c1", "alice", 1, "bob", 1, 1, 1700000000 * second, zeroTime, 0, 1699999990 * second⟩,
      ⟨"c2", "carol", 1, "bob", 1, 0, zeroTime, zeroTime, 0, 1699999995 * second⟩] }

/-- A sample request: a voice call to `bob`. -/
def demoInitCall : InitCallReq := ⟨1, "bob", 1⟩

/-- A sample state: in the group `g1` of `demoGroup`, `alice` has started the group call `c3`,
which is still ringing. -/
def demoGroupCall : State :=
  { demoGroup with
    calls := [⟨"c3", "alice", 2, "g1", 1, 0, zeroTime, zeroTime, 0, 1699999990 * second⟩] }

/-- The user is neither the initiator of the call nor a resolved recipient: not the direct
target, and not holding an active membership row of the target group. -/
def CallStranger (s : State) (call : Call) (userFUID : String) : Prop :=
  call.SenderFUID ≠ userFUID ∧
  ¬ (call.ReceiverType = 1 ∧ call.ReceiverID = userFUID) ∧
  ¬ (call.ReceiverType = 2 ∧
      ∃ m ∈ s.groupMembers, m.GroupQUID = call.ReceiverID ∧ m.UserFUID = userFUID ∧ m.Status = 1)

instance (s : State) (call : Call) (userFUID : String) : Decidable (CallStranger s call userFUID) := by
  delta CallStranger
  infer_instance

/-! ## Rate limiters -/

/-- One entry of `cfg.RateLimit`: at most `Limit` requests per `Period` seconds. -/
structure RateLimitEntry where
  Limit : Int
  Period : Int
  deriving DecidableEq, Repr

/-- The entries of `cfg.RateLimit` read by the four limiters. -/
structure RateLimitConfig where
  RegisterLoginIP : RateLimitEntry
  RegisterLoginUser : RateLimitEntry
  MessageConn : RateLimitEntry
  GroupUser : RateLimitEntry
  deriving DecidableEq, Repr

/-- The quotient `rate.Limit(limit) / rate.Limit(period)`, in tokens per second; `none` when the
period is 0 and the floating-point quotient is not a finite number. -/
def rateOf (limit period : Int) : Option ℚ :=
  if period = 0 then none else some ((limit : ℚ) / (period : ℚ))

/-- Modelled from the spec: the token bucket `rate.Limiter` of the package
`golang.org/x/time/rate`, which the source imports and does not contain.  A bucket has a refill
rate in tokens per second, a capacity, the tokens it holds (a fraction) and the instant of its
last refill. -/
structure Limiter where
  limit : Option ℚ
  burst : Int
  tokens : ℚ
  last : Int
  deriving DecidableEq, Repr

/-- Modelled from the spec: `rate.NewLimiter(r, burst)`, called by `newTokenBucketLimiter`; a
bucket created on first use holds its full capacity. -/
def newTokenBucketLimiter (now : Int) (r : Option ℚ) (burst : Int) : Limiter :=
  ⟨r, burst, (burst : ℚ), now⟩

/-- Modelled from the spec: `limiter.Allow()` at the instant `now`.  Tokens accumulate with the
time elapsed since the last refill, up to the capacity; the check takes one token if one is
there, and a denied check takes nothing.  A bucket without a finite rate allows every check. -/
def Limiter.allow (now : Int) (l : Limiter) : Bool × Limiter :=
  match l.limit with
  | none => (true, l)
  | some r =>
    let elapsed : Int := max 0 (now - l.last)
    let refilled : ℚ := min (l.burst : ℚ) (l.tokens + r * (elapsed : ℚ) / 1000000000)
    if 1 ≤ refilled then (true, { l with tokens := refilled - 1, last := now })
    else (false, l)

/-- The method `Load(key)` of a `sync.Map` of limiters. -/
def loadLimiter (m : List (String × Limiter)) (key : String) : Option Limiter :=
  (m.find? (fun e => decide (e.1 = key))).map (fun e => e.2)

/-- The method `LoadOrStore(key, newLimiter)` of a `sync.Map` of limiters: the map with the key
present, holding the stored limiter if there was one and the new one otherwise. -/
def loadOrStore (m : List (String × Limiter)) (key : String) (newLimiter : Limiter) :
    List (String × Limiter) :=
  match loadLimiter m key with
  | some _ => m
  | none => m ++ [(key, newLimiter)]

/-- The call `limiter.Allow()` on the limiter that a `sync.Map` holds under `key` (the getters
return a pointer into the map): the answer, and the map with the limiter updated. -/
def allowIn (now : Int) (m : List (String × Limiter)) (key : String) :
    Bool × List (String × Limiter) :=
  match loadLimiter m key with
  | none => (false, m)
  | some l =>
    ((l.allow now).1, m.map (fun e => if e.1 = key then (e.1, (l.allow now).2) else e))

/-- The four process-wide maps of limiters. -/
structure Limiters where
  registerLoginIPLimiters : List (String × Limiter)
  registerLoginUserLimiters : List (String × Limiter)
  messageConnLimiters : List (String × Limiter)
  GroupUserLimiters : List (String × Limiter)
  deriving DecidableEq, Repr

/-- The function `getRegisterLoginIPLimiter(ip)`: the maps, with a limiter under `ip`. -/
def getRegisterLoginIPLimiter (cfg : RateLimitConfig) (now : Int) (ls : Limiters) (ip : String) :
    Limiters :=
  match loadLimiter ls.registerLoginIPLimiters ip with
  | some _ => ls
  | none =>
    let limit := cfg.RegisterLoginIP.Limit
    let period := cfg.RegisterLoginIP.Period
    let r := rateOf limit period
    let burst := limit
    { ls with registerLoginIPLimiters :=
        loadOrStore ls.registerLoginIPLimiters ip (newTokenBucketLimiter now r burst) }

/-- The function `getRegisterLoginUserLimiter(username)`. -/
def getRegisterLoginUserLimiter (cfg : RateLimitConfig) (now : Int) (ls : Limiters)
    (username : String) : Limiters :=
  match loadLimiter ls.registerLoginUserLimiters username with
  | some _ => ls
  | none =>
    let limit := cfg.RegisterLoginUser.Limit
    let period := cfg.RegisterLoginUser.Period
    let r := rateOf limit period
    let burst := limit
    { ls with registerLoginUserLimiters :=
        loadOrStore ls.registerLoginUserLimiters username (newTokenBucketLimiter now r burst) }

/-- The function `getMessageConnLimiter(ip)`. -/
def getMessageConnLimiter (cfg : RateLimitConfig) (now : Int) (ls : Limiters) (ip : String) :
    Limiters :=
  match loadLimiter ls.messageConnLimiters ip with
  | some _ => ls
  | none =>
    let limit := cfg.MessageConn.Limit
    let period := cfg.MessageConn.Period
    let r := rateOf limit period
    let burst := limit
    { ls with messageConnLimiters :=
        loadOrStore ls.messageConnLimiters ip (newTokenBucketLimiter now r burst) }

/-- The function `getGroupUserLimiter(key)`. -/
def getGroupUserLimiter (cfg : RateLimitConfig) (now : Int) (ls : Limiters) (key : String) :
    Limiters :=
  match loadLimiter ls.GroupUserLimiters key with
  | some _ => ls
  | none =>
    let limit := cfg.GroupUser.Limit
    let period := cfg.GroupUser.Period
    let r := rateOf limit period
    let burst := limit
    { ls with GroupUserLimiters :=
        loadOrStore ls.GroupUserLimiters key (newTokenBucketLimiter now r burst) }

/-- The middleware `limiters["register_login_ip"]` for the client address `ip` (`getRealIP`):
the maps after the check, and the failure written when the request is aborted (`none` when the
request goes on with `c.Next()`). -/
def registerLoginIPMiddleware (cfg : RateLimitConfig) (now : Int) (ls : Limiters) (ip : String) :
    Limiters × Option (Response Unit) :=
  let ls1 := getRegisterLoginIPLimiter cfg now ls ip
  let r := allowIn now ls1.registerLoginIPLimiters ip
  ({ ls1 with registerLoginIPLimiters := r.2 },
    if !r.1 then some (fail 429 "IP请求过于频繁，请稍后再试") else none)

/-- The middleware `limiters["register_login_user"]` for the form fields `username` and
`email`. -/
def registerLoginUserMiddleware (cfg : RateLimitConfig) (now : Int) (ls : Limiters)
    (usernameField emailField : String) : Limiters × Option (Response Unit) :=
  let username := if usernameField = "" then emailField else usernameField
  if username = "" then (ls, some (fail 400 "用户名或邮箱不能为空"))
  else
    let ls1 := getRegisterLoginUserLimiter cfg now ls username
    let r := allowIn now ls1.registerLoginUserLimiters username
    ({ ls1 with registerLoginUserLimiters := r.2 },
      if !r.1 then some (fail 429 "账号请求过于频繁，请稍后再试") else none)

/-- The middleware `limiters["message_conn"]` for the client address `ip` (`c.ClientIP()`). -/
def messageConnMiddleware (cfg : RateLimitConfig) (now : Int) (ls : Limiters) (ip : String) :
    Limiters × Option (Response Unit) :=
  let ls1 := getMessageConnLimiter cfg now ls ip
  let r := allowIn now ls1.messageConnLimiters ip
  ({ ls1 with messageConnLimiters := r.2 },
    if !r.1 then some (fail 429 "消息发送过于频繁，请稍后再试") else none)

/-- The bucket key `fmt.Sprintf("%s:%s", fuid, groupID)` of the middleware `group_user`. -/
def groupUserKey (fuid groupID : String) : String := fuid ++ ":" ++ groupID

/-- The middleware `limiters["group_user"]` for the header `FUID` and the form field
`group_id`. -/
def groupUserMiddleware (cfg : RateLimitConfig) (now : Int) (ls : Limiters)
    (fuid groupID : String) : Limiters × Option (Response Unit) :=
  if fuid = "" ∨ groupID = "" then (ls, some (fail 400 "FUID或房间ID不能为空"))
  else
    let key := groupUserKey fuid groupID
    let ls1 := getGroupUserLimiter cfg now ls key
    let r := allowIn now ls1.GroupUserLimiters key
    ({ ls1 with GroupUserLimiters := r.2 },
      if !r.1 then some (fail 429 "房间内操作过于频繁，请稍后再试") else none)

/-- The answers of `k` consecutive runs of a middleware, all at one instant, and the maps after
them. -/
def runChecks (check : Limiters → Limiters × Option (Response Unit)) :
    Nat → Limiters → List (Option (Response Unit)) × Limiters
  | 0, ls => ([], ls)
  | k + 1, ls =>
    let r := check ls
    let rest := runChecks check k r.1
    (r.2 :: rest.1, rest.2)

/-- A sample configuration of the limiters: five requests per minute in every dimension. -/
def demoRateLimit : RateLimitConfig := ⟨⟨5, 60⟩, ⟨5, 60⟩, ⟨5, 60⟩, ⟨5, 60⟩⟩

/-- A sample configuration of the limiters: one request per minute in every dimension. -/
def demoRateLimitOne : RateLimitConfig := ⟨⟨1, 60⟩, ⟨1, 60⟩, ⟨1, 60⟩, ⟨1, 60⟩⟩

/-- The maps of limiters before any request. -/
def noLimiters : Limiters := ⟨[], [], [], []⟩

/-- The check that each middleware makes on its own map: get or create the limiter under
`key`, then `Allow()`. -/
def checkKey (c : RateLimitEntry) (now : Int) (m : List (String × Limiter)) (key : String) :
    Bool × List (String × Limiter) :=
  allowIn now
    (match loadLimiter m key with
      | some _ => m
      | none => loadOrStore m key (newTokenBucketLimiter now (rateOf c.Limit c.Period) c.Limit))
    key

/-- The map holds under `key` a bucket of rate `r` and capacity `b`, refilled at `now`, with
`t` tokens. -/
def BucketHolds (m : List (String × Limiter)) (key : String) (r : ℚ) (b : Int) (now : Int)
    (t : ℚ) : Prop :=
  loadLimiter m key = some ⟨some r, b, t, now⟩

/-! ## Connection sessions -/

/-- How a Go function ends: with a value, with an error that it returns, or with a run-time
panic. -/
inductive Outcome (α : Type) where
  | ok (a : α)
  | error (msg : String)
  | panic (msg : String)
  deriving DecidableEq, Repr

/-- A value of a decoded JSON object (`map[string]interface{}`): a number (a `float64`), a
string, or anything else. -/
inductive JSONValue where
  | number (x : ℚ)
  | string (s : String)
  | other
  deriving DecidableEq, Repr

/-- The library functions that the connect handler calls and the source does not contain. -/
structure Codec where
  /-- The call `base64.StdEncoding.DecodeString(token)`; `none` is its error. -/
  base64Decode : String → Option (List Nat)
  /-- The decryption of one 16-byte block by the AES cipher of a key (`aes.NewCipher(key)`). -/
  blockDecrypt : List Nat → List Nat → List Nat
  /-- The call `json.Unmarshal(bytes, &payload)` into a map; `none` is its error. -/
  jsonObject : List Nat → Option (List (String × JSONValue))

/-- The configuration values under `cfg.Crypto.JWT` read by the connect handler. -/
structure SocketConfig where
  /-- The bytes of `cfg.Crypto.JWT.Secret`. -/
  Secret : List Nat
  /-- The value `cfg.Crypto.JWT.Expire`, in seconds. -/
  Expire : Int
  deriving DecidableEq, Repr

/-- The function `pkcs7Unpadding(data)`. -/
def pkcs7Unpadding (data : List Nat) : Except String (List Nat) :=
  let length := data.length
  if length = 0 then .error "padding data is empty"
  else
    let padding := data.getD (length - 1) 0
    if padding > length ∨ padding = 0 then .error "invalid padding"
    else .ok (data.take (length - padding))

/-- The byte-wise exclusive or of two blocks. -/
def xorBytes (a b : List Nat) : List Nat := List.zipWith Nat.xor a b

/-- The loop of `CryptBlocks` of a CBC decrypter over whole blocks of 16 bytes: each block is
decrypted and combined with the block before it (the initialisation vector for the first). -/
def cbcDecryptBlocks (dec : List Nat → List Nat) : Nat → List Nat → List Nat → List Nat
  | 0, _, _ => []
  | k + 1, prev, src =>
    xorBytes (dec (src.take 16)) prev ++ cbcDecryptBlocks dec k (src.take 16) (src.drop 16)

/-- The function `aesDecrypt(cipherText, key)`.  `aes.NewCipher` returns an error for a key
that is not 16, 24 or 32 bytes long, and `CryptBlocks` panics when its input is not a whole
number of blocks. -/
def aesDecrypt (codec : Codec) (cipherText key : List Nat) : Outcome (List Nat) :=
  if ¬ (key.length = 16 ∨ key.length = 24 ∨ key.length = 32) then
    .error ("crypto/aes: invalid key size " ++ toString key.length)
  else
    let blockSize := 16
    if cipherText.length < blockSize then .error "cipher text too short"
    else
      let iv := cipherText.take blockSize
      let rest := cipherText.drop blockSize
      if rest.length % blockSize ≠ 0 then .panic "crypto/cipher: input not full blocks"
      else
        match pkcs7Unpadding
            (cbcDecryptBlocks (codec.blockDecrypt key) (rest.length / blockSize) iv rest) with
        | .error e => .error e
        | .ok plain => .ok plain

/-- The conversion `int64(x)` of a `float64`: the integer part, and the least `int64` when the
integer part does not fit. -/
def int64OfFloat (x : ℚ) : Int :=
  let t := Int.tdiv x.num x.den
  if -(2 ^ 63) ≤ t ∧ t < 2 ^ 63 then t else -(2 ^ 63)

/-- The value `time.Now().Unix()`: the whole seconds of the instant `now`. -/
def unixSeconds (now : Int) : Int := now / second

/-- The token check of the connect handler ("验证Token" to `fuid := payload["fuid"].(string)`):
the subject of the token, the error that the handler returns, or the panic of the unchecked
type assertion on `fuid`. -/
def connectToken (codec : Codec) (cfg : SocketConfig) (env : Env) (token : String) :
    Outcome String :=
  if token = "" then .error "未提供Token"
  else
    match codec.base64Decode token with
    | none => .error "Token无效"
    | some encryptedPayload =>
      match aesDecrypt codec encryptedPayload cfg.Secret with
      | .panic m => .panic m
      | .error _ => .error "Token无效"
      | .ok payloadBytes =>
        match codec.jsonObject payloadBytes with
        | none => .error "Token无效"
        | some payload =>
          match payload.lookup "exp" with
          | some (.number exp) =>
            if int64OfFloat exp < unixSeconds env.now then .error "Token已过期"
            else
              match payload.lookup "fuid" with
              | some (.string fuid) => .ok fuid
              | _ => .panic "interface conversion: interface is not string"
          | _ => .error "Token已过期"

/-- A socket.io connection that is open: its id and the rooms it has joined. -/
structure Session where
  id : String
  rooms : List String
  deriving DecidableEq, Repr

/-- The call `rdb.Set(ctx, key, value, ttl)`, whose result the callers ignore: the key gets
the value, with an expiry when `ttl` is positive. -/
def rdbSet (env : Env) (rdb : List RedisEntry) (key : String) (val : RedisValue) (ttl : Int) :
    List RedisEntry :=
  if env.redisDown key then rdb
  else redisErase rdb key ++ [⟨key, val, if ttl > 0 then some (env.now + ttl) else none⟩]

/-- The query `db.Where("user_fuid = ? AND status = 1", fuid).Find(&groupMembers)`. -/
def membershipsOf (s : State) (fuid : String) : List GroupMember :=
  s.groupMembers.filter (fun m => decide (m.UserFUID = fuid ∧ m.Status = 1))

/-- The rooms that the connect handler joins for `fuid`: `user:<fuid>`, then `group:<quid>` for
every membership row that its query returns (the error of the query is dropped). -/
def roomsFor (env : Env) (s : State) (fuid : String) : List String :=
  ("user:" ++ fuid) ::
    (findOrEmpty env .findMemberships (membershipsOf s fuid)).map (fun gm => "group:" ++ gm.GroupQUID)

/-- The statement `rdb.Set(ctx, "online_user:"+fuid, s.ID(), ...)` of the connect handler, with
the expiry `time.Duration(cfg.Crypto.JWT.Expire)*time.Second`. -/
def setOnline (cfg : SocketConfig) (env : Env) (s : State) (fuid connID : String) : State :=
  { s with rdb := rdbSet env s.rdb ("online_user:" ++ fuid) (.str connID) (wrap64 (cfg.Expire * second)) }

/-- The handler `server.OnConnect` for a new connection `connID` that presents `token`: how it
ends, the state, and the open connections.  A connection whose handler does not return `nil`
is not kept open. -/
def onConnect (codec : Codec) (cfg : SocketConfig) (env : Env) (s : State) (hub : List Session)
    (connID token : String) : Outcome Unit × State × List Session :=
  match connectToken codec cfg env token with
  | .error m => (.error m, s, hub)
  | .panic m => (.panic m, s, hub)
  | .ok fuid => (.ok (), setOnline cfg env s fuid connID, hub ++ [⟨connID, roomsFor env s fuid⟩])

/-- The keys returned by `rdb.Scan(ctx, 0, "online_user:*", 0)`: the live keys that start with
`online_user:`; nothing when the call fails. -/
def scanPresence (env : Env) (rdb : List RedisEntry) : List String :=
  if env.redisDown "online_user:*" then []
  else
    (rdb.filter (fun e => e.live env.now && "online_user:".toList.isPrefixOf e.key.toList)).map
      (fun e => e.key)

/-- The value `val` of `val, _ := rdb.Get(ctx, key).Result()`: the string under the key, and
the empty string when the call fails or the key is missing. -/
def rdbGetString (env : Env) (rdb : List RedisEntry) (key : String) : String :=
  if env.redisDown key then ""
  else
    match redisFind rdb env.now key with
    | none => ""
    | some e =>
      match e.val with
      | .str v => v
      | .int n => toString n

/-- The call `strings.TrimPrefix(key, "online_user:")`. -/
def trimPresencePrefix (key : String) : String :=
  if "online_user:".toList.isPrefixOf key.toList then String.mk (key.toList.drop 12) else key

/-- The loop of the disconnect handler: the `fuid` taken from the first scanned key whose value
is the id of the connection, and `""` when there is none. -/
def disconnectFUID (env : Env) (rdb : List RedisEntry) (connID : String) : String :=
  match (scanPresence env rdb).find? (fun key => decide (rdbGetString env rdb key = connID)) with
  | none => ""
  | some key => trimPresencePrefix key

/-- The handler `server.OnDisconnect` for the connection `connID`, which is no longer open. -/
def onDisconnect (env : Env) (s : State) (hub : List Session) (connID : String) :
    State × List Session :=
  let fuid := disconnectFUID env s.rdb connID
  let s1 := if fuid ≠ "" then { s with rdb := rdbDel env s.rdb ("online_user:" ++ fuid) } else s
  (s1, hub.filter (fun c => decide (c.id ≠ connID)))

/-- A sample of the library functions: four tokens decode to an initialisation vector of zero
bytes followed by one block (or by a single byte, for `tok-odd`), the block cipher is the
identity, and two plaintexts parse as JSON objects, one with `exp` and `fuid` and one with
`exp` only. -/
def demoCodec : Codec :=
  { base64Decode := fun token =>
      if token = "tok-alice" then some (List.replicate 16 0 ++ (List.replicate 15 65 ++ [1]))
      else if token = "tok-bob" then some (List.replicate 16 0 ++ (List.replicate 15 66 ++ [1]))
      else if token = "tok-nofuid" then some (List.replicate 16 0 ++ (List.replicate 15 78 ++ [1]))
      else if token = "tok-odd" then some (List.replicate 16 0 ++ [1])
      else none
    blockDecrypt := fun _ block => block
    jsonObject := fun bytes =>
      if bytes = List.replicate 15 65 then
        some [("exp", .number 1800000000), ("fuid", .string "alice")]
      else if bytes = List.replicate 15 66 then
        some [("exp", .number 1800000000), ("fuid", .string "bob")]
      else if bytes = List.replicate 15 78 then some [("exp", .number 1800000000)]
      else none }

/-- A sample configuration of the connect handler: a key of 32 bytes and tokens valid for an
hour. -/
def demoSocketCfg : SocketConfig := ⟨List.replicate 32 7, 3600⟩

/-- The sample environment with Redis unreachable for the presence key of `alice`. -/
def demoEnvDownAlice : Env :=
  { demoEnv with redisDown := fun key => decide (key = "online_user:alice") }

/-- A sample registry: the presence keys of `alice` and of `bob` both hold the connection id
`conn-1`. -/
def demoSharedID : State :=
  { demoDirect with
    rdb := [⟨"online_user:alice", .str "conn-1", none⟩, ⟨"online_user:bob", .str "conn-1", none⟩] }

/-- The presence keys under which the registry holds the id of the connection: the keys that
the loop of the disconnect handler can find. -/
def sessionKeys (env : Env) (rdb : List RedisEntry) (connID : String) : List String :=
  (scanPresence env rdb).filter (fun key => decide (rdbGetString env rdb key = connID))

/-- The sample environment at the instant `t`. -/
def demoEnvAt (t : Int) : Env :=
  { demoEnv with now := t }

/-- The identifier that `generateUniqueID` draws in the sample environment. -/
def demoCallID : String := "0123456789abcdefghijklmnopqrstuv"

/-- A sample state: `alice` has called her friend `bob` in `demoDirect` (the call is ringing). -/
def demoRinging : State :=
  match initCallHandler demoEnv demoDirect "alice" demoInitCall with
  | some o => o.1
  | none => demoDirect

/-- A sample state: `bob` has accepted the call of `demoRinging` ten seconds later. -/
def demoAccepted : State :=
  (acceptCallHandler (demoEnvAfter 10) demoRinging "bob" demoCallID).1

/-- The sample environment `2^24` seconds and 999999999 nanoseconds after the accept of
`demoAccepted`. -/
def demoEnvLong : Env :=
  demoEnvAt ((1700000010 + 16777216) * second + 999999999)

/-- The sample environment 65 seconds and 999999999 nanoseconds after the accept of
`demoAccepted`. -/
def demoEnvShort : Env :=
  demoEnvAt ((1700000010 + 65) * second + 999999999)

/-! ## PKCS7 padding -/

/-- The function `pkcs7Padding(data, blockSize)`.  The remainder by a block size of zero
panics, `bytes.Repeat` panics on a negative count, and `byte(padding)` keeps the low eight
bits of `padding`. -/
def pkcs7Padding (data : List Nat) (blockSize : Int) : Outcome (List Nat) :=
  if blockSize = 0 then .panic "runtime error: integer divide by zero"
  else
    let padding := blockSize - Int.tmod (data.length : Int) blockSize
    if padding < 0 then .panic "bytes: negative Repeat count"
    else .ok (data ++ List.replicate padding.toNat (padding.toNat % 256))

/-! ## Access tokens -/

/-- Row of table `users` (the columns that the modelled code reads). -/
structure User where
  FUID : String
  Username : String
  Nickname : String
  Status : Nat
  deriving DecidableEq, Repr

/-- The claims `CustomClaims`: the four fields of the program and the fields of
`jwt.RegisteredClaims`, with dates in nanoseconds since the Unix epoch. -/
structure CustomClaims where
  FUID : String
  Username : String
  Nickname : String
  DeviceID : String
  Issuer : String
  Subject : String
  Audience : List String
  ExpiresAt : Option Int
  NotBefore : Option Int
  IssuedAt : Option Int
  ID : String
  deriving DecidableEq, Repr

/-- The errors of `jwt.ParseWithClaims` that `authMiddleware` tells apart. -/
inductive JWTError where
  | signatureInvalid
  | tokenExpired
  | tokenNotValidYet
  | other (msg : String)
  deriving DecidableEq, Repr

/-- A parsed token (`*jwt.Token`): its claims and its field `Valid`. -/
structure Token where
  Claims : CustomClaims
  Valid : Bool
  deriving DecidableEq, Repr

/-- The functions of the JWT library that the program calls and the source does not contain. -/
structure JWTLib where
  /-- The call `jwt.NewWithClaims(jwt.SigningMethodHS256, claims).SignedString(key)`. -/
  signedString : CustomClaims → List Nat → Except String String
  /-- The call `jwt.ParseWithClaims(tokenStr, &CustomClaims{}, keyFunc)` at the instant `now`,
  with a `keyFunc` that accepts the HMAC methods only and returns `key`. -/
  parseWithClaims : String → List Nat → Int → Except JWTError Token

/-- The configuration values read by `loginHandler` and `authMiddleware`. -/
structure AuthConfig where
  /-- The value `cfg.App.Name`. -/
  AppName : String
  /-- The bytes of `cfg.Crypto.JWT.Secret`. -/
  Secret : List Nat
  /-- The value `cfg.Crypto.JWT.Expire`, in seconds. -/
  Expire : Int
  deriving DecidableEq, Repr

/-- The call `jwt.NewNumericDate(t)`: the instant cut to whole seconds. -/
def newNumericDate (t : Int) : Int := t - t % second

/-- The claims that `loginHandler` signs ("生成访问令牌") for the user row `user` and the device
`deviceID` at the instant `now`: the four fields of the program, `ExpiresAt` and `IssuedAt`;
the other registered claims keep their zero values. -/
def accessClaims (cfg : AuthConfig) (now : Int) (user : User) (deviceID : String) :
    CustomClaims :=
  let accessExp := now + wrap64 (cfg.Expire * second)
  { FUID := user.FUID, Username := user.Username, Nickname := user.Nickname,
    DeviceID := deviceID, Issuer := "", Subject := "", Audience := [],
    ExpiresAt := some (newNumericDate accessExp), NotBefore := none,
    IssuedAt := some (newNumericDate now), ID := "" }

/-- The access token of `loginHandler`: the claims `accessClaims`, signed with the secret of
the configuration; an error makes the login fail with code 500. -/
def loginAccessToken (lib : JWTLib) (cfg : AuthConfig) (now : Int) (user : User)
    (deviceID : String) : Except String String :=
  lib.signedString (accessClaims cfg now user deviceID) cfg.Secret

/-- The call `strings.SplitN(s, " ", 2)`: the string cut at its first space, if it has one. -/
def splitN2 (s : String) : List String :=
  match s.toList.span (fun c => decide (c ≠ ' ')) with
  | (a, []) => [String.mk a]
  | (a, _ :: b) => [String.mk a, String.mk b]

/-- How a gin middleware ends: it aborts the request with a response, it calls `c.Next()` with
values set in the context, or it returns without either (the chain goes on with no value
set). -/
inductive AuthOutcome where
  | aborted (resp : Response Unit)
  | next (fuid username nickname : String)
  | passed
  deriving DecidableEq, Repr

/-- The text that `authMiddleware` reports for an error of the parse. -/
def parseErrorMsg : JWTError → String
  | .signatureInvalid => "令牌签名无效"
  | .tokenExpired => "令牌已过期或未生效"
  | .tokenNotValidYet => "令牌已过期或未生效"
  | .other _ => "令牌解析失败"

/-- The query `db.Where("fuid = ? AND status = 1", fuid).First(&user)`. -/
def firstActiveUser (users : List User) (fuid : String) : Option User :=
  users.find? (fun u => decide (u.FUID = fuid ∧ u.Status = 1))

/-- The handler returned by `authMiddleware()` on the header `Authorization`, over the table
`users`. -/
def authMiddleware (lib : JWTLib) (cfg : AuthConfig) (env : Env) (users : List User)
    (authHeader : String) : AuthOutcome :=
  if authHeader = "" then .aborted (fail 401 "未提供令牌")
  else
    let parts := splitN2 authHeader
    if ¬ (parts.length = 2 ∧ parts.getD 0 "" = "Bearer") then
      .aborted (fail 401 "令牌格式错误（需Bearer前缀）")
    else
      let tokenStr := parts.getD 1 ""
      match lib.parseWithClaims tokenStr cfg.Secret env.now with
      | .error e => .aborted (fail 401 (parseErrorMsg e))
      | .ok token =>
        if token.Valid then
          if token.Claims.Issuer ≠ cfg.AppName then .aborted (fail 401 "无效的令牌签发者")
          else if token.Claims.Subject ≠ "access_token" then .aborted (fail 401 "令牌类型错误")
          else
            match firstActiveUser users token.Claims.FUID with
            | none => .aborted (fail 401 "用户不存在或已被禁用")
            | some _ =>
              if token.Valid then
                .next token.Claims.FUID token.Claims.Username token.Claims.Nickname
              else .aborted (fail 401 "令牌无效")
        else .passed

/-- A sample row of `users`: the active user `alice`. -/
def demoAlice : User := ⟨"alice", "alice01", "Alice", 1⟩

/-- A sample configuration: the application `openChat`, a key of 32 bytes and access tokens
valid for an hour. -/
def demoAuthCfg : AuthConfig := ⟨"openChat", List.replicate 32 7, 3600⟩

/-- The sample configuration with an empty application name. -/
def demoAuthCfgNoName : AuthConfig := { demoAuthCfg with AppName := "" }

/-- A sample of the JWT library under the configuration `cfg`: it renders the claims of a user
as `jwt:<fuid>`, and it parses `jwt:alice` to the claims that the login of `alice` signs, valid
until they expire. -/
def demoJWT (cfg : AuthConfig) : JWTLib :=
  { signedString := fun claims _ => .ok ("jwt:" ++ claims.FUID)
    parseWithClaims := fun tokenStr key now =>
      if tokenStr = "jwt:alice" ∧ key = cfg.Secret then
        if now > (1700000000 + 3600) * second then .error .tokenExpired
        else .ok ⟨accessClaims cfg (1700000000 * second) demoAlice "dev-1", true⟩
      else .error (.other "token is malformed") }

/-! ## Unread count and clean-up -/

/-- The value `offlineCount` of `getUnreadMessageCountHandler`: the result of
`rdb.Get(ctx, "offline_msg_count:"+fuid).Int64()`, and 0 when that fails (the call fails, the
key is missing or expired, or the value is not a number).  The program stores a string only as
the id of a connection under a presence key; a string is read as not a number. -/
def offlineCount (env : Env) (s : State) (fuid : String) : Int :=
  if env.redisDown ("offline_msg_count:" ++ fuid) then 0
  else
    match redisFind s.rdb env.now ("offline_msg_count:" ++ fuid) with
    | none => 0
    | some e =>
      match e.val with
      | .int n => n
      | .str _ => 0

/-- One round of the loop of `messageAutoCleanTask`, with `cleanTime` the instant
`time.Now().AddDate(0, 0, -cfg.Business.Message.AutoClean.Days)`: the messages sent before
`cleanTime` are deleted (a failure of the store is only logged), then the rows of
`offline_messages` created before `cleanTime` are deleted (the error of this delete is
dropped). -/
def messageAutoClean (env : Env) (s : State) (cleanTime : Int) : State :=
  let s1 := if env.dbErr then s
    else { s with messages := s.messages.filter (fun m => decide (¬ m.SendTime < cleanTime)) }
  if env.dbDown .deleteOffline then s1
  else
    { s1 with
      offlineMessages := s1.offlineMessages.filter (fun om => decide (¬ om.CreatedAt < cleanTime)) }

/-- One step of the offline queue: an enqueue (`saveOfflineMessage`), a drain
(`getOfflineMessageHandler`) or a round of the automatic clean-up. -/
inductive QueueStep : State → State → Prop where
  | enqueue (env : Env) (s : State) (receiverType : Nat) (receiverID msgID : String) :
      QueueStep s (saveOfflineMessage env s receiverType receiverID msgID)
  | drain (env : Env) (s : State) (currentFUID : String) :
      QueueStep s (getOfflineMessageHandler env s currentFUID).1
  | clean (env : Env) (s : State) (cleanTime : Int) :
      QueueStep s (messageAutoClean env s cleanTime)

/-- The counter keys answer in this run: no call on a key `offline_msg_count:<fuid>` fails. -/
def CountersUp (env : Env) : Prop :=
  ∀ fuid : String, env.redisDown ("offline_msg_count:" ++ fuid) = false

/-- The database answers in this run: no statement of `DBStmt` fails. -/
def DatabaseUp (env : Env) : Prop :=
  ∀ stmt : DBStmt, env.dbDown stmt = false

/-- One step of the offline queue with every store call succeeding and no two runs
overlapping: a whole run of `saveOfflineMessage`, into a table of fewer than `2^62` rows for a
target of fewer than `2^62` members, or a whole run of `getOfflineMessageHandler`, in an
environment in which the counter keys and the database answer. -/
inductive QueueStepUp : State → State → Prop where
  | enqueue (env : Env) (s : State) (receiverType : Nat) (receiverID msgID : String)
      (hup : CountersUp env) (hdb : DatabaseUp env) (hrows : s.offlineMessages.length < 2 ^ 62)
      (hmembers : (activeMembers s receiverID).length < 2 ^ 62) :
      QueueStepUp s (saveOfflineMessage env s receiverType receiverID msgID)
  | drain (env : Env) (s : State) (currentFUID : String) (hup : CountersUp env)
      (hdb : DatabaseUp env) :
      QueueStepUp s (getOfflineMessageHandler env s currentFUID).1

/-- The number stored under the counter key of `fuid`, read at the instant `now`: 0 without a
live entry that holds a number. -/
def storedCount (s : State) (now : Int) (fuid : String) : Int :=
  match offlineCounter s now fuid with
  | some (.int n) => n
  | _ => 0

/-- Every entry under a counter key holds a number and has no expiry (as `rdb.Incr` makes
them). -/
def CountersPlain (s : State) : Prop :=
  ∀ e ∈ s.rdb, ∀ fuid : String, e.key = "offline_msg_count:" ++ fuid →
    e.expireAt = none ∧ ∃ n : Int, e.val = .int n

/-- The counter of every user is the number of the rows of the user in `offline_messages` that
are not yet delivered (status 0). -/
def CountersExact (s : State) : Prop :=
  ∀ (now : Int) (fuid : String), storedCount s now fuid = ((pendingOffline s fuid).length : Int)

/-- A second sample stored message from `alice` to `bob`, sent a second after `demoMessage`. -/
def demoMessage2 : Message :=
  { demoMessage with
    ID := 2
    MsgID := "m2"
    SendTime := 1700000001 * second
    CreatedAt := 1700000001 * second
    UpdatedAt := 1700000001 * second }

/-- A sample state: the messages `m1` and then `m2` from `alice` to `bob` are stored. -/
def demoStored2 : State :=
  { demoDirect with messages := [demoMessage, demoMessage2], messageSeq := 2 }

/-- The sample environment with Redis unreachable for the offline counter of `bob`. -/
def demoEnvCounterDown : Env :=
  { demoEnv with redisDown := fun key => decide (key = "offline_msg_count:bob") }

/-- A sample state: with `m1` and `m2` stored, the delivery job of `m2` has run before the
delivery job of `m1`, so `bob` has the pending rows `m2` and then `m1`. -/
def demoQueued : State :=
  saveOfflineMessage (demoEnvAfter 5) (saveOfflineMessage (demoEnvAfter 2) demoStored2 1 "bob" "m2")
    1 "bob" "m1"

/-! ## Sequences of identifiers -/

/-- Calls to `generateUniqueID(length)` one after the other, each in its own run: the
identifiers returned, in order (a call that returns an error or is still retrying adds none),
and the store afterwards. -/
def generateIDs (length : Nat) : List Env → List RedisEntry → List String × List RedisEntry
  | [], rdb => ([], rdb)
  | env :: rest, rdb =>
    match generateUniqueID env length env.draws rdb with
    | some (.ok id, rdb1) => (id :: (generateIDs length rest rdb1).1, (generateIDs length rest rdb1).2)
    | some (.error _, rdb1) => generateIDs length rest rdb1
    | none => generateIDs length rest rdb

/-- The sample environment one second later, with two draws of random bytes: 0, 1, ..., 31
again, and then 32 zero bytes. -/
def demoEnvRetry : Env :=
  { demoEnvAfter 1 with draws := [.ok (List.range 32), .ok (List.replicate 32 0)] }

/-- A sample: `alice` has opened the connection `conn-1` and then the connection `conn-2` over
`demoGroup`; the state and the open connections. -/
def demoTwoSessions : State × List Session :=
  (onConnect demoCodec demoSocketCfg (demoEnvAfter 1)
    (onConnect demoCodec demoSocketCfg demoEnv demoGroup [] "conn-1" "tok-alice").2.1
    (onConnect demoCodec demoSocketCfg demoEnv demoGroup [] "conn-1" "tok-alice").2.2
    "conn-2" "tok-alice").2

/-- The sample environment with Redis unreachable for the presence key of `bob` and the insert
into `offline_messages` for `bob` failing. -/
def demoEnvInsertDown : Env :=
  { demoEnv with
    redisDown := fun key => decide (key = "online_user:bob")
    dbDown := fun stmt => decide (stmt = .createOffline "bob") }

/-- A sample configuration of `joinGroupHandler`: groups of at most 500 members, no ntfy. -/
def demoGroupCfg : GroupConfig := ⟨500, false⟩

/-- A sample state: in `demoGroup`, the active member `alice` has posted a join request for
`g1` again. -/
def demoRejoined : State :=
  (joinGroupHandler demoGroupCfg demoEnv demoGroup "alice" "Alice" "g1").1

/-- A sample state: `alice` has `bob` as an active friend, and `bob` has blacklisted `alice`
(his row for her has status 2). -/
def demoBlacklisted : State :=
  { demoDirect with friends := [⟨1, "alice", "bob", "", 1⟩, ⟨2, "bob", "alice", "", 2⟩] }

/-- The sample environment with the blacklist query of the send handlers failing. -/
def demoEnvBlacklistDown : Env :=
  { demoEnv with dbDown := fun stmt => decide (stmt = .findBlacklist) }

/-- The sample environment with the friend query of the send handlers failing. -/
def demoEnvFriendDown : Env :=
  { demoEnv with dbDown := fun stmt => decide (stmt = .findFriend) }

/-- The sample environment with the membership query of the connect handler failing. -/
def demoEnvMembershipsDown : Env :=
  { demoEnv with dbDown := fun stmt => decide (stmt = .findMemberships) }

/-- A sample message of `alice` to the group `g1`. -/
def demoGroupMessage : Message :=
  { demoMessage with
    ID := 3
    MsgID := "m3"
    ReceiverType := 2
    ReceiverID := "g1" }

/-- The sample environment with the update of the drained rows failing. -/
def demoEnvMarkDown : Env :=
  { demoEnv with dbDown := fun stmt => decide (stmt = .markDelivered) }

/-- The sample environment, nine seconds later, with the query for the messages of the drain
failing. -/
def demoEnvMessagesDown : Env :=
  { demoEnvAfter 9 with dbDown := fun stmt => decide (stmt = .findMessages) }

/-- A sample state: over `demoStored`, the delivery of `m1` to `bob` has run its insert, then
`bob` has drained his queue, then the delivery has run its increment; every store call
succeeded. -/
def demoInterleaved : State :=
  incrOfflineCount demoEnv
    (getOfflineMessageHandler demoEnv (createOfflineMessage demoEnv demoStored "bob" "m1") "bob").1
    "bob"

/-- A sample: `alice` sends a message to `bob`, and an hour and a second later a second one,
for which `rand.Read` gives the bytes of the first again; the state after the two sends. -/
def demoSentTwice : Option State :=
  (sendMessageHandler demoEnv demoDirect "alice" demoSendDirect).bind (fun r =>
    (sendMessageHandler (demoEnvAfter 3601) r.1 "alice" demoSendDirect).map (fun r2 => r2.1))

/-! ## Theorems -/

/-! ### Redis keys -/

theorem online_key_ne_counter_key (a b : String) :
    "online_user:" ++ a ≠ "offline_msg_count:" ++ b := by
  intro h
  have h2 := congrArg String.data h
  simp at h2

theorem redisFind_erase_ne (rdb : List RedisEntry) (now : Int) (key k : String) (h : key ≠ k) :
    redisFind (redisErase rdb k) now key = redisFind rdb now key := by
  induction rdb with
  | nil => rfl
  | cons e t ih =>
    simp only [redisFind, redisErase] at ih ⊢
    by_cases hk : e.key = k
    · have h1 : e.key ≠ key := by rw [hk]; exact fun h2 => h h2.symm
      rw [List.filter_cons_of_neg (by simpa using hk), List.find?_cons_of_neg _ (by simp [h1])]
      exact ih
    · rw [List.filter_cons_of_pos (by simpa using hk)]
      simp only [List.find?_cons]
      cases (decide (e.key = key) && e.live now)
      · exact ih
      · rfl

theorem redisFind_append_ne (rdb : List RedisEntry) (now : Int) (key : String) (e : RedisEntry)
    (h : e.key ≠ key) : redisFind (rdb ++ [e]) now key = redisFind rdb now key := by
  simp only [redisFind, List.find?_append]
  rw [List.find?_cons_of_neg _ (by simp [h])]
  simp

theorem redisFind_incr_ne (env : Env) (rdb : List RedisEntry) (now : Int) (key k : String)
    (h : key ≠ k) : redisFind (rdbIncr env rdb k) now key = redisFind rdb now key := by
  unfold rdbIncr
  split
  · rfl
  · split
    · rw [redisFind_append_ne _ _ _ _ (fun h2 => h h2.symm), redisFind_erase_ne _ _ _ _ h]
    · split
      · split
        · rw [redisFind_append_ne _ _ _ _ (fun h2 => h h2.symm), redisFind_erase_ne _ _ _ _ h]
        · rfl
      · rfl

theorem rdbExists_congr (env : Env) (r1 r2 : List RedisEntry) (key : String)
    (h : redisFind r1 env.now key = redisFind r2 env.now key) :
    rdbExists env r1 key = rdbExists env r2 key := by
  unfold rdbExists
  rw [h]

theorem seenOnline_eq_not_treatedOffline (env : Env) (rdb : List RedisEntry) (key : String) :
    seenOnline (rdbExists env rdb key) = !treatedOffline (rdbExists env rdb key) := by
  unfold rdbExists
  split
  · rfl
  · split <;> rfl

/-! ### The offline queue -/

theorem offlineFrame_refl (env : Env) (s : State) : OfflineFrame env s s :=
  ⟨rfl, rfl, rfl, rfl, rfl, rfl, fun _ => rfl⟩

theorem offlineFrame_trans {env : Env} {s1 s2 s3 : State} (h12 : OfflineFrame env s1 s2)
    (h23 : OfflineFrame env s2 s3) : OfflineFrame env s1 s3 :=
  ⟨h23.friends.trans h12.friends, h23.groupMembers.trans h12.groupMembers,
    h23.messages.trans h12.messages, h23.messageSeq.trans h12.messageSeq,
    h23.calls.trans h12.calls, h23.broadcasts.trans h12.broadcasts,
    fun a => (h23.presence a).trans (h12.presence a)⟩

theorem enqueueOffline_frame (env : Env) (s : State) (userFUID msgID : String) :
    OfflineFrame env s (enqueueOffline env s userFUID msgID) := by
  unfold enqueueOffline incrOfflineCount createOfflineMessage
  split <;>
    exact ⟨rfl, rfl, rfl, rfl, rfl, rfl, fun a =>
      redisFind_incr_ne env _ _ _ _ (online_key_ne_counter_key a userFUID)⟩

/-- The rows after the two statements for one user: one more row when the insert succeeds,
and the rows as they were when it fails. -/
theorem enqueueOffline_rows (env : Env) (s : State) (userFUID msgID : String) :
    (enqueueOffline env s userFUID msgID).offlineMessages
      = if env.dbDown (.createOffline userFUID) then s.offlineMessages
        else s.offlineMessages ++ [⟨s.offlineSeq + 1, userFUID, msgID, 0, env.now⟩] := by
  unfold enqueueOffline incrOfflineCount createOfflineMessage
  split <;> rfl

/-- The increment runs whether or not the insert succeeded. -/
theorem enqueueOffline_rdb (env : Env) (s : State) (userFUID msgID : String) :
    (enqueueOffline env s userFUID msgID).rdb
      = rdbIncr env s.rdb ("offline_msg_count:" ++ userFUID) := by
  unfold enqueueOffline incrOfflineCount createOfflineMessage
  split <;> rfl

/-- The rows added by the loop of `saveOfflineMessage` over `members`: one row, of status 0
and for the message `msgID`, for each listed member whose presence test says offline and whose
insert succeeds. -/
theorem foldl_saveOfflineMember (env : Env) (msgID : String) (members : List GroupMember) :
    ∀ s : State,
      OfflineFrame env s (members.foldl (saveOfflineMember env msgID) s) ∧
      ∃ new : List OfflineMessage,
        (members.foldl (saveOfflineMember env msgID) s).offlineMessages = s.offlineMessages ++ new ∧
        new.map (fun om => (om.UserFUID, om.MsgID, om.Status))
          = (members.filter (fun m =>
              treatedOffline (rdbExists env s.rdb ("online_user:" ++ m.UserFUID)) &&
                !env.dbDown (.createOffline m.UserFUID))).map
              (fun m => (m.UserFUID, msgID, 0)) := by
  induction members with
  | nil => intro s; exact ⟨offlineFrame_refl env s, [], by simp, by simp⟩
  | cons m t ih =>
    intro s
    simp only [List.foldl_cons]
    obtain ⟨hf, new, hnew, hmap⟩ := ih (saveOfflineMember env msgID s m)
    have hstep : OfflineFrame env s (saveOfflineMember env msgID s m) := by
      unfold saveOfflineMember
      split
      · exact enqueueOffline_frame env s _ _
      · exact offlineFrame_refl env s
    have hlook : ∀ a, rdbExists env (saveOfflineMember env msgID s m).rdb ("online_user:" ++ a)
        = rdbExists env s.rdb ("online_user:" ++ a) :=
      fun a => rdbExists_congr env _ _ _ (hstep.presence a)
    refine ⟨offlineFrame_trans hstep hf, ?_⟩
    simp only [hlook] at hmap
    by_cases hoff : treatedOffline (rdbExists env s.rdb ("online_user:" ++ m.UserFUID)) = true
    · by_cases hdb : env.dbDown (.createOffline m.UserFUID) = true
      · refine ⟨new, ?_, ?_⟩
        · rw [hnew]
          simp [saveOfflineMember, hoff, enqueueOffline_rows, hdb]
        · simp only [List.filter_cons, hoff, hdb, Bool.not_true, Bool.and_false,
            Bool.false_eq_true, if_false, hmap]
      · simp only [Bool.not_eq_true] at hdb
        refine ⟨⟨s.offlineSeq + 1, m.UserFUID, msgID, 0, env.now⟩ :: new, ?_, ?_⟩
        · rw [hnew]
          simp [saveOfflineMember, hoff, enqueueOffline_rows, hdb]
        · simp only [List.filter_cons, hoff, hdb, Bool.not_false, Bool.and_true, if_true,
            List.map_cons, hmap]
    · refine ⟨new, ?_, ?_⟩
      · rw [hnew]
        simp [saveOfflineMember, hoff]
      · simp only [Bool.not_eq_true] at hoff
        simp only [List.filter_cons, hoff, Bool.false_and, Bool.false_eq_true, if_false, hmap]

theorem rowsOf_of_map (env : Env) (rdb : List RedisEntry) (msgID u : String)
    (members : List GroupMember) (new : List OfflineMessage)
    (hmap : new.map (fun om => (om.UserFUID, om.MsgID, om.Status))
      = (members.filter (fun m =>
          treatedOffline (rdbExists env rdb ("online_user:" ++ m.UserFUID)) &&
            !env.dbDown (.createOffline m.UserFUID))).map
          (fun m => (m.UserFUID, msgID, 0))) :
    rowsOf new u =
      if (treatedOffline (rdbExists env rdb ("online_user:" ++ u)) &&
          !env.dbDown (.createOffline u)) = true then
        members.countP (fun m => decide (m.UserFUID = u))
      else 0 := by
  have h1 : rowsOf new u
      = (new.map (fun om => (om.UserFUID, om.MsgID, om.Status))).countP
          (fun t => decide (t.1 = u)) := by
    unfold rowsOf
    rw [List.countP_map]
    rfl
  rw [h1, hmap, List.countP_map, List.countP_filter]
  split
  · rename_i h
    apply List.countP_congr
    intro m _
    simp only [Function.comp, decide_eq_true_eq, Bool.and_eq_true]
    constructor
    · exact fun h2 => h2.1
    · intro h2
      refine ⟨h2, ?_⟩
      rw [h2]
      simpa using h
  · rename_i h
    rw [List.countP_eq_zero]
    intro m _
    simp only [Function.comp, decide_eq_true_eq, Bool.and_eq_true, not_and]
    intro h2
    rw [h2]
    simpa using h

theorem rows_of_map_forall (msgID : String) (l : List (String × String × Nat))
    (new : List OfflineMessage)
    (hmap : new.map (fun om => (om.UserFUID, om.MsgID, om.Status)) = l)
    (hl : ∀ t ∈ l, t.2.1 = msgID ∧ t.2.2 = 0) :
    ∀ om ∈ new, om.MsgID = msgID ∧ om.Status = 0 := by
  intro om hom
  have : (om.UserFUID, om.MsgID, om.Status) ∈ l := by
    rw [← hmap]; exact List.mem_map_of_mem _ hom
  exact hl _ this

/-- The rows that `saveOfflineMessage` adds for a group message: the table only grows, the new
rows are undelivered rows of this message, and a user gets as many of them as the member query
returns rows of the user, when the presence test treats the user as offline and the insert for
the user succeeds, and none otherwise. -/
theorem saveOfflineMessage_group_rows (env : Env) (s : State) (groupQUID msgID userFUID : String) :
    (saveOfflineMessage env s 2 groupQUID msgID).offlineMessages
      = s.offlineMessages ++ newOfflineRows s (saveOfflineMessage env s 2 groupQUID msgID) ∧
    (∀ om ∈ newOfflineRows s (saveOfflineMessage env s 2 groupQUID msgID),
      om.MsgID = msgID ∧ om.Status = 0) ∧
    rowsOf (newOfflineRows s (saveOfflineMessage env s 2 groupQUID msgID)) userFUID =
      if (treatedOffline (rdbExists env s.rdb ("online_user:" ++ userFUID)) &&
          !env.dbDown (.createOffline userFUID)) = true then
        (findOrEmpty env .findMembers (activeMembers s groupQUID)).countP
          (fun m => decide (m.UserFUID = userFUID))
      else 0 := by
  obtain ⟨_, new, hnew, hmap⟩ :=
    foldl_saveOfflineMember env msgID (findOrEmpty env .findMembers (activeMembers s groupQUID)) s
  have hsave : saveOfflineMessage env s 2 groupQUID msgID
      = (findOrEmpty env .findMembers (activeMembers s groupQUID)).foldl
          (saveOfflineMember env msgID) s := by
    simp [saveOfflineMessage]
  have hrows : newOfflineRows s (saveOfflineMessage env s 2 groupQUID msgID) = new := by
    unfold newOfflineRows
    rw [hsave, hnew]
    simp
  rw [hrows]
  refine ⟨by rw [hsave, hnew], ?_, ?_⟩
  · apply rows_of_map_forall msgID _ new hmap
    intro t ht
    simp only [List.mem_map] at ht
    obtain ⟨m, _, rfl⟩ := ht
    exact ⟨rfl, rfl⟩
  · exact rowsOf_of_map env s.rdb msgID userFUID _ new hmap

theorem treatedOffline_of_down (env : Env) (rdb : List RedisEntry) (key : String)
    (h : env.redisDown key = true) : treatedOffline (rdbExists env rdb key) = true := by
  simp [rdbExists, h, treatedOffline]

theorem not_seenOnline_of_down (env : Env) (rdb : List RedisEntry) (key : String)
    (h : env.redisDown key = true) : seenOnline (rdbExists env rdb key) = false := by
  simp [rdbExists, h, seenOnline]

theorem findOrEmpty_up {α : Type} (env : Env) (stmt : DBStmt) (rows : List α)
    (h : env.dbDown stmt = false) : findOrEmpty env stmt rows = rows := by
  simp [findOrEmpty, h]

theorem findOrEmpty_down {α : Type} (env : Env) (stmt : DBStmt) (rows : List α)
    (h : env.dbDown stmt = true) : findOrEmpty env stmt rows = [] := by
  simp [findOrEmpty, h]

/-! ### Claims on delivery -/

/-- Where the code agrees with C2.  For a group message, `saveOfflineMessage` only adds rows to
`offline_messages`, each for this message and undelivered; when the member query and the
insert for the user succeed, a user with one active membership row in the group gets exactly
one new row when the presence test does not see them online; no user seen online gets a row,
and when the member query succeeds a user without an active membership row gets none. -/
theorem saveOfflineMessage_group_one_entry_per_offline_member (env : Env) (s : State)
    (groupQUID msgID userFUID : String) :
    (saveOfflineMessage env s 2 groupQUID msgID).offlineMessages
      = s.offlineMessages ++ newOfflineRows s (saveOfflineMessage env s 2 groupQUID msgID) ∧
    (∀ om ∈ newOfflineRows s (saveOfflineMessage env s 2 groupQUID msgID),
      om.MsgID = msgID ∧ om.Status = 0) ∧
    (env.dbDown .findMembers = false → env.dbDown (.createOffline userFUID) = false →
      membershipRows s groupQUID userFUID = 1 →
      seenOnline (rdbExists env s.rdb ("online_user:" ++ userFUID)) = false →
      rowsOf (newOfflineRows s (saveOfflineMessage env s 2 groupQUID msgID)) userFUID = 1) ∧
    (seenOnline (rdbExists env s.rdb ("online_user:" ++ userFUID)) = true →
      rowsOf (newOfflineRows s (saveOfflineMessage env s 2 groupQUID msgID)) userFUID = 0) ∧
    (env.dbDown .findMembers = false → membershipRows s groupQUID userFUID = 0 →
      rowsOf (newOfflineRows s (saveOfflineMessage env s 2 groupQUID msgID)) userFUID = 0) := by
  obtain ⟨happ, hall, hcount⟩ := saveOfflineMessage_group_rows env s groupQUID msgID userFUID
  refine ⟨happ, hall, ?_, ?_, ?_⟩
  · intro hfind hcreate hrow hoff
    rw [seenOnline_eq_not_treatedOffline] at hoff
    simp only [Bool.not_eq_false'] at hoff
    rw [hcount, hoff, hcreate, findOrEmpty_up env _ _ hfind]
    exact hrow
  · intro hon
    rw [seenOnline_eq_not_treatedOffline] at hon
    simp only [Bool.not_eq_true'] at hon
    rw [hcount, hon]
    rfl
  · intro hfind hrow
    rw [hcount, findOrEmpty_up env _ _ hfind]
    split
    · exact hrow
    · rfl

/-- The rows of `saveOfflineMessage_group_one_entry_per_offline_member` at a group with an
offline member and an online one: `alice` (one active row, no presence key) gets one row. -/
theorem saveOfflineMessage_group_one_entry_witness :
    membershipRows demoGroup "g1" "alice" = 1 ∧
    seenOnline (rdbExists demoEnv demoGroup.rdb ("online_user:" ++ "alice")) = false ∧
    rowsOf (newOfflineRows demoGroup (saveOfflineMessage demoEnv demoGroup 2 "g1" "m1")) "alice" = 1 :=
  ⟨by decide, by decide,
    (saveOfflineMessage_group_one_entry_per_offline_member demoEnv demoGroup "g1" "m1" "alice").2.2.1
      rfl rfl (by decide) (by decide)⟩

/-- C2 (the code departs from the claim). `alice`, an active member of `g1` without a presence
key, posts a join request for `g1` again: `joinGroupHandler` writes the failure "已加入该群聊",
does not return, and inserts a second active membership row for her (its second response is
the success).  A message to `g1` delivered afterwards, with every store call succeeding, gives
`alice` two rows in `offline_messages` and a count of 2, while `carol`, offline with one
membership row, gets one row. -/
theorem rejoin_gives_member_two_offline_entries :
    membershipRows demoGroup "g1" "alice" = 1 ∧
    (joinGroupHandler demoGroupCfg demoEnv demoGroup "alice" "Alice" "g1").2.1
      = [fail 400 "已加入该群聊", success "加入群聊成功"] ∧
    demoRejoined.groupMembers
      = demoGroup.groupMembers ++ [⟨5, "g1", "alice", 0, zeroTime, 1⟩] ∧
    membershipRows demoRejoined "g1" "alice" = 2 ∧
    seenOnline (rdbExists (demoEnvAfter 1) demoRejoined.rdb ("online_user:" ++ "alice")) = false ∧
    (newOfflineRows demoRejoined (saveOfflineMessage (demoEnvAfter 1) demoRejoined 2 "g1" "m1")).map
      (fun om => (om.UserFUID, om.MsgID, om.Status))
      = [("alice", "m1", 0), ("carol", "m1", 0), ("alice", "m1", 0)] ∧
    rowsOf (newOfflineRows demoRejoined (saveOfflineMessage (demoEnvAfter 1) demoRejoined 2 "g1" "m1"))
      "alice" = 2 ∧
    offlineCount (demoEnvAfter 1) (saveOfflineMessage (demoEnvAfter 1) demoRejoined 2 "g1" "m1")
      "alice" = 2 :=
  ⟨by decide, by rfl, by rfl, by decide, by decide, by rfl, by rfl, by rfl⟩

/-- C1 (the code departs from the claim). `bob` has a live presence key when `alice` sends him a
direct message: the message is pushed to the room `user:bob`, and all the same
`saveOfflineMessage` adds an `offline_messages` row for `bob` and increments his counter, so
his next `getOfflineMessageHandler` returns the message. -/
theorem direct_message_to_online_recipient_is_queued :
    seenOnline (rdbExists demoEnv demoDirect.rdb ("online_user:" ++ "bob")) = true ∧
    (sendAndDeliver demoEnv demoDirect "alice" demoSendDirect).map (fun s =>
        (s.broadcasts,
          s.offlineMessages.map (fun om => (om.UserFUID, om.MsgID, om.Status)),
          offlineCounter s demoEnv.now "bob",
          drainedIDs (getOfflineMessageHandler demoEnv s "bob").2))
      = some ([⟨"user:bob", "new_message", "0123456789abcdefghijklmnopqrstuv", false⟩],
          [("bob", "0123456789abcdefghijklmnopqrstuv", 0)],
          some (.int 1),
          ["0123456789abcdefghijklmnopqrstuv"]) :=
  ⟨by decide, by rfl⟩

/-- C3 (the code departs from the claim). `alice`, a member of `g1` without a presence key,
sends a message to `g1`: `saveOfflineMessage` adds an `offline_messages` row for `alice`
herself and increments her counter, while the target list of the ntfy job of the same send
leaves the sender out. -/
theorem group_sender_gets_own_offline_entry :
    (sendAndDeliver demoEnv demoGroup "alice" demoSendGroup).map (fun s =>
        (s.offlineMessages.map (fun om => (om.UserFUID, om.MsgID, om.Status)),
          offlineCounter s demoEnv.now "alice"))
      = some ([("alice", "0123456789abcdefghijklmnopqrstuv", 0),
            ("carol", "0123456789abcdefghijklmnopqrstuv", 0)],
          some (.int 1)) ∧
    ntfyTargetFUIDs demoGroup "alice" 2 "g1" = ["bob", "carol"] :=
  ⟨by rfl, by decide⟩

/-- C4 (the claim as stated fails). Redis does not answer on the presence key of `bob` and the
insert into `offline_messages` for `bob` fails.  The send of `alice` to `bob` succeeds with
code 200 and stores the message; the delivery treats `bob` as offline and does not push, and
its insert fails with the error dropped: no row is queued, nothing is broadcast, and the next
drain of `bob` returns nothing.  As a member of `g1` with one active row, `bob` gets no row
for a group message either. -/
theorem failed_insert_loses_message_of_unreachable_recipient :
    demoEnvInsertDown.redisDown ("online_user:" ++ "bob") = true ∧
    (sendMessageHandler demoEnvInsertDown demoDirect "alice" demoSendDirect).map
      (fun r => r.2.1.Code) = some 200 ∧
    (sendAndDeliver demoEnvInsertDown demoDirect "alice" demoSendDirect).map (fun s =>
        (s.messages.map (fun m => (m.MsgID, m.IsRead)), s.offlineMessages, s.broadcasts,
          drainedIDs (getOfflineMessageHandler demoEnv s "bob").2))
      = some ([("0123456789abcdefghijklmnopqrstuv", false)], [], [], []) ∧
    membershipRows demoGroup "g1" "bob" = 1 ∧
    rowsOf (newOfflineRows demoGroup (saveOfflineMessage demoEnvInsertDown demoGroup 2 "g1" "m1"))
      "bob" = 0 :=
  ⟨by decide, by rfl, by rfl, by decide, by rfl⟩

/-- C4 (amended). When the presence lookup of a recipient fails, the recipient is treated as
offline: `pushMessageToClient` neither broadcasts a direct message to them nor marks it read,
and never marks a group message read; and when the insert for the recipient succeeds, a direct
message to them gets an `offline_messages` row, and, the member query succeeding, as a member
of the target group they get an undelivered row of the message. -/
theorem presence_error_fails_closed (env : Env) (s : State) (r : String)
    (hdown : env.redisDown ("online_user:" ++ r) = true)
    (hcreate : env.dbDown (.createOffline r) = false)
    (hfind : env.dbDown .findMembers = false) :
    (∀ msgID : String, (saveOfflineMessage env s 1 r msgID).offlineMessages
      = s.offlineMessages ++ [⟨s.offlineSeq + 1, r, msgID, 0, env.now⟩]) ∧
    (∀ message : Message, message.ReceiverType = 1 → message.ReceiverID = r →
      pushMessageToClient env s message = s) ∧
    (∀ groupQUID msgID : String, 0 < membershipRows s groupQUID r →
      0 < rowsOf (newOfflineRows s (saveOfflineMessage env s 2 groupQUID msgID)) r ∧
      ∀ om ∈ newOfflineRows s (saveOfflineMessage env s 2 groupQUID msgID),
        om.MsgID = msgID ∧ om.Status = 0) ∧
    (∀ message : Message, message.ReceiverType = 2 →
      (pushMessageToClient env s message).messages = s.messages) := by
  refine ⟨fun msgID => ?_, fun message h1 h2 => ?_, fun g msgID hrow => ?_, fun message h2 => ?_⟩
  · simp [saveOfflineMessage, enqueueOffline_rows, hcreate]
  · unfold pushMessageToClient
    rw [if_pos h1, h2, not_seenOnline_of_down env s.rdb _ hdown]
    rfl
  · obtain ⟨_, hall, hcount⟩ := saveOfflineMessage_group_rows env s g msgID r
    refine ⟨?_, hall⟩
    rw [hcount, treatedOffline_of_down env s.rdb _ hdown, hcreate, findOrEmpty_up env _ _ hfind]
    exact hrow
  · unfold pushMessageToClient
    rw [if_neg (by omega)]

/-- C4 (amended), with Redis failing on the presence key of `bob`, whose key is live: `bob`
gets a row for the group message and the direct message to him is not pushed. -/
theorem presence_error_fails_closed_witness :
    demoEnvDown.redisDown ("online_user:" ++ "bob") = true ∧
    (redisFind demoGroup.rdb demoEnvDown.now ("online_user:" ++ "bob")).isSome = true ∧
    0 < rowsOf (newOfflineRows demoGroup (saveOfflineMessage demoEnvDown demoGroup 2 "g1" "m1")) "bob" ∧
    pushMessageToClient demoEnvDown demoDirect demoMessage = demoDirect :=
  ⟨by decide, by decide,
    ((presence_error_fails_closed demoEnvDown demoGroup "bob" (by decide) rfl rfl).2.2.1 "g1" "m1"
      (by decide)).1,
    (presence_error_fails_closed demoEnvDown demoDirect "bob" (by decide) rfl rfl).2.1
      demoMessage rfl rfl⟩

/-! ### Sending -/

theorem firstOrError_some {α : Type} (env : Env) (stmt : DBStmt) (row : Option α) (x : α)
    (h : firstOrError env stmt row = some x) : row = some x := by
  unfold firstOrError at h
  split at h
  · cases h
  · exact h

theorem firstOrError_up {α : Type} (env : Env) (stmt : DBStmt) (row : Option α)
    (h : env.dbDown stmt = false) : firstOrError env stmt row = row := by
  simp [firstOrError, h]

/-- When the blacklist query answers, a receiver check that lets the send go on has found the
sender authorized. -/
theorem sendCheck_none (env : Env) (s : State) (currentFUID : String) (receiverType : Nat)
    (receiverID : String) (ht : receiverType = 1 ∨ receiverType = 2)
    (hbl : env.dbDown .findBlacklist = false)
    (h : sendCheck env s currentFUID receiverType receiverID = none) :
    SendAuthorized env s currentFUID receiverType receiverID := by
  unfold sendCheck at h
  unfold SendAuthorized
  split at h
  · rename_i h1
    rw [if_pos h1]
    split at h
    · cases h
    · rename_i f hf0
      have hf := firstOrError_some _ _ _ _ hf0
      split at h
      · cases h
      · rename_i hnone
        rw [firstOrError_up _ _ _ hbl] at hnone
        refine ⟨⟨f, List.mem_of_find?_eq_some hf, by simpa using List.find?_some hf⟩, ?_⟩
        rintro ⟨g, hg, hp⟩
        have := List.find?_eq_none.mp hnone g hg
        simp at this
        exact absurd hp.2.2 (this hp.1 hp.2.1)
  · rename_i h1
    rw [if_neg h1]
    split at h
    · rename_i h2
      rw [if_pos h2]
      split at h
      · cases h
      · rename_i m hm0
        have hm := firstOrError_some _ _ _ _ hm0
        split at h
        · cases h
        · rename_i hmute
          have hp := List.find?_some hm
          simp at hp
          exact ⟨m, List.mem_of_find?_eq_some hm, hp.1, hp.2.1, hp.2.2, by omega⟩
    · omega

theorem sendCheck_code (env : Env) (s : State) (currentFUID : String) (receiverType : Nat)
    (receiverID : String) (code : Int) (msg : String)
    (h : sendCheck env s currentFUID receiverType receiverID = some (code, msg)) :
    code ≠ 200 := by
  unfold sendCheck at h
  repeat' split at h
  all_goals first | (cases h; decide) | cases h

theorem fail_code_ne {α : Type} (code : Int) (msg : String) (h : code ≠ 200) :
    (fail code msg : Response α).Code ≠ 200 := h

/-- The two ways in which `sendMessageHandler` returns: a failure that leaves every table and
the broadcast log as they were and starts no job, or a success after the receiver check, with
one new row in `messages` and the three jobs for it. -/
theorem sendMessageHandler_cases (env : Env) (s : State) (currentFUID : String)
    (req : SendMessageReq) (s' : State) (resp : Response SendData) (jobs : List Job)
    (h : sendMessageHandler env s currentFUID req = some (s', resp, jobs)) :
    (resp.Code ≠ 200 ∧ jobs = [] ∧ s'.messages = s.messages ∧
      s'.offlineMessages = s.offlineMessages ∧ s'.broadcasts = s.broadcasts ∧
      s'.calls = s.calls) ∨
    (resp.Code = 200 ∧ req.valid = true ∧
      sendCheck env s currentFUID req.ReceiverType req.ReceiverID = none ∧ env.dbErr = false ∧
      s'.offlineMessages = s.offlineMessages ∧ s'.broadcasts = s.broadcasts ∧
      s'.calls = s.calls ∧
      ∃ row : Message, s'.messages = s.messages ++ [row] ∧
        row.SenderFUID = currentFUID ∧ row.ReceiverType = req.ReceiverType ∧
        row.ReceiverID = req.ReceiverID ∧ row.IsRecalled = false ∧ row.SendTime = env.now ∧
        jobs = [.saveOfflineMessage req.ReceiverType req.ReceiverID row.MsgID,
          .pushMessageToClient row,
          .ntfyOffline currentFUID req.ReceiverType req.ReceiverID req.Content]) := by
  unfold sendMessageHandler at h
  split at h
  · cases h; exact Or.inl ⟨fail_code_ne _ _ (by decide), rfl, rfl, rfl, rfl, rfl⟩
  · split at h
    · cases h; exact Or.inl ⟨fail_code_ne _ _ (by decide), rfl, rfl, rfl, rfl, rfl⟩
    · rename_i hvalid
      split at h
      · rename_i code msg hcheck
        cases h
        exact Or.inl ⟨sendCheck_code env s _ _ _ code msg hcheck, rfl, rfl, rfl, rfl, rfl⟩
      · rename_i hcheck
        split at h
        · cases h
        · cases h; exact Or.inl ⟨fail_code_ne _ _ (by decide), rfl, rfl, rfl, rfl, rfl⟩
        · rename_i msgID rdb1 hgen
          split at h
          · cases h; exact Or.inl ⟨fail_code_ne _ _ (by decide), rfl, rfl, rfl, rfl, rfl⟩
          · rename_i s2 row hcreate
            cases h
            unfold createMessage at hcreate
            split at hcreate
            · cases hcreate
            · rename_i hok
              simp only [Option.some.injEq, Prod.mk.injEq] at hcreate
              obtain ⟨hs2, hrow⟩ := hcreate
              subst hs2 hrow
              refine Or.inr ⟨rfl, by simpa using hvalid, hcheck, by simpa using hok,
                rfl, rfl, rfl, _, rfl, rfl, rfl, rfl, rfl, rfl, rfl⟩

/-- Where the code agrees with C5.  A send that fails leaves the tables `messages` and
`offline_messages` and the broadcast log as they were and starts no job, and a send that
succeeds had a store that accepted the row.  When the blacklist query answers, a send that
succeeds comes from an authorized sender, and a sender who is not authorized always gets a
failure, with the state as it was. -/
theorem sendMessageHandler_requires_authorization (env : Env) (s : State) (currentFUID : String)
    (req : SendMessageReq) :
    (∀ (s' : State) (resp : Response SendData) (jobs : List Job),
      sendMessageHandler env s currentFUID req = some (s', resp, jobs) →
      (resp.Code = 200 → env.dbErr = false ∧
        (env.dbDown .findBlacklist = false →
          SendAuthorized env s currentFUID req.ReceiverType req.ReceiverID)) ∧
      (resp.Code ≠ 200 →
        s'.messages = s.messages ∧ s'.offlineMessages = s.offlineMessages ∧
        s'.broadcasts = s.broadcasts ∧ jobs = [])) ∧
    (env.dbDown .findBlacklist = false →
      ¬ SendAuthorized env s currentFUID req.ReceiverType req.ReceiverID →
      ∃ resp : Response SendData,
        sendMessageHandler env s currentFUID req = some (s, resp, []) ∧ resp.Code ≠ 200) := by
  constructor
  · intro s' resp jobs h
    rcases sendMessageHandler_cases env s currentFUID req s' resp jobs h with
      ⟨hc, hj, hm, ho, hb, _⟩ | ⟨hc, hv, hcheck, hdb, _, _, _, _⟩
    · exact ⟨fun h200 => absurd h200 hc, fun _ => ⟨hm, ho, hb, hj⟩⟩
    · refine ⟨fun _ => ⟨hdb, fun hbl => sendCheck_none env s _ _ _ ?_ hbl hcheck⟩,
        fun hne => absurd hc hne⟩
      simp only [SendMessageReq.valid, decide_eq_true_eq] at hv
      exact hv.1
  · intro hbl hna
    unfold sendMessageHandler
    split
    · exact ⟨_, rfl, fail_code_ne _ _ (by decide)⟩
    · split
      · exact ⟨_, rfl, fail_code_ne _ _ (by decide)⟩
      · rename_i hv
        split
        · rename_i code msg hcheck
          exact ⟨_, rfl, sendCheck_code env s _ _ _ code msg hcheck⟩
        · rename_i hcheck
          exfalso
          apply hna
          refine sendCheck_none env s _ _ _ ?_ hbl hcheck
          simp only [SendMessageReq.valid, decide_eq_true_eq, Bool.not_eq_true,
            decide_eq_false_iff_not, not_not] at hv
          exact hv.1

/-- The failure of `sendMessageHandler_requires_authorization` for `mallory`, who has no
friend row to `bob`: the send fails with code 400 and the state is as it was. -/
theorem sendMessageHandler_requires_authorization_witness :
    ¬ SendAuthorized demoEnv demoDirect "mallory" demoSendDirect.ReceiverType
      demoSendDirect.ReceiverID ∧
    ∃ resp : Response SendData,
      sendMessageHandler demoEnv demoDirect "mallory" demoSendDirect = some (demoDirect, resp, []) ∧
      resp.Code ≠ 200 :=
  ⟨by decide,
    (sendMessageHandler_requires_authorization demoEnv demoDirect "mallory" demoSendDirect).2
      rfl (by decide)⟩

/-- C5 (the code departs from the claim). `bob` has blacklisted `alice`, who has `bob` as an
active friend.  When the blacklist query answers, her send fails with code 403 and the state
is as it was.  When the blacklist query returns a database error, the handler, which stops
only on `err == nil`, goes on: the send succeeds with code 200, the message is stored, the
three jobs are started, and their run queues the message for `bob` and pushes it to the room
`user:bob`.  The friend query beside it stops the send on every error: with that query
failing, the send of `alice` to her friend `bob` fails with code 400. -/
theorem blacklist_query_error_lets_message_through :
    ¬ SendAuthorized demoEnvBlacklistDown demoBlacklisted "alice" demoSendDirect.ReceiverType
      demoSendDirect.ReceiverID ∧
    sendMessageHandler demoEnv demoBlacklisted "alice" demoSendDirect
      = some (demoBlacklisted, fail 403 "对方已将你加入黑名单，无法发送消息", []) ∧
    (sendMessageHandler demoEnvBlacklistDown demoBlacklisted "alice" demoSendDirect).map
      (fun r => (r.2.1.Code, r.1.messages.map (fun m => (m.MsgID, m.SenderFUID, m.ReceiverID)),
        r.2.2.length))
      = some (200, [("0123456789abcdefghijklmnopqrstuv", "alice", "bob")], 3) ∧
    (sendAndDeliver demoEnvBlacklistDown demoBlacklisted "alice" demoSendDirect).map (fun s =>
        (s.broadcasts, s.offlineMessages.map (fun om => (om.UserFUID, om.MsgID, om.Status))))
      = some ([⟨"user:bob", "new_message", "0123456789abcdefghijklmnopqrstuv", false⟩],
          [("bob", "0123456789abcdefghijklmnopqrstuv", 0)]) ∧
    (sendMessageHandler demoEnvFriendDown demoDirect "alice" demoSendDirect).map
      (fun r => (r.1, r.2.1.Code, r.2.2)) = some (demoDirect, 400, []) :=
  ⟨by decide, by rfl, by rfl, by rfl, by rfl⟩

/-! ### Recall -/

theorem recallTimeout_range (cfg : Config) :
    -(2 ^ 63) ≤ recallTimeout cfg ∧ recallTimeout cfg < 2 ^ 63 - 1 := by
  unfold recallTimeout wrap64 second
  omega

/-- The comparison `time.Since(message.SendTime) > recallTimeout` agrees with the comparison of
the exact difference, although `Sub` saturates. -/
theorem timeSub_gt_recallTimeout (cfg : Config) (t u : Int) :
    timeSub t u > recallTimeout cfg ↔ t - u > recallTimeout cfg := by
  have h := recallTimeout_range cfg
  unfold timeSub
  split
  · omega
  · split <;> omega

theorem find_message_of_unique (s : State) (m : Message) (byUser : String)
    (hm : m ∈ s.messages) (huniq : ∀ m' ∈ s.messages, m'.MsgID = m.MsgID → m' = m) :
    s.messages.find? (fun x => decide (x.MsgID = m.MsgID ∧ x.SenderFUID = byUser))
      = if byUser = m.SenderFUID then some m else none := by
  split
  · rename_i h
    cases hfind : s.messages.find? (fun x => decide (x.MsgID = m.MsgID ∧ x.SenderFUID = byUser)) with
    | none =>
      have := List.find?_eq_none.mp hfind m hm
      simp [h] at this
    | some x =>
      have hx := List.mem_of_find?_eq_some hfind
      have hp := List.find?_some hfind
      simp at hp
      rw [huniq x hx hp.1]
  · rename_i h
    rw [List.find?_eq_none]
    intro x hx hp
    simp at hp
    have := huniq x hx hp.1
    subst this
    exact h hp.2.symm

/-- The handler `recallMessageHandler` on the identifier of a stored message `m`, for a
logged-in user: the owner test, then the window test, then the update. -/
theorem recallMessageHandler_eq (cfg : Config) (env : Env) (s : State) (m : Message)
    (byUser : String) (hm : m ∈ s.messages)
    (huniq : ∀ m' ∈ s.messages, m'.MsgID = m.MsgID → m' = m)
    (hby : byUser ≠ "") (hid : m.MsgID ≠ "") :
    recallMessageHandler cfg env s byUser m.MsgID =
      if byUser ≠ m.SenderFUID then (s, fail 400 "消息不存在或不是你发送的", [])
      else if env.now - m.SendTime > recallTimeout cfg then (s, fail 400 (recallExpiredMsg cfg), [])
      else if env.dbErr = true then (s, fail 500 ("撤回消息失败: " ++ env.errText), [])
      else
        (updateMessage env s m (fun x => { x with IsRecalled := true }),
          success "撤回消息成功",
          [.pushRecallMessageToClient { m with IsRecalled := true, UpdatedAt := env.now }]) := by
  unfold recallMessageHandler
  rw [if_neg hby, if_neg hid, find_message_of_unique s m byUser hm huniq]
  by_cases hown : byUser = m.SenderFUID
  · rw [if_pos hown, if_neg (not_not.mpr hown)]
    simp only [timeSub_gt_recallTimeout]
  · rw [if_neg hown, if_pos hown]

theorem mem_updateMessage (env : Env) (s : State) (m : Message) (f : Message → Message)
    (hm : m ∈ s.messages) :
    { f m with UpdatedAt := env.now } ∈ (updateMessage env s m f).messages := by
  unfold updateMessage
  simp only [List.mem_map]
  exact ⟨m, hm, by simp⟩

/-- C6. For a stored message `m` and a logged-in user: a user other than the sender gets the
not-owner failure; the sender gets the window failure when `now - SendTime` exceeds the
recall window; the sender within the window gets a success that sets `IsRecalled` on the row
(the store accepting the update); the recall succeeds only for the sender within the window;
and every failure leaves the state as it was and starts no job. -/
theorem recallMessageHandler_owner_within_window (cfg : Config) (env : Env) (s : State)
    (m : Message) (byUser : String) (hm : m ∈ s.messages)
    (huniq : ∀ m' ∈ s.messages, m'.MsgID = m.MsgID → m' = m)
    (hby : byUser ≠ "") (hid : m.MsgID ≠ "") :
    (byUser ≠ m.SenderFUID →
      recallMessageHandler cfg env s byUser m.MsgID
        = (s, fail 400 "消息不存在或不是你发送的", [])) ∧
    (byUser = m.SenderFUID → env.now - m.SendTime > recallTimeout cfg →
      recallMessageHandler cfg env s byUser m.MsgID = (s, fail 400 (recallExpiredMsg cfg), [])) ∧
    (byUser = m.SenderFUID → env.now - m.SendTime ≤ recallTimeout cfg → env.dbErr = false →
      (recallMessageHandler cfg env s byUser m.MsgID).2.1 = success "撤回消息成功" ∧
      { m with IsRecalled := true, UpdatedAt := env.now }
        ∈ (recallMessageHandler cfg env s byUser m.MsgID).1.messages) ∧
    ((recallMessageHandler cfg env s byUser m.MsgID).2.1.Code = 200 →
      byUser = m.SenderFUID ∧ env.now - m.SendTime ≤ recallTimeout cfg) ∧
    ((recallMessageHandler cfg env s byUser m.MsgID).2.1.Code ≠ 200 →
      (recallMessageHandler cfg env s byUser m.MsgID).1 = s ∧
      (recallMessageHandler cfg env s byUser m.MsgID).2.2 = []) := by
  rw [recallMessageHandler_eq cfg env s m byUser hm huniq hby hid]
  refine ⟨fun h => by rw [if_pos h], fun h1 h2 => by rw [if_neg (not_not.mpr h1), if_pos h2],
    fun h1 h2 h3 => ?_, fun h => ?_, fun h => ?_⟩
  · rw [if_neg (not_not.mpr h1), if_neg (by omega), if_neg (by simp [h3])]
    exact ⟨rfl, mem_updateMessage env s m _ hm⟩
  · split at h
    · exact absurd h (fail_code_ne _ _ (by decide))
    · rename_i h1
      split at h
      · exact absurd h (fail_code_ne _ _ (by decide))
      · rename_i h2
        exact ⟨not_not.mp h1, by omega⟩
  · split
    · exact ⟨rfl, rfl⟩
    · split
      · exact ⟨rfl, rfl⟩
      · split
        · exact ⟨rfl, rfl⟩
        · rename_i h1 h2 h3
          rw [if_neg h1, if_neg h2, if_neg h3] at h
          exact absurd rfl h

/-- C6, with a window of 120 s: the recall by the sender `alice` 119 s after the send
succeeds and marks the message recalled. -/
theorem recallMessageHandler_owner_within_window_witness :
    (demoEnvAfter 119).now - demoMessage.SendTime ≤ recallTimeout demoCfg ∧
    (recallMessageHandler demoCfg (demoEnvAfter 119) demoStored "alice" demoMessage.MsgID).2.1
      = success "撤回消息成功" ∧
    { demoMessage with IsRecalled := true, UpdatedAt := (demoEnvAfter 119).now }
      ∈ (recallMessageHandler demoCfg (demoEnvAfter 119) demoStored "alice"
          demoMessage.MsgID).1.messages :=
  ⟨by decide,
    (recallMessageHandler_owner_within_window demoCfg (demoEnvAfter 119) demoStored demoMessage
      "alice" (by decide) (by decide) (by decide) (by decide)).2.2.1 rfl (by decide) rfl⟩

/-! ### Stored messages -/

theorem messageKept_refl (m : Message) : m.Kept m := ⟨rfl, id⟩

theorem messagesKept_refl (s : State) : MessagesKept s s :=
  fun _ m hm => ⟨m, hm, messageKept_refl m⟩

theorem messagesKept_trans {s1 s2 s3 : State} (h12 : MessagesKept s1 s2)
    (h23 : MessagesKept s2 s3) : MessagesKept s1 s3 := by
  intro i m hm
  obtain ⟨m2, hm2, hk2⟩ := h12 i m hm
  obtain ⟨m3, hm3, hk3⟩ := h23 i m2 hm2
  exact ⟨m3, hm3, hk3.1.trans hk2.1, fun h => hk3.2 (hk2.2 h)⟩

theorem messagesKept_of_eq {s s' : State} (h : s'.messages = s.messages) : MessagesKept s s' := by
  intro i m hm
  exact ⟨m, by rw [h]; exact hm, messageKept_refl m⟩

theorem messagesKept_of_append {s s' : State} (l : List Message)
    (h : s'.messages = s.messages ++ l) : MessagesKept s s' := by
  intro i m hm
  refine ⟨m, ?_, messageKept_refl m⟩
  rw [h, List.getElem?_append_left (List.getElem?_eq_some.mp hm).1]
  exact hm

theorem messagesKept_of_map {s s' : State} (f : Message → Message)
    (h : s'.messages = s.messages.map f) (hf : ∀ m : Message, m.Kept (f m)) : MessagesKept s s' := by
  intro i m hm
  refine ⟨f m, ?_, hf m⟩
  rw [h, List.getElem?_map, hm]
  rfl

theorem updateMessage_kept (env : Env) (s : State) (message : Message) (f : Message → Message)
    (hf : ∀ m : Message, m.Kept (f m)) : MessagesKept s (updateMessage env s message f) := by
  apply messagesKept_of_map _ rfl
  intro m
  split
  · exact ⟨(hf m).1, (hf m).2⟩
  · exact messageKept_refl m

theorem saveOfflineMessage_messages (env : Env) (s : State) (receiverType : Nat)
    (receiverID msgID : String) :
    (saveOfflineMessage env s receiverType receiverID msgID).messages = s.messages := by
  unfold saveOfflineMessage
  split
  · exact (enqueueOffline_frame env s receiverID msgID).messages
  · exact (foldl_saveOfflineMember env msgID _ s).1.messages

theorem pushMessageToClient_kept (env : Env) (s : State) (message : Message) :
    MessagesKept s (pushMessageToClient env s message) := by
  unfold pushMessageToClient
  split
  · split
    · split
      · exact messagesKept_of_eq rfl
      · exact messagesKept_trans (messagesKept_of_eq rfl)
          (updateMessage_kept env _ message _ (fun m => ⟨rfl, id⟩))
    · exact messagesKept_refl s
  · exact messagesKept_of_eq rfl

theorem pushRecallMessageToClient_messages (s : State) (message : Message) :
    (pushRecallMessageToClient s message).messages = s.messages := by
  unfold pushRecallMessageToClient
  split <;> rfl

theorem runJob_kept (env : Env) (s : State) (j : Job) : MessagesKept s (runJob env s j) := by
  cases j with
  | saveOfflineMessage t r i => exact messagesKept_of_eq (saveOfflineMessage_messages env s t r i)
  | pushMessageToClient m => exact pushMessageToClient_kept env s m
  | ntfyOffline _ _ _ _ => exact messagesKept_refl s
  | pushRecallMessageToClient m => exact messagesKept_of_eq (pushRecallMessageToClient_messages s m)
  | pushCallNotification _ _ _ => exact messagesKept_refl s
  | sendNtfyNotification _ _ _ => exact messagesKept_refl s

theorem recallMessageHandler_kept (cfg : Config) (env : Env) (s : State)
    (currentFUID msgID : String) :
    MessagesKept s (recallMessageHandler cfg env s currentFUID msgID).1 := by
  unfold recallMessageHandler
  split
  · exact messagesKept_refl s
  · split
    · exact messagesKept_refl s
    · split
      · exact messagesKept_refl s
      · split
        · exact messagesKept_refl s
        · split
          · exact messagesKept_refl s
          · exact updateMessage_kept env s _ _ (fun m => ⟨rfl, fun _ => rfl⟩)

theorem getOfflineMessageHandler_messages (env : Env) (s : State) (currentFUID : String) :
    (getOfflineMessageHandler env s currentFUID).1.messages = s.messages := by
  unfold getOfflineMessageHandler markDelivered
  split
  · rfl
  · split
    · rfl
    · split <;> rfl

theorem createMessage_messages (env : Env) (s : State) (message : Message) (s2 : State)
    (row : Message) (h : createMessage env s message = some (s2, row)) :
    s2.messages = s.messages ++ [row] := by
  unfold createMessage at h
  split at h
  · cases h
  · simp only [Option.some.injEq, Prod.mk.injEq] at h
    obtain ⟨h1, h2⟩ := h
    subst h1 h2
    rfl

theorem sendVoiceMessageHandler_kept (env : Env) (s : State) (currentFUID : String)
    (req : SendVoiceReq) (s' : State) (resp : Response SendVoiceData) (jobs : List Job)
    (h : sendVoiceMessageHandler env s currentFUID req = some (s', resp, jobs)) :
    MessagesKept s s' := by
  unfold sendVoiceMessageHandler at h
  split at h
  · cases h; exact messagesKept_refl s
  · split at h
    · cases h; exact messagesKept_refl s
    · split at h
      · cases h; exact messagesKept_refl s
      · split at h
        · cases h
        · cases h; exact messagesKept_of_eq rfl
        · split at h
          · cases h; exact messagesKept_of_eq rfl
          · rename_i s2 row hcreate
            cases h
            have hrow := createMessage_messages env _ _ _ _ hcreate
            exact messagesKept_of_append [row] hrow

theorem sendMessageHandler_kept (env : Env) (s : State) (currentFUID : String)
    (req : SendMessageReq) (s' : State) (resp : Response SendData) (jobs : List Job)
    (h : sendMessageHandler env s currentFUID req = some (s', resp, jobs)) :
    MessagesKept s s' := by
  rcases sendMessageHandler_cases env s currentFUID req s' resp jobs h with
    ⟨_, _, hm, _⟩ | ⟨_, _, _, _, _, _, _, row, hrow, _⟩
  · exact messagesKept_of_eq hm
  · exact messagesKept_of_append [row] hrow

theorem msgStep_kept {s s' : State} (h : MsgStep s s') : MessagesKept s s' := by
  cases h with
  | send env _ u req _ resp jobs h => exact sendMessageHandler_kept env s u req s' resp jobs h
  | sendVoice env _ u req _ resp jobs h =>
    exact sendVoiceMessageHandler_kept env s u req s' resp jobs h
  | job env _ j => exact runJob_kept env s j
  | recalling cfg env _ u i => exact recallMessageHandler_kept cfg env s u i
  | drain env _ u => exact messagesKept_of_eq (getOfflineMessageHandler_messages env s u)

theorem reachable_kept {s s' : State} (h : Relation.ReflTransGen MsgStep s s') :
    MessagesKept s s' := by
  induction h with
  | refl => exact messagesKept_refl s
  | tail _ hstep ih => exact messagesKept_trans ih (msgStep_kept hstep)

/-- C8. Along any sequence of sends, job runs (delivery and push), recalls and drains, a
stored message stays at its place in `messages` with the same primary key, `MsgID`, sender,
receiver type, receiver id, content type, content and send time, and once recalled it stays
recalled. -/
theorem stored_message_fixed_and_recall_monotone (s s' : State)
    (h : Relation.ReflTransGen MsgStep s s') (i : Nat) (m : Message)
    (hm : s.messages[i]? = some m) :
    ∃ m' : Message, s'.messages[i]? = some m' ∧
      m'.ID = m.ID ∧ m'.MsgID = m.MsgID ∧ m'.SenderFUID = m.SenderFUID ∧
      m'.ReceiverType = m.ReceiverType ∧ m'.ReceiverID = m.ReceiverID ∧
      m'.ContentType = m.ContentType ∧ m'.Content = m.Content ∧ m'.SendTime = m.SendTime ∧
      (m.IsRecalled = true → m'.IsRecalled = true) := by
  obtain ⟨m', hm', hfix, hrec⟩ := reachable_kept h i m hm
  simp only [Message.fixedPart, Prod.mk.injEq] at hfix
  obtain ⟨h1, h2, h3, h4, h5, h6, h7, h8⟩ := hfix
  exact ⟨m', hm', h1, h2, h3, h4, h5, h6, h7, h8, hrec⟩

/-- C8, on a recall by the sender followed by a drain by the receiver: the stored message keeps
its columns. -/
theorem stored_message_fixed_witness :
    demoStored.messages[0]? = some demoMessage ∧
    ∃ m' : Message,
      (getOfflineMessageHandler demoEnv
        (recallMessageHandler demoCfg (demoEnvAfter 60) demoStored "alice" "m1").1
        "bob").1.messages[0]? = some m' ∧
      m'.ID = demoMessage.ID ∧ m'.MsgID = demoMessage.MsgID ∧
      m'.SenderFUID = demoMessage.SenderFUID ∧ m'.ReceiverType = demoMessage.ReceiverType ∧
      m'.ReceiverID = demoMessage.ReceiverID ∧ m'.ContentType = demoMessage.ContentType ∧
      m'.Content = demoMessage.Content ∧ m'.SendTime = demoMessage.SendTime ∧
      (demoMessage.IsRecalled = true → m'.IsRecalled = true) :=
  ⟨rfl,
    stored_message_fixed_and_recall_monotone demoStored _
      (Relation.ReflTransGen.tail
        (Relation.ReflTransGen.single
          (MsgStep.recalling demoCfg (demoEnvAfter 60) demoStored "alice" "m1"))
        (MsgStep.drain demoEnv _ "bob"))
      0 demoMessage rfl⟩

/-- C7 (the claim as stated fails). The message of `demoRecalled` is already recalled; a second
recall by its sender `alice`, 60 s after the send and with a window of 120 s, succeeds again
and its job broadcasts another `recall_message`. -/
theorem second_recall_by_sender_succeeds :
    demoRecalled.messages.map (fun m => (m.MsgID, m.IsRecalled)) = [("m1", true)] ∧
    (recallMessageHandler demoCfg (demoEnvAfter 60) demoRecalled "alice" "m1").2.1
      = success "撤回消息成功" ∧
    (runJobs (demoEnvAfter 60)
        (recallMessageHandler demoCfg (demoEnvAfter 60) demoRecalled "alice" "m1").1
        (recallMessageHandler demoCfg (demoEnvAfter 60) demoRecalled "alice" "m1").2.2).broadcasts
      = [⟨"user:bob", "recall_message", "m1", true⟩] :=
  ⟨by decide, by rfl, by rfl⟩

/-- C7 (amended). For a stored message that is already recalled and a logged-in user: an
attempt by a user other than the sender, or after the recall window, fails, leaves the state
as it was and starts no recall notification; an attempt by the sender within the window (the
store accepting the update) succeeds again and starts one more recall notification; and after
any attempt the message is still recalled. -/
theorem recall_of_recalled_message (cfg : Config) (env : Env) (s : State) (m : Message)
    (byUser : String) (hm : m ∈ s.messages)
    (huniq : ∀ m' ∈ s.messages, m'.MsgID = m.MsgID → m' = m)
    (hby : byUser ≠ "") (hid : m.MsgID ≠ "") (hrec : m.IsRecalled = true) :
    (byUser ≠ m.SenderFUID ∨ env.now - m.SendTime > recallTimeout cfg →
      (recallMessageHandler cfg env s byUser m.MsgID).2.1.Code ≠ 200 ∧
      (recallMessageHandler cfg env s byUser m.MsgID).1 = s ∧
      (recallMessageHandler cfg env s byUser m.MsgID).2.2 = []) ∧
    (byUser = m.SenderFUID → env.now - m.SendTime ≤ recallTimeout cfg → env.dbErr = false →
      (recallMessageHandler cfg env s byUser m.MsgID).2.1 = success "撤回消息成功" ∧
      (recallMessageHandler cfg env s byUser m.MsgID).2.2
        = [.pushRecallMessageToClient { m with IsRecalled := true, UpdatedAt := env.now }]) ∧
    (∀ i : Nat, s.messages[i]? = some m →
      ∃ x' : Message, (recallMessageHandler cfg env s byUser m.MsgID).1.messages[i]? = some x' ∧
        x'.MsgID = m.MsgID ∧ x'.IsRecalled = true) := by
  refine ⟨fun h => ?_, fun h1 h2 h3 => ?_, fun i hx => ?_⟩
  · rw [recallMessageHandler_eq cfg env s m byUser hm huniq hby hid]
    by_cases hown : byUser = m.SenderFUID
    · have hexp : env.now - m.SendTime > recallTimeout cfg := h.resolve_left (not_not.mpr hown)
      rw [if_neg (not_not.mpr hown), if_pos hexp]
      exact ⟨fail_code_ne _ _ (by decide), rfl, rfl⟩
    · rw [if_pos hown]
      exact ⟨fail_code_ne _ _ (by decide), rfl, rfl⟩
  · rw [recallMessageHandler_eq cfg env s m byUser hm huniq hby hid,
      if_neg (not_not.mpr h1), if_neg (by omega), if_neg (by simp [h3])]
    exact ⟨rfl, rfl⟩
  · obtain ⟨x', hx', hfix, hkeep⟩ := recallMessageHandler_kept cfg env s byUser m.MsgID i m hx
    simp only [Message.fixedPart, Prod.mk.injEq] at hfix
    exact ⟨x', hx', hfix.2.1, hkeep hrec⟩

/-- C7 (amended), on the recalled message of `demoRecalled`: the attempt by `bob`, who is not
the sender, fails without a notification. -/
theorem recall_of_recalled_message_witness :
    (recallMessageHandler demoCfg (demoEnvAfter 60) demoRecalled "bob" "m1").2.1.Code ≠ 200 ∧
    (recallMessageHandler demoCfg (demoEnvAfter 60) demoRecalled "bob" "m1").1 = demoRecalled ∧
    (recallMessageHandler demoCfg (demoEnvAfter 60) demoRecalled "bob" "m1").2.2 = [] :=
  (recall_of_recalled_message demoCfg (demoEnvAfter 60) demoRecalled
    { demoMessage with IsRecalled := true } "bob" (by decide) (by decide) (by decide)
    (by decide) rfl).1 (Or.inl (by decide))

/-! ### Call signalling -/

/-- What one request keeps of the call table: every row stays at its place with its `CallID`,
and its status is the same or moved along an allowed transition. -/
theorem updateCall_status (s : State) (hk : CallsKeyed s) (call : Call) (f : Call → Call)
    (hcall : call ∈ s.calls) (hid : ∀ c : Call, (f c).CallID = c.CallID)
    (hst : AllowedTransition call.Status (f call).Status) :
    CallsKeyed (updateCall s call f) ∧
    ∀ (i : Nat) (c : Call), s.calls[i]? = some c →
      ∃ c' : Call, (updateCall s call f).calls[i]? = some c' ∧ c'.CallID = c.CallID ∧
        (c'.Status = c.Status ∨ AllowedTransition c.Status c'.Status) := by
  constructor
  · unfold CallsKeyed updateCall
    simp only [List.map_map]
    have : ((fun c : Call => c.CallID) ∘ fun c => if c.CallID = call.CallID then f c else c)
        = fun c : Call => c.CallID := by
      funext c
      simp only [Function.comp]
      split
      · exact hid c
      · rfl
    rw [this]
    exact hk
  · intro i c hc
    refine ⟨if c.CallID = call.CallID then f c else c, ?_, ?_, ?_⟩
    · simp only [updateCall, List.getElem?_map, hc]
      rfl
    · split
      · exact hid c
      · rfl
    · split
      · rename_i heq
        have hcmem : c ∈ s.calls := List.getElem?_mem hc
        have : c = call := List.inj_on_of_nodup_map hk hcmem hcall heq
        subst this
        exact Or.inr hst
      · exact Or.inl rfl

theorem calls_same_status (s s' : State) (h : s'.calls = s.calls) (hk : CallsKeyed s) :
    CallsKeyed s' ∧
    ∀ (i : Nat) (c : Call), s.calls[i]? = some c →
      ∃ c' : Call, s'.calls[i]? = some c' ∧ c'.CallID = c.CallID ∧
        (c'.Status = c.Status ∨ AllowedTransition c.Status c'.Status) := by
  refine ⟨by unfold CallsKeyed; rw [h]; exact hk, fun i c hc => ⟨c, by rw [h]; exact hc, rfl, Or.inl rfl⟩⟩

theorem firstCall_mem (s : State) (callID : String) (call : Call)
    (h : firstCall s callID = some call) : call ∈ s.calls ∧ call.CallID = callID := by
  unfold firstCall at h
  exact ⟨List.mem_of_find?_eq_some h, by simpa using List.find?_some h⟩

theorem createCall_calls (env : Env) (s : State) (call : Call) (s2 : State)
    (h : createCall env s call = some s2) :
    s2.calls = s.calls ++ [call] ∧ call.CallID ∉ s.calls.map (fun c => c.CallID) ∧
      env.dbErr = false := by
  unfold createCall at h
  split at h
  · cases h
  · rename_i hok
    simp only [not_or] at hok
    cases h
    exact ⟨rfl, hok.2, by simpa using hok.1⟩

/-- The two ways in which `initCallHandler` returns: a failure that leaves the call table as
it was, or a success that adds the new call, in status 0, under a fresh `CallID`. -/
theorem initCallHandler_cases (env : Env) (s : State) (currentFUID : String) (req : InitCallReq)
    (s' : State) (resp : Response InitCallData) (jobs : List Job)
    (h : initCallHandler env s currentFUID req = some (s', resp, jobs)) :
    (resp.Code ≠ 200 ∧ s'.calls = s.calls ∧ jobs = []) ∨
    (∃ (callID : String) (rdb1 : List RedisEntry),
      generateUniqueID env 32 env.draws s.rdb = some (.ok callID, rdb1) ∧
      resp = success ⟨callID, env.formatTime env.now, "等待对方接听"⟩ ∧
      s'.calls = s.calls ++ [newCall env currentFUID req callID] ∧
      s'.groupMembers = s.groupMembers ∧
      callID ∉ s.calls.map (fun c => c.CallID) ∧
      jobs = [.pushCallNotification (newCall env currentFUID req callID) "incoming" []]) := by
  unfold initCallHandler at h
  split at h
  · cases h; exact Or.inl ⟨fail_code_ne _ _ (by decide), rfl, rfl⟩
  · split at h
    · cases h; exact Or.inl ⟨fail_code_ne _ _ (by decide), rfl, rfl⟩
    · split at h
      · rename_i code msg hcheck
        cases h
        refine Or.inl ⟨?_, rfl, rfl⟩
        unfold initCallCheck at hcheck
        repeat' split at hcheck
        all_goals first | (cases hcheck; decide) | cases hcheck
      · split at h
        · cases h
        · cases h; exact Or.inl ⟨fail_code_ne _ _ (by decide), rfl, rfl⟩
        · rename_i callID rdb1 hgen
          split at h
          · cases h; exact Or.inl ⟨fail_code_ne _ _ (by decide), rfl, rfl⟩
          · rename_i s2 hcreate
            cases h
            obtain ⟨h1, h2, _⟩ := createCall_calls env _ _ _ hcreate
            have h3 : s'.groupMembers = s.groupMembers := by
              unfold createCall at hcreate
              split at hcreate
              · cases hcreate
              · cases hcreate; rfl
            exact Or.inr ⟨callID, rdb1, hgen, rfl, h1, h3, h2, rfl⟩

theorem callStep_status {s s' : State} (h : CallStep s s') (hk : CallsKeyed s) :
    CallsKeyed s' ∧
    ∀ (i : Nat) (c : Call), s.calls[i]? = some c →
      ∃ c' : Call, s'.calls[i]? = some c' ∧ c'.CallID = c.CallID ∧
        (c'.Status = c.Status ∨ AllowedTransition c.Status c'.Status) := by
  cases h with
  | init env _ u req _ resp jobs h =>
    rcases initCallHandler_cases env s u req s' resp jobs h with
      ⟨_, hc, _⟩ | ⟨callID, rdb1, _, _, hc, _, hfresh, _⟩
    · exact calls_same_status s s' hc hk
    · constructor
      · unfold CallsKeyed at hk ⊢
        rw [hc, List.map_append, List.nodup_append]
        refine ⟨hk, by simp, ?_⟩
        intro a ha hb
        simp only [List.map_cons, List.map_nil, List.mem_singleton] at hb
        subst hb
        exact hfresh ha
      · intro i c hci
        refine ⟨c, ?_, rfl, Or.inl rfl⟩
        rw [hc, List.getElem?_append_left (List.getElem?_eq_some.mp hci).1]
        exact hci
  | accept env _ u callID =>
    unfold acceptCallHandler
    repeat' split
    all_goals first
      | exact calls_same_status s s rfl hk
      | (rename_i call hfind _ _ hst _
         exact updateCall_status s hk call _ (firstCall_mem s callID call hfind).1
           (fun _ => rfl) (Or.inl ⟨not_not.mp hst, rfl⟩))
  | reject env _ u callID reason =>
    unfold rejectCallHandler
    repeat' split
    all_goals first
      | exact calls_same_status s s rfl hk
      | (rename_i call hfind _ _ hst _
         exact updateCall_status s hk call _ (firstCall_mem s callID call hfind).1
           (fun _ => rfl) (Or.inr (Or.inl ⟨not_not.mp hst, rfl⟩)))
  | ending env _ u callID =>
    unfold endCallHandler
    repeat' split
    all_goals first
      | exact calls_same_status s s rfl hk
      | (rename_i call hfind _ hst _
         exact updateCall_status s hk call _ (firstCall_mem s callID call hfind).1
           (fun _ => rfl) (Or.inr (Or.inr (Or.inr ⟨not_not.mp hst, rfl⟩))))

/-- C9 (the claim as stated fails). The call `c1` from `alice` to `bob` is active, not ringing;
an accept of it by its initiator `alice`, or by the stranger `mallory`, fails with code 403
("无权操作此通话"), not with the invalid-state failure of `acceptCallHandler`. -/
theorem accept_on_active_call_is_forbidden_first :
    (firstCall demoCalls "c1").map (fun c => (c.SenderFUID, c.ReceiverID, c.Status))
      = some ("alice", "bob", 1) ∧
    (acceptCallHandler demoEnv demoCalls "alice" "c1").2.1 = fail 403 "无权操作此通话" ∧
    (acceptCallHandler demoEnv demoCalls "mallory" "c1").2.1 = fail 403 "无权操作此通话" ∧
    (acceptCallHandler demoEnv demoCalls "alice" "c1").2.1 ≠ acceptInvalidState ∧
    (acceptCallHandler demoEnv demoCalls "bob" "c1").2.1 = acceptInvalidState :=
  ⟨by rfl, by rfl, by rfl, by decide, by rfl⟩

/-- C9 (amended). On a call table keyed by `CallID`, every request (initiate, accept, reject
or end) keeps the table keyed and leaves each call with its status or moves it along
ringing→active, ringing→rejected, ringing→missed or active→ended.  An accept or a reject of a
call that is not ringing, and an end of a rejected, ended or missed call, leave the state as
it was and fail: with the invalid-state failure (code 400) when the requester passes the
permission check of the handler, and with code 403 otherwise. -/
theorem call_status_moves_only_along_allowed_transitions (s : State) (hk : CallsKeyed s) :
    (∀ s' : State, CallStep s s' →
      CallsKeyed s' ∧
      ∀ (i : Nat) (c : Call), s.calls[i]? = some c →
        ∃ c' : Call, s'.calls[i]? = some c' ∧ c'.CallID = c.CallID ∧
          (c'.Status = c.Status ∨ AllowedTransition c.Status c'.Status)) ∧
    (∀ (env : Env) (u callID : String) (call : Call), u ≠ "" → callID ≠ "" →
      firstCall s callID = some call → call.Status ≠ 0 →
      (acceptCallHandler env s u callID).1 = s ∧
      (acceptCheck s call u = none → (acceptCallHandler env s u callID).2.1 = acceptInvalidState) ∧
      (acceptCheck s call u ≠ none → (acceptCallHandler env s u callID).2.1.Code = 403)) ∧
    (∀ (env : Env) (u callID reason : String) (call : Call), u ≠ "" → callID ≠ "" →
      reason.length ≤ 100 → firstCall s callID = some call → call.Status ≠ 0 →
      (rejectCallHandler env s u callID reason).1 = s ∧
      (rejectCheck call u = none →
        (rejectCallHandler env s u callID reason).2.1 = rejectInvalidState) ∧
      (rejectCheck call u ≠ none → (rejectCallHandler env s u callID reason).2.1.Code = 403)) ∧
    (∀ (env : Env) (u callID : String) (call : Call), u ≠ "" → callID ≠ "" →
      firstCall s callID = some call → call.Status = 2 ∨ call.Status = 3 ∨ call.Status = 4 →
      (endCallHandler env s u callID).1 = s ∧
      (endAllowed s call u = true → (endCallHandler env s u callID).2.1 = endInvalidState) ∧
      (endAllowed s call u = false → (endCallHandler env s u callID).2.1.Code = 403)) := by
  refine ⟨fun s' h => callStep_status h hk, ?_, ?_, ?_⟩
  · intro env u callID call hu hid hfind hst
    have hval : acceptCallHandler env s u callID =
        match acceptCheck s call u with
        | some (code, msg) => (s, fail code msg, [])
        | none => (s, acceptInvalidState, []) := by
      unfold acceptCallHandler
      rw [if_neg hu, if_neg hid, hfind]
      simp only [if_pos hst, acceptInvalidState]
    rw [hval]
    rcases hcheck : acceptCheck s call u with _ | ⟨code, msg⟩
    · exact ⟨rfl, fun _ => rfl, fun h => absurd rfl h⟩
    · refine ⟨rfl, ?_, fun _ => ?_⟩
      · intro h; cases h
      unfold acceptCheck at hcheck
      repeat' split at hcheck
      all_goals first | (cases hcheck; rfl) | cases hcheck
  · intro env u callID reason call hu hid hlen hfind hst
    have hval : rejectCallHandler env s u callID reason =
        match rejectCheck call u with
        | some (code, msg) => (s, fail code msg, [])
        | none => (s, rejectInvalidState, []) := by
      unfold rejectCallHandler
      rw [if_neg hu, if_neg (by simp only [not_or]; exact ⟨hid, by omega⟩), hfind]
      simp only [if_pos hst, rejectInvalidState]
    rw [hval]
    rcases hcheck : rejectCheck call u with _ | ⟨code, msg⟩
    · exact ⟨rfl, fun _ => rfl, fun h => absurd rfl h⟩
    · refine ⟨rfl, ?_, fun _ => ?_⟩
      · intro h; cases h
      unfold rejectCheck at hcheck
      repeat' split at hcheck
      all_goals first | (cases hcheck; rfl) | cases hcheck
  · intro env u callID call hu hid hfind hst3
    have hst : call.Status ≠ 1 := by omega
    have hval : endCallHandler env s u callID =
        if endAllowed s call u = true then (s, endInvalidState, [])
        else (s, fail 403 "无权结束此通话", []) := by
      unfold endCallHandler
      rw [if_neg hu, if_neg hid, hfind]
      by_cases hall : endAllowed s call u = true
      · simp [hall, hst, endInvalidState]
      · simp [hall]
    rw [hval]
    by_cases hall : endAllowed s call u = true
    · rw [if_pos hall]
      exact ⟨rfl, fun _ => rfl, fun h => absurd hall (by simp [h])⟩
    · rw [if_neg hall]
      exact ⟨rfl, fun h => absurd h hall, fun _ => rfl⟩

/-- C9 (amended), on the sample call table: a reject by `bob` of the ringing call `c2` moves
it to rejected, an allowed transition, and an accept by `bob` of the active call `c1` fails
with the invalid-state failure and leaves the state as it was. -/
theorem call_status_moves_witness :
    CallsKeyed demoCalls ∧
    (∃ c' : Call, (rejectCallHandler demoEnv demoCalls "bob" "c2" "busy").1.calls[1]? = some c' ∧
      c'.CallID = "c2" ∧ (c'.Status = 0 ∨ AllowedTransition 0 c'.Status)) ∧
    (acceptCallHandler demoEnv demoCalls "bob" "c1").1 = demoCalls ∧
    (acceptCallHandler demoEnv demoCalls "bob" "c1").2.1 = acceptInvalidState :=
  ⟨by decide,
    ((call_status_moves_only_along_allowed_transitions demoCalls (by decide)).1 _
      (CallStep.reject demoEnv demoCalls "bob" "c2" "busy")).2 1
      ⟨"c2", "carol", 1, "bob", 1, 0, zeroTime, zeroTime, 0, 1699999995 * second⟩ rfl,
    ((call_status_moves_only_along_allowed_transitions demoCalls (by decide)).2.1 demoEnv "bob"
      "c1" ⟨"c1", "alice", 1, "bob", 1, 1, 1700000000 * second, zeroTime, 0, 1699999990 * second⟩
      (by decide) (by decide) rfl (by decide)).1,
    ((call_status_moves_only_along_allowed_transitions demoCalls (by decide)).2.1 demoEnv "bob"
      "c1" ⟨"c1", "alice", 1, "bob", 1, 1, 1700000000 * second, zeroTime, 0, 1699999990 * second⟩
      (by decide) (by decide) rfl (by decide)).2.1 rfl⟩

theorem encodeID_ne_empty (n : Nat) (b : List Nat) : encodeID (n + 1) b ≠ "" := by
  intro h
  have h2 := congrArg String.length h
  simp [encodeID, String.length] at h2

theorem generateUniqueID_ne_empty (env : Env) (n : Nat) (draws : List (Except String (List Nat))) :
    ∀ (rdb rdb1 : List RedisEntry) (id : String),
      generateUniqueID env (n + 1) draws rdb = some (.ok id, rdb1) → id ≠ "" := by
  induction draws with
  | nil => intro rdb rdb1 id h; cases h
  | cons d rest ih =>
    intro rdb rdb1 id h
    cases d with
    | error e => simp [generateUniqueID] at h
    | ok b =>
      simp only [generateUniqueID] at h
      split at h
      · cases h
      · cases h
        exact encodeID_ne_empty n b
      · exact ih _ _ _ h

theorem firstCall_append_fresh (s s1 : State) (call : Call)
    (hcalls : s1.calls = s.calls ++ [call])
    (hfresh : call.CallID ∉ s.calls.map (fun c => c.CallID)) :
    firstCall s1 call.CallID = some call := by
  unfold firstCall
  rw [hcalls, List.find?_append]
  have hnone : s.calls.find? (fun c => decide (c.CallID = call.CallID)) = none := by
    rw [List.find?_eq_none]
    intro c hc hp
    simp only [decide_eq_true_eq] at hp
    exact hfresh (List.mem_map.mpr ⟨c, hc, hp⟩)
  rw [hnone]
  simp

theorem firstCall_updateCall (s : State) (call : Call) (f : Call → Call) (callID : String)
    (hid : ∀ c : Call, (f c).CallID = c.CallID) (hfind : firstCall s callID = some call) :
    firstCall (updateCall s call f) callID = some (f call) := by
  have hc := (firstCall_mem s callID call hfind).2
  unfold firstCall updateCall at *
  simp only [List.find?_map]
  have hp : ((fun c : Call => decide (c.CallID = callID)) ∘
      fun c => if c.CallID = call.CallID then f c else c)
      = fun c : Call => decide (c.CallID = callID) := by
    funext c
    simp only [Function.comp]
    split
    · rw [hid c]
    · rfl
  rw [hp, hfind]
  simp [hc]

/-- C10. A call created by a successful `initCallHandler` is stored ringing (status 0); when
its recipient (the direct target, or a member of the target group) then rejects it and the
store accepts the update, the reject succeeds and the call is stored with status 2
(rejected), the instant of the reject as end time, and duration 0. -/
theorem initiate_then_reject_leaves_rejected (env env2 : Env) (s s1 : State) (u : String)
    (req : InitCallReq) (resp : Response InitCallData) (jobs : List Job) (r reason : String)
    (hinit : initCallHandler env s u req = some (s1, resp, jobs)) (hok : resp.Code = 200)
    (hr : r ≠ "")
    (hrecv : (req.ReceiverType = 1 ∧ r = req.ReceiverID) ∨
      (req.ReceiverType = 2 ∧ isGroupMember s1 req.ReceiverID r = true))
    (hlen : reason.length ≤ 100) (hdb : env2.dbErr = false) :
    ∃ callID : String,
      resp.Data = some ⟨callID, env.formatTime env.now, "等待对方接听"⟩ ∧
      (firstCall s1 callID).map (fun c => c.Status) = some 0 ∧
      (rejectCallHandler env2 s1 r callID reason).2.1 = success "已拒绝通话" ∧
      ∃ c : Call, firstCall (rejectCallHandler env2 s1 r callID reason).1 callID = some c ∧
        c.Status = 2 ∧ c.EndTime = env2.now ∧ c.Duration = 0 := by
  rcases initCallHandler_cases env s u req s1 resp jobs hinit with
    ⟨hc, _, _⟩ | ⟨callID, rdb1, hgen, hresp, hcalls, _, hfresh, _⟩
  · exact absurd hok hc
  · have hne : callID ≠ "" := generateUniqueID_ne_empty env 31 env.draws _ _ _ hgen
    have hfind : firstCall s1 callID = some (newCall env u req callID) :=
      firstCall_append_fresh s s1 (newCall env u req callID) hcalls hfresh
    have hcheck : rejectCheck (newCall env u req callID) r = none := by
      unfold rejectCheck
      rw [if_neg]
      rintro ⟨h1, h2⟩
      rcases hrecv with ⟨_, h⟩ | ⟨h, _⟩
      · exact h2 h.symm
      · simp only [newCall] at h1
        omega
    have hval : rejectCallHandler env2 s1 r callID reason =
        (updateCall s1 (newCall env u req callID)
            (fun c => { c with Status := 2, EndTime := env2.now }),
          success "已拒绝通话",
          [.pushCallNotification
            { newCall env u req callID with Status := 2, EndTime := env2.now } "rejected"
            [reason]]) := by
      unfold rejectCallHandler
      rw [if_neg hr, if_neg (by simp only [not_or]; exact ⟨hne, by omega⟩), hfind]
      simp only [hcheck]
      rw [if_neg (by simp [newCall]), if_neg (by simp [hdb])]
    refine ⟨callID, by rw [hresp]; rfl, by rw [hfind]; rfl, by rw [hval], ?_⟩
    rw [hval]
    exact ⟨_, firstCall_updateCall s1 _ _ callID (fun _ => rfl) hfind, rfl, rfl, rfl⟩

/-- C10, for a call from `alice` to her friend `bob` that `bob` rejects ten seconds later. -/
theorem initiate_then_reject_witness :
    ∃ (s1 : State) (callID : String),
      (initCallHandler demoEnv demoDirect "alice" demoInitCall).map (fun o => o.1) = some s1 ∧
      (firstCall s1 callID).map (fun c => c.Status) = some 0 ∧
      (rejectCallHandler (demoEnvAfter 10) s1 "bob" callID "busy").2.1 = success "已拒绝通话" ∧
      ∃ c : Call,
        firstCall (rejectCallHandler (demoEnvAfter 10) s1 "bob" callID "busy").1 callID = some c ∧
        c.Status = 2 ∧ c.EndTime = (demoEnvAfter 10).now ∧ c.Duration = 0 := by
  cases hinit : initCallHandler demoEnv demoDirect "alice" demoInitCall with
  | none => exact absurd hinit (by decide)
  | some o =>
    obtain ⟨s1, resp, jobs⟩ := o
    have hok : resp.Code = 200 := by
      have h2 : (initCallHandler demoEnv demoDirect "alice" demoInitCall).map
          (fun o => o.2.1.Code) = some 200 := by rfl
      rw [hinit] at h2
      simpa using h2
    obtain ⟨callID, _, h1, h2, h3⟩ :=
      initiate_then_reject_leaves_rejected demoEnv (demoEnvAfter 10) demoDirect s1 "alice"
        demoInitCall resp jobs "bob" "busy" hinit hok (by decide) (Or.inl ⟨rfl, rfl⟩)
        (by decide) rfl
    exact ⟨s1, callID, rfl, h1, h2, h3⟩

/-! ### Call signalling: end of a ringing call, strangers, notifications -/

theorem firstMember_none_of_no_row (s : State) (groupQUID userFUID : String)
    (h : ¬ ∃ m ∈ s.groupMembers, m.GroupQUID = groupQUID ∧ m.UserFUID = userFUID ∧ m.Status = 1) :
    firstMember s groupQUID userFUID = none := by
  unfold firstMember
  rw [List.find?_eq_none]
  intro m hm hp
  simp only [decide_eq_true_eq] at hp
  exact h ⟨m, hm, hp⟩

theorem isGroupMember_false_of_no_row (s : State) (groupQUID userFUID : String)
    (h : ¬ ∃ m ∈ s.groupMembers, m.GroupQUID = groupQUID ∧ m.UserFUID = userFUID ∧ m.Status = 1) :
    isGroupMember s groupQUID userFUID = false := by
  unfold isGroupMember
  have : s.groupMembers.filter (fun m =>
      decide (m.GroupQUID = groupQUID ∧ m.UserFUID = userFUID ∧ m.Status = 1)) = [] := by
    rw [List.filter_eq_nil_iff]
    intro m hm hp
    simp only [decide_eq_true_eq] at hp
    exact h ⟨m, hm, hp⟩
  rw [this]
  rfl

/-- Where the code agrees with C13: for a user who is neither the initiator nor a resolved
recipient of a direct or group call, an accept and an end fail with code 403 and leave the
state as it was, and so does a reject of a direct call. -/
theorem stranger_forbidden_except_group_reject (env : Env) (s : State) (u callID : String)
    (call : Call) (hu : u ≠ "") (hid : callID ≠ "") (hfind : firstCall s callID = some call)
    (hty : call.ReceiverType = 1 ∨ call.ReceiverType = 2) (hstr : CallStranger s call u) :
    ((acceptCallHandler env s u callID).2.1.Code = 403 ∧ (acceptCallHandler env s u callID).1 = s) ∧
    ((endCallHandler env s u callID).2.1.Code = 403 ∧ (endCallHandler env s u callID).1 = s) ∧
    (∀ reason : String, reason.length ≤ 100 → call.ReceiverType = 1 →
      (rejectCallHandler env s u callID reason).2.1.Code = 403 ∧
      (rejectCallHandler env s u callID reason).1 = s) := by
  obtain ⟨hs, hd, hg⟩ := hstr
  refine ⟨?_, ?_, ?_⟩
  · have hcheck : ∃ msg, acceptCheck s call u = some (403, msg) := by
      unfold acceptCheck
      rcases hty with h1 | h2
      · have : call.ReceiverID ≠ u := fun h => hd ⟨h1, h⟩
        exact ⟨_, by rw [if_pos ⟨h1, this⟩]⟩
      · have hnone := firstMember_none_of_no_row s call.ReceiverID u (fun h => hg ⟨h2, h⟩)
        rw [if_neg (by omega), if_pos ⟨h2, by rw [hnone]; rfl⟩]
        exact ⟨_, rfl⟩
    obtain ⟨msg, hmsg⟩ := hcheck
    unfold acceptCallHandler
    rw [if_neg hu, if_neg hid, hfind]
    simp [hmsg, fail]
  · have hall : endAllowed s call u = false := by
      unfold endAllowed
      have h1 : decide (call.SenderFUID = u) = false := by simpa using hs
      have h2 : (decide (call.ReceiverType = 1) && decide (call.ReceiverID = u)) = false := by
        by_cases h : call.ReceiverType = 1
        · have : call.ReceiverID ≠ u := fun h' => hd ⟨h, h'⟩
          simp [this]
        · simp [h]
      have h3 : (decide (call.ReceiverType = 2) && isGroupMember s call.ReceiverID u) = false := by
        by_cases h : call.ReceiverType = 2
        · rw [isGroupMember_false_of_no_row s call.ReceiverID u (fun h' => hg ⟨h, h'⟩)]
          simp
        · simp [h]
      simp only [h1, h2, h3]
      rfl
    unfold endCallHandler
    rw [if_neg hu, if_neg hid, hfind]
    simp only [hall]
    exact ⟨rfl, rfl⟩
  · intro reason hlen h1
    have hcheck : rejectCheck call u = some (403, "无权操作此通话") := by
      unfold rejectCheck
      rw [if_pos ⟨h1, fun h => hd ⟨h1, h⟩⟩]
    unfold rejectCallHandler
    rw [if_neg hu, if_neg (by simp only [not_or]; exact ⟨hid, by omega⟩), hfind]
    simp [hcheck, fail]

/-- C12 (the claim as stated fails). The call `c2` is ringing and `carol` is its initiator; her
end request fails with the invalid-state failure of `endCallHandler` and the state, with the
call still ringing, is as it was. -/
theorem end_of_ringing_call_by_initiator_is_refused :
    (firstCall demoCalls "c2").map (fun c => (c.SenderFUID, c.Status)) = some ("carol", 0) ∧
    (endCallHandler demoEnv demoCalls "carol" "c2").2.1 = endInvalidState ∧
    (endCallHandler demoEnv demoCalls "carol" "c2").1 = demoCalls :=
  ⟨by rfl, by rfl, by rfl⟩

/-- C12 (amended). For every ringing call, an end request from its initiator fails with the
invalid-state failure (code 400), starts no job and leaves the state as it was, so the call
stays ringing. -/
theorem end_of_ringing_call_fails (env : Env) (s : State) (u callID : String) (call : Call)
    (hu : u ≠ "") (hid : callID ≠ "") (hfind : firstCall s callID = some call)
    (hring : call.Status = 0) (hinit : call.SenderFUID = u) :
    endCallHandler env s u callID = (s, endInvalidState, []) ∧
    (firstCall (endCallHandler env s u callID).1 callID).map (fun c => c.Status) = some 0 := by
  have hall : endAllowed s call u = true := by
    simp [endAllowed, hinit]
  have hval : endCallHandler env s u callID = (s, endInvalidState, []) := by
    unfold endCallHandler
    rw [if_neg hu, if_neg hid, hfind]
    simp [hall, hring, endInvalidState]
  rw [hval]
  exact ⟨rfl, by rw [hfind, ← hring]; rfl⟩

/-- C12 (amended), on the ringing call `c2` of `carol`. -/
theorem end_of_ringing_call_fails_witness :
    endCallHandler demoEnv demoCalls "carol" "c2" = (demoCalls, endInvalidState, []) ∧
    (firstCall (endCallHandler demoEnv demoCalls "carol" "c2").1 "c2").map (fun c => c.Status)
      = some 0 :=
  end_of_ringing_call_fails demoEnv demoCalls "carol" "c2"
    ⟨"c2", "carol", 1, "bob", 1, 0, zeroTime, zeroTime, 0, 1699999995 * second⟩
    (by decide) (by decide) rfl rfl rfl

/-- C13 (the code departs from the claim). `mallory` is neither the initiator of the ringing
group call `c3` nor a member of its group `g1`: her accept and her end fail with code 403, but
her reject succeeds and moves the call to rejected, since `rejectCallHandler` checks the
receiver of direct calls only. -/
theorem reject_of_group_call_by_stranger_succeeds :
    (firstCall demoGroupCall "c3").map (fun c => c.Status) = some 0 ∧
    (∀ c ∈ demoGroupCall.calls, CallStranger demoGroupCall c "mallory") ∧
    (acceptCallHandler demoEnv demoGroupCall "mallory" "c3").2.1.Code = 403 ∧
    (endCallHandler demoEnv demoGroupCall "mallory" "c3").2.1.Code = 403 ∧
    (rejectCallHandler demoEnv demoGroupCall "mallory" "c3" "").2.1 = success "已拒绝通话" ∧
    (firstCall (rejectCallHandler demoEnv demoGroupCall "mallory" "c3" "").1 "c3").map
      (fun c => c.Status) = some 2 :=
  ⟨by rfl, by decide, by rfl, by rfl, by rfl, by rfl⟩

/-- C14 (the code departs from the claim). No run of `pushCallNotification` adds to the
broadcast log or changes the state in any other way; after the successful call of `alice` to
`bob`, the one job of the handler is the notification tagged `incoming`, and after it has run
the broadcast log is still empty. -/
theorem call_notification_is_never_emitted :
    (∀ (env : Env) (s : State) (call : Call) (action : String) (extra : List String),
      runJob env s (.pushCallNotification call action extra) = s) ∧
    (initCallHandler demoEnv demoDirect "alice" demoInitCall).map (fun o =>
        (o.2.1.Code,
          o.2.2.map (fun j => match j with
            | .pushCallNotification c action _ => (c.CallID, action)
            | _ => ("", "")),
          (runJobs demoEnv o.1 o.2.2).broadcasts))
      = some (200, [("0123456789abcdefghijklmnopqrstuv", "incoming")], []) :=
  ⟨fun _ _ _ _ _ => rfl, by rfl⟩

/-! ### Rate limiters -/

theorem loadLimiter_append_fresh (m : List (String × Limiter)) (key : String) (l : Limiter)
    (h : loadLimiter m key = none) : loadLimiter (m ++ [(key, l)]) key = some l := by
  unfold loadLimiter at *
  have hnone : m.find? (fun e => decide (e.1 = key)) = none := by
    cases hf : m.find? (fun e => decide (e.1 = key)) with
    | none => rfl
    | some e => rw [hf] at h; cases h
  rw [List.find?_append, hnone]
  simp

theorem loadLimiter_map_update (m : List (String × Limiter)) (key : String) (l l' : Limiter)
    (h : loadLimiter m key = some l) :
    loadLimiter (m.map (fun e => if e.1 = key then (e.1, l') else e)) key = some l' := by
  unfold loadLimiter at *
  induction m with
  | nil => cases h
  | cons e t ih =>
    by_cases he : e.1 = key
    · simp [List.find?, he]
    · rw [List.find?_cons_of_neg _ (by simpa using he)] at h
      rw [List.map_cons, if_neg he, List.find?_cons_of_neg _ (by simpa using he)]
      exact ih h

theorem loadLimiter_map_update_ne (m : List (String × Limiter)) (key k : String) (l' : Limiter)
    (hk : k ≠ key) :
    loadLimiter (m.map (fun e => if e.1 = key then (e.1, l') else e)) k = loadLimiter m k := by
  unfold loadLimiter
  induction m with
  | nil => rfl
  | cons e t ih =>
    by_cases he : e.1 = key
    · have hne : e.1 ≠ k := fun h => hk (h.symm.trans he)
      simp only [List.map_cons, if_pos he, List.find?_cons, hne, decide_False]
      exact ih
    · simp only [List.map_cons, if_neg he, List.find?_cons]
      cases decide (e.1 = k)
      · exact ih
      · rfl

theorem loadLimiter_append_ne (m : List (String × Limiter)) (key k : String) (l : Limiter)
    (hk : k ≠ key) : loadLimiter (m ++ [(key, l)]) k = loadLimiter m k := by
  unfold loadLimiter
  rw [List.find?_append]
  have : List.find? (fun e : String × Limiter => decide (e.1 = k)) [(key, l)] = none := by
    have hd : decide (key = k) = false := by simpa using fun h : key = k => hk h.symm
    simp [List.find?, hd]
  rw [this]
  simp

/-- A check on a bucket refilled at the same instant: it is allowed and takes one token when
the bucket holds at least one, and is denied and takes nothing otherwise. -/
theorem checkKey_existing (c : RateLimitEntry) (now : Int) (m : List (String × Limiter))
    (key : String) (r : ℚ) (b : Int) (t : ℚ) (h : BucketHolds m key r b now t)
    (htb : t ≤ (b : ℚ)) :
    (1 ≤ t → (checkKey c now m key).1 = true ∧
      BucketHolds (checkKey c now m key).2 key r b now (t - 1)) ∧
    (t < 1 → (checkKey c now m key).1 = false ∧
      BucketHolds (checkKey c now m key).2 key r b now t) := by
  unfold BucketHolds at h
  have hrefill : min (b : ℚ) (t + r * ((max 0 (now - now) : Int) : ℚ) / 1000000000) = t := by
    simp [htb]
  have hv : checkKey c now m key =
      ((Limiter.allow now ⟨some r, b, t, now⟩).1,
        m.map (fun e => if e.1 = key then (e.1, (Limiter.allow now ⟨some r, b, t, now⟩).2) else e)) := by
    unfold checkKey allowIn
    simp only [h]
  constructor
  · intro h1
    have hallow : Limiter.allow now ⟨some r, b, t, now⟩ = (true, ⟨some r, b, t - 1, now⟩) := by
      simp only [Limiter.allow, hrefill, if_pos h1]
    rw [hv, hallow]
    exact ⟨rfl, loadLimiter_map_update m key _ _ h⟩
  · intro h1
    have hallow : Limiter.allow now ⟨some r, b, t, now⟩ = (false, ⟨some r, b, t, now⟩) := by
      simp only [Limiter.allow, hrefill, if_neg (not_le.mpr h1)]
    rw [hv, hallow]
    exact ⟨rfl, loadLimiter_map_update m key _ _ h⟩

/-- The first check on a key: the bucket is created full and the check is made on it. -/
theorem checkKey_fresh (c : RateLimitEntry) (now : Int) (m : List (String × Limiter))
    (key : String) (hp : c.Period ≠ 0) (h : loadLimiter m key = none) :
    checkKey c now m key =
      checkKey c now
        (m ++ [(key, ⟨some ((c.Limit : ℚ) / (c.Period : ℚ)), c.Limit, (c.Limit : ℚ), now⟩)]) key ∧
    BucketHolds (m ++ [(key, ⟨some ((c.Limit : ℚ) / (c.Period : ℚ)), c.Limit, (c.Limit : ℚ), now⟩)])
      key ((c.Limit : ℚ) / (c.Period : ℚ)) c.Limit now (c.Limit : ℚ) := by
  have hb := loadLimiter_append_fresh m key
    ⟨some ((c.Limit : ℚ) / (c.Period : ℚ)), c.Limit, (c.Limit : ℚ), now⟩ h
  refine ⟨?_, hb⟩
  unfold checkKey
  rw [h, hb]
  simp only [loadOrStore, h, newTokenBucketLimiter, rateOf, if_neg hp]
/-- Consecutive checks at one instant on a bucket that holds `k` tokens: `k` are allowed and
the next one is denied. -/
theorem runChecks_existing (c : RateLimitEntry) (now : Int) (key : String)
    (resp : Response Unit) (proj : Limiters → List (String × Limiter))
    (check : Limiters → Limiters × Option (Response Unit))
    (hcheck : ∀ ls : Limiters, proj (check ls).1 = (checkKey c now (proj ls) key).2 ∧
      (check ls).2 = if (checkKey c now (proj ls) key).1 = true then none else some resp)
    (r : ℚ) (b : Int) :
    ∀ (k : Nat) (ls : Limiters), BucketHolds (proj ls) key r b now (k : ℚ) → (k : ℚ) ≤ (b : ℚ) →
      (runChecks check (k + 1) ls).1 = List.replicate k none ++ [some resp] := by
  intro k
  induction k with
  | zero =>
    intro ls hb hle
    obtain ⟨hfalse, _⟩ := (checkKey_existing c now (proj ls) key r b _ hb hle).2 (by norm_num)
    simp only [runChecks, (hcheck ls).2, hfalse]
    rfl
  | succ k ih =>
    intro ls hb hle
    obtain ⟨htrue, hnext⟩ :=
      (checkKey_existing c now (proj ls) key r b _ hb hle).1 (by push_cast; linarith [Nat.cast_nonneg (α := ℚ) k])
    have hnext' : BucketHolds (proj (check ls).1) key r b now (k : ℚ) := by
      rw [(hcheck ls).1]
      have : ((k + 1 : Nat) : ℚ) - 1 = (k : ℚ) := by push_cast; ring
      rw [this] at hnext
      exact hnext
    have hle' : (k : ℚ) ≤ (b : ℚ) := by
      have : (k : ℚ) ≤ ((k + 1 : Nat) : ℚ) := by push_cast; linarith
      linarith
    have hrest := ih (check ls).1 hnext' hle'
    show ((check ls).2 :: (runChecks check (k + 1) (check ls).1).1) = _
    rw [hrest, (hcheck ls).2, htrue]
    rfl

/-- Consecutive checks at one instant on a key seen for the first time, with capacity `n` and
a period other than 0: `n` are allowed and the next one is denied. -/
theorem runChecks_fresh (c : RateLimitEntry) (now : Int) (key : String)
    (resp : Response Unit) (proj : Limiters → List (String × Limiter))
    (check : Limiters → Limiters × Option (Response Unit))
    (hcheck : ∀ ls : Limiters, proj (check ls).1 = (checkKey c now (proj ls) key).2 ∧
      (check ls).2 = if (checkKey c now (proj ls) key).1 = true then none else some resp)
    (n : Nat) (hn : c.Limit = (n : Int)) (hp : c.Period ≠ 0) (ls : Limiters)
    (hfresh : loadLimiter (proj ls) key = none) :
    (runChecks check (n + 1) ls).1 = List.replicate n none ++ [some resp] := by
  obtain ⟨heq, hb0⟩ := checkKey_fresh c now (proj ls) key hp hfresh
  have hcast : (c.Limit : ℚ) = (n : ℚ) := by rw [hn]; simp
  have hb : BucketHolds
      (proj ls ++ [(key, ⟨some ((c.Limit : ℚ) / (c.Period : ℚ)), c.Limit, (c.Limit : ℚ), now⟩)])
      key ((c.Limit : ℚ) / (c.Period : ℚ)) c.Limit now (n : ℚ) := by
    unfold BucketHolds at hb0 ⊢
    rw [hb0]
    exact congrArg (fun t => some (Limiter.mk (some ((c.Limit : ℚ) / (c.Period : ℚ))) c.Limit t now))
      hcast
  have hle : (n : ℚ) ≤ (c.Limit : ℚ) := le_of_eq hcast.symm
  cases n with
  | zero =>
    obtain ⟨hfalse, _⟩ := (checkKey_existing c now _ key _ _ _ hb hle).2 (by norm_num)
    simp only [runChecks, (hcheck ls).2, heq, hfalse]
    rfl
  | succ k =>
    obtain ⟨htrue, hnext⟩ :=
      (checkKey_existing c now _ key _ _ _ hb hle).1
        (by push_cast; linarith [Nat.cast_nonneg (α := ℚ) k])
    have hnext' : BucketHolds (proj (check ls).1) key ((c.Limit : ℚ) / (c.Period : ℚ)) c.Limit now
        (k : ℚ) := by
      rw [(hcheck ls).1, heq]
      have : ((k + 1 : Nat) : ℚ) - 1 = (k : ℚ) := by push_cast; ring
      rw [this] at hnext
      exact hnext
    have hle' : (k : ℚ) ≤ (c.Limit : ℚ) := by
      have : (k : ℚ) ≤ ((k + 1 : Nat) : ℚ) := by push_cast; linarith
      linarith
    have hrest := runChecks_existing c now key resp proj check hcheck _ _ k (check ls).1 hnext' hle'
    show ((check ls).2 :: (runChecks check (k + 1) (check ls).1).1) = _
    rw [hrest, (hcheck ls).2, heq, htrue]
    rfl

theorem registerLoginIPMiddleware_check (cfg : RateLimitConfig) (now : Int) (ip : String)
    (ls : Limiters) :
    (registerLoginIPMiddleware cfg now ls ip).1.registerLoginIPLimiters
      = (checkKey cfg.RegisterLoginIP now ls.registerLoginIPLimiters ip).2 ∧
    (registerLoginIPMiddleware cfg now ls ip).2
      = if (checkKey cfg.RegisterLoginIP now ls.registerLoginIPLimiters ip).1 = true then none
        else some (fail 429 "IP请求过于频繁，请稍后再试") := by
  unfold registerLoginIPMiddleware getRegisterLoginIPLimiter checkKey
  cases h : loadLimiter ls.registerLoginIPLimiters ip <;>
    cases h2 : (allowIn now _ ip).1 <;> simp [h2]

theorem registerLoginUserMiddleware_check (cfg : RateLimitConfig) (now : Int)
    (usernameField emailField : String) (ls : Limiters)
    (hname : (if usernameField = "" then emailField else usernameField) ≠ "") :
    (registerLoginUserMiddleware cfg now ls usernameField emailField).1.registerLoginUserLimiters
      = (checkKey cfg.RegisterLoginUser now ls.registerLoginUserLimiters
          (if usernameField = "" then emailField else usernameField)).2 ∧
    (registerLoginUserMiddleware cfg now ls usernameField emailField).2
      = if (checkKey cfg.RegisterLoginUser now ls.registerLoginUserLimiters
          (if usernameField = "" then emailField else usernameField)).1 = true then none
        else some (fail 429 "账号请求过于频繁，请稍后再试") := by
  unfold registerLoginUserMiddleware getRegisterLoginUserLimiter checkKey
  simp only [if_neg hname]
  cases h : loadLimiter ls.registerLoginUserLimiters
      (if usernameField = "" then emailField else usernameField) <;>
    cases h2 : (allowIn now _ (if usernameField = "" then emailField else usernameField)).1 <;>
    simp [h2]

theorem messageConnMiddleware_check (cfg : RateLimitConfig) (now : Int) (ip : String)
    (ls : Limiters) :
    (messageConnMiddleware cfg now ls ip).1.messageConnLimiters
      = (checkKey cfg.MessageConn now ls.messageConnLimiters ip).2 ∧
    (messageConnMiddleware cfg now ls ip).2
      = if (checkKey cfg.MessageConn now ls.messageConnLimiters ip).1 = true then none
        else some (fail 429 "消息发送过于频繁，请稍后再试") := by
  unfold messageConnMiddleware getMessageConnLimiter checkKey
  cases h : loadLimiter ls.messageConnLimiters ip <;>
    cases h2 : (allowIn now _ ip).1 <;> simp [h2]

theorem groupUserMiddleware_check (cfg : RateLimitConfig) (now : Int) (fuid groupID : String)
    (ls : Limiters) (hf : fuid ≠ "") (hg : groupID ≠ "") :
    (groupUserMiddleware cfg now ls fuid groupID).1.GroupUserLimiters
      = (checkKey cfg.GroupUser now ls.GroupUserLimiters (groupUserKey fuid groupID)).2 ∧
    (groupUserMiddleware cfg now ls fuid groupID).2
      = if (checkKey cfg.GroupUser now ls.GroupUserLimiters (groupUserKey fuid groupID)).1 = true
        then none
        else some (fail 429 "房间内操作过于频繁，请稍后再试") := by
  have hget : (getGroupUserLimiter cfg now ls (groupUserKey fuid groupID)).GroupUserLimiters
      = match loadLimiter ls.GroupUserLimiters (groupUserKey fuid groupID) with
        | some _ => ls.GroupUserLimiters
        | none => loadOrStore ls.GroupUserLimiters (groupUserKey fuid groupID)
            (newTokenBucketLimiter now (rateOf cfg.GroupUser.Limit cfg.GroupUser.Period)
              cfg.GroupUser.Limit) := by
    unfold getGroupUserLimiter
    cases loadLimiter ls.GroupUserLimiters (groupUserKey fuid groupID) <;> rfl
  unfold groupUserMiddleware checkKey
  rw [if_neg (by simp only [not_or]; exact ⟨hf, hg⟩)]
  simp only [hget]
  refine ⟨trivial, ?_⟩
  cases (allowIn now _ (groupUserKey fuid groupID)).1 <;> rfl
/-- C15. In each of the four dimensions, for a key that has no bucket yet, a capacity `n` and a
period other than 0, `n + 1` consecutive runs of the middleware at one instant give `n`
requests that go on and then one that is aborted with code 429. -/
theorem first_n_checks_pass_then_denied (cfg : RateLimitConfig) (now : Int) (ls : Limiters)
    (n : Nat) :
    (∀ ip : String, cfg.RegisterLoginIP.Limit = (n : Int) → cfg.RegisterLoginIP.Period ≠ 0 →
      loadLimiter ls.registerLoginIPLimiters ip = none →
      (runChecks (fun l => registerLoginIPMiddleware cfg now l ip) (n + 1) ls).1
        = List.replicate n none ++ [some (fail 429 "IP请求过于频繁，请稍后再试")]) ∧
    (∀ usernameField emailField : String,
      (if usernameField = "" then emailField else usernameField) ≠ "" →
      cfg.RegisterLoginUser.Limit = (n : Int) → cfg.RegisterLoginUser.Period ≠ 0 →
      loadLimiter ls.registerLoginUserLimiters
        (if usernameField = "" then emailField else usernameField) = none →
      (runChecks (fun l => registerLoginUserMiddleware cfg now l usernameField emailField)
          (n + 1) ls).1
        = List.replicate n none ++ [some (fail 429 "账号请求过于频繁，请稍后再试")]) ∧
    (∀ ip : String, cfg.MessageConn.Limit = (n : Int) → cfg.MessageConn.Period ≠ 0 →
      loadLimiter ls.messageConnLimiters ip = none →
      (runChecks (fun l => messageConnMiddleware cfg now l ip) (n + 1) ls).1
        = List.replicate n none ++ [some (fail 429 "消息发送过于频繁，请稍后再试")]) ∧
    (∀ fuid groupID : String, fuid ≠ "" → groupID ≠ "" →
      cfg.GroupUser.Limit = (n : Int) → cfg.GroupUser.Period ≠ 0 →
      loadLimiter ls.GroupUserLimiters (groupUserKey fuid groupID) = none →
      (runChecks (fun l => groupUserMiddleware cfg now l fuid groupID) (n + 1) ls).1
        = List.replicate n none ++ [some (fail 429 "房间内操作过于频繁，请稍后再试")]) := by
  refine ⟨fun ip hn hp hf => ?_, fun uf ef hname hn hp hf => ?_, fun ip hn hp hf => ?_,
    fun fuid groupID h1 h2 hn hp hf => ?_⟩
  · exact runChecks_fresh cfg.RegisterLoginIP now ip _ (fun l => l.registerLoginIPLimiters) _
      (fun l => registerLoginIPMiddleware_check cfg now ip l) n hn hp ls hf
  · exact runChecks_fresh cfg.RegisterLoginUser now _ _ (fun l => l.registerLoginUserLimiters) _
      (fun l => registerLoginUserMiddleware_check cfg now uf ef l hname) n hn hp ls hf
  · exact runChecks_fresh cfg.MessageConn now ip _ (fun l => l.messageConnLimiters) _
      (fun l => messageConnMiddleware_check cfg now ip l) n hn hp ls hf
  · exact runChecks_fresh cfg.GroupUser now _ _ (fun l => l.GroupUserLimiters) _
      (fun l => groupUserMiddleware_check cfg now fuid groupID l h1 h2) n hn hp ls hf

/-- C15, with capacity 5: five consecutive checks of a new client address go on and the sixth
is aborted with code 429. -/
theorem first_five_checks_pass_then_denied_witness :
    demoRateLimit.RegisterLoginIP.Limit = 5 ∧
    (runChecks (fun l => registerLoginIPMiddleware demoRateLimit 1700000000 l "10.0.0.7") 6
        noLimiters).1
      = [none, none, none, none, none, some (fail 429 "IP请求过于频繁，请稍后再试")] :=
  ⟨rfl,
    (first_n_checks_pass_then_denied demoRateLimit 1700000000 noLimiters 5).1 "10.0.0.7" rfl
      (by decide) rfl⟩

theorem append_cons_inj_of_not_mem {α : Type} (c : α) :
    ∀ (l1 l2 r1 r2 : List α), c ∉ l1 → c ∉ l2 → l1 ++ c :: r1 = l2 ++ c :: r2 →
      l1 = l2 ∧ r1 = r2 := by
  intro l1
  induction l1 with
  | nil =>
    intro l2 r1 r2 _ h2 h
    cases l2 with
    | nil => exact ⟨rfl, by simpa using h⟩
    | cons b l2 =>
      simp only [List.nil_append, List.cons_append, List.cons.injEq] at h
      exact absurd (h.1 ▸ List.mem_cons_self b l2) h2
  | cons a l1 ih =>
    intro l2 r1 r2 h1 h2 h
    cases l2 with
    | nil =>
      simp only [List.nil_append, List.cons_append, List.cons.injEq] at h
      exact absurd (h.1 ▸ List.mem_cons_self a l1) h1
    | cons b l2 =>
      simp only [List.cons_append, List.cons.injEq] at h
      obtain ⟨hl, hr⟩ := ih l2 r1 r2 (fun hm => h1 (List.mem_cons_of_mem a hm))
        (fun hm => h2 (List.mem_cons_of_mem b hm)) h.2
      exact ⟨by rw [h.1, hl], hr⟩

theorem groupUserKey_injective_without_colon (f1 g1 f2 g2 : String)
    (h1 : ':' ∉ f1.toList) (h2 : ':' ∉ f2.toList)
    (h : groupUserKey f1 g1 = groupUserKey f2 g2) : f1 = f2 ∧ g1 = g2 := by
  have hd := congrArg String.data h
  simp only [groupUserKey, String.data_append] at hd
  have hd2 : f1.data ++ ':' :: g1.data = f2.data ++ ':' :: g2.data := by
    simpa using hd
  obtain ⟨hf, hg⟩ := append_cons_inj_of_not_mem ':' f1.data f2.data g1.data g2.data h1 h2 hd2
  exact ⟨String.ext hf, String.ext hg⟩

theorem checkKey_other_key (c : RateLimitEntry) (now : Int) (m : List (String × Limiter))
    (key k : String) (hk : k ≠ key) :
    loadLimiter (checkKey c now m key).2 k = loadLimiter m k := by
  unfold checkKey allowIn
  cases h : loadLimiter m key with
  | some l =>
    simp only [h]
    exact loadLimiter_map_update_ne m key k _ hk
  | none =>
    simp only [loadOrStore, h]
    rw [loadLimiter_append_fresh m key _ h]
    simp only
    rw [loadLimiter_map_update_ne _ key k _ hk, loadLimiter_append_ne m key k _ hk]
/-- C16 (the claim as stated fails). The pairs (`a:b`, `c`) and (`a`, `b:c`) are distinct and
get the same bucket key `a:b:c`; with a capacity of one request, the check for the first pair
goes on and the check for the second pair, made for the first time, is aborted with code 429:
the first pair has taken its token. -/
theorem group_user_keys_collide :
    (("a:b", "c") : String × String) ≠ ("a", "b:c") ∧
    groupUserKey "a:b" "c" = groupUserKey "a" "b:c" ∧
    (groupUserMiddleware demoRateLimitOne 1700000000 noLimiters "a:b" "c").2 = none ∧
    (groupUserMiddleware demoRateLimitOne 1700000000
        (groupUserMiddleware demoRateLimitOne 1700000000 noLimiters "a:b" "c").1 "a" "b:c").2
      = some (fail 429 "房间内操作过于频繁，请稍后再试") := by
  have hk : groupUserKey "a" "b:c" = groupUserKey "a:b" "c" := by decide
  have hsame : ∀ ls : Limiters, groupUserMiddleware demoRateLimitOne 1700000000 ls "a" "b:c"
      = groupUserMiddleware demoRateLimitOne 1700000000 ls "a:b" "c" := by
    intro ls
    unfold groupUserMiddleware
    rw [if_neg (by decide), if_neg (by decide), hk]
  have hrun := runChecks_fresh demoRateLimitOne.GroupUser 1700000000 (groupUserKey "a:b" "c")
    (fail 429 "房间内操作过于频繁，请稍后再试") (fun l => l.GroupUserLimiters)
    (fun l => groupUserMiddleware demoRateLimitOne 1700000000 l "a:b" "c")
    (fun l => groupUserMiddleware_check demoRateLimitOne 1700000000 "a:b" "c" l (by decide)
      (by decide)) 1 rfl (by decide) noLimiters rfl
  have hrun2 : [(groupUserMiddleware demoRateLimitOne 1700000000 noLimiters "a:b" "c").2,
      (groupUserMiddleware demoRateLimitOne 1700000000
        (groupUserMiddleware demoRateLimitOne 1700000000 noLimiters "a:b" "c").1 "a:b" "c").2]
      = [none, some (fail 429 "房间内操作过于频繁，请稍后再试")] := hrun
  simp only [List.cons.injEq, and_true] at hrun2
  exact ⟨by decide, hk.symm, hrun2.1, by rw [hsame]; exact hrun2.2⟩

/-- C16 (amended). Two distinct (account, room) pairs whose account identifiers contain no
colon get distinct bucket keys, and a run of the middleware for one of them leaves the bucket
of the other as it was. -/
theorem group_user_buckets_separate_without_colon (f1 g1 f2 g2 : String)
    (h1 : ':' ∉ f1.toList) (h2 : ':' ∉ f2.toList) (hne : (f1, g1) ≠ (f2, g2)) :
    groupUserKey f1 g1 ≠ groupUserKey f2 g2 ∧
    ∀ (cfg : RateLimitConfig) (now : Int) (ls : Limiters),
      loadLimiter (groupUserMiddleware cfg now ls f1 g1).1.GroupUserLimiters (groupUserKey f2 g2)
        = loadLimiter ls.GroupUserLimiters (groupUserKey f2 g2) := by
  have hkey : groupUserKey f1 g1 ≠ groupUserKey f2 g2 := by
    intro h
    obtain ⟨hf, hg⟩ := groupUserKey_injective_without_colon f1 g1 f2 g2 h1 h2 h
    exact hne (by rw [hf, hg])
  refine ⟨hkey, fun cfg now ls => ?_⟩
  by_cases hempty : f1 = "" ∨ g1 = ""
  · unfold groupUserMiddleware
    rw [if_pos hempty]
  · simp only [not_or] at hempty
    rw [(groupUserMiddleware_check cfg now f1 g1 ls hempty.1 hempty.2).1]
    exact checkKey_other_key cfg.GroupUser now ls.GroupUserLimiters _ _ (Ne.symm hkey)

/-- C16 (amended), for `alice` in the rooms `g1` and `g2`: distinct keys, and the check for
the first room leaves the bucket of the second untouched. -/
theorem group_user_buckets_separate_witness :
    groupUserKey "alice" "g1" ≠ groupUserKey "alice" "g2" ∧
    loadLimiter (groupUserMiddleware demoRateLimit 1700000000 noLimiters "alice"
        "g1").1.GroupUserLimiters (groupUserKey "alice" "g2")
      = loadLimiter noLimiters.GroupUserLimiters (groupUserKey "alice" "g2") :=
  ⟨(group_user_buckets_separate_without_colon "alice" "g1" "alice" "g2" (by decide) (by decide)
      (by decide)).1,
    (group_user_buckets_separate_without_colon "alice" "g1" "alice" "g2" (by decide) (by decide)
      (by decide)).2 demoRateLimit 1700000000 noLimiters⟩

/-! ### Connection sessions -/

theorem redisFind_erase_self (rdb : List RedisEntry) (now : Int) (key : String) :
    redisFind (redisErase rdb key) now key = none := by
  unfold redisFind redisErase
  rw [List.find?_eq_none]
  intro e he hp
  simp only [List.mem_filter, decide_eq_true_eq] at he
  simp only [Bool.and_eq_true, decide_eq_true_eq] at hp
  exact he.2 hp.1

/-- After a `Set` that reaches the store, the key is live and holds the new value, and no
other entry of the store is under that key. -/
theorem rdbSet_reads_back (env : Env) (rdb : List RedisEntry) (key : String) (val : RedisValue)
    (ttl : Int) (hup : env.redisDown key = false) :
    redisFind (rdbSet env rdb key val ttl) env.now key
      = some ⟨key, val, if ttl > 0 then some (env.now + ttl) else none⟩ ∧
    ((rdbSet env rdb key val ttl).filter (fun e => decide (e.key = key))).length = 1 := by
  unfold rdbSet
  simp only [hup, Bool.false_eq_true, if_false]
  constructor
  · have hnone := redisFind_erase_self rdb env.now key
    unfold redisFind at hnone ⊢
    rw [List.find?_append, hnone]
    have hlive : RedisEntry.live env.now ⟨key, val, if ttl > 0 then some (env.now + ttl) else none⟩
        = true := by
      unfold RedisEntry.live
      split
      · rfl
      · rename_i t ht
        simp only at ht
        split at ht
        · rename_i hpos
          cases ht
          simp only [decide_eq_true_eq]
          omega
        · cases ht
    simp [List.find?, hlive]
  · rw [List.filter_append]
    have h0 : (redisErase rdb key).filter (fun e => decide (e.key = key)) = [] := by
      rw [List.filter_eq_nil_iff]
      intro e he
      unfold redisErase at he
      simp only [List.mem_filter, decide_eq_true_eq] at he
      simp only [decide_eq_true_eq]
      exact he.2
    rw [h0]
    simp

theorem mem_roomsFor (env : Env) (s : State) (fuid r : String) :
    r ∈ roomsFor env s fuid ↔
      r = "user:" ++ fuid ∨
      (env.dbDown .findMemberships = false ∧
        ∃ m ∈ s.groupMembers, m.UserFUID = fuid ∧ m.Status = 1 ∧ r = "group:" ++ m.GroupQUID) := by
  unfold roomsFor membershipsOf findOrEmpty
  by_cases hdb : env.dbDown .findMemberships = true
  · simp [hdb]
  · simp only [Bool.not_eq_true] at hdb
    simp only [hdb, Bool.false_eq_true, if_false, List.mem_cons, List.mem_map, List.mem_filter,
      decide_eq_true_eq, true_and]
    constructor
    · rintro (h | ⟨m, ⟨hm, h1, h2⟩, rfl⟩)
      · exact Or.inl h
      · exact Or.inr ⟨m, hm, h1, h2, rfl⟩
    · rintro (h | ⟨m, hm, h1, h2, rfl⟩)
      · exact Or.inl h
      · exact Or.inr ⟨m, ⟨hm, h1, h2⟩, rfl⟩

/-- The handler `server.OnConnect` after the token check: a token that does not give a subject
leaves the state and the open connections as they were, and a token with the subject `fuid`
writes the presence key and opens the connection in the rooms of `fuid`. -/
theorem onConnect_eq (codec : Codec) (cfg : SocketConfig) (env : Env) (s : State)
    (hub : List Session) (connID token : String) :
    (∀ fuid : String, connectToken codec cfg env token = .ok fuid →
      onConnect codec cfg env s hub connID token =
        (.ok (), setOnline cfg env s fuid connID, hub ++ [⟨connID, roomsFor env s fuid⟩])) ∧
    ((∀ fuid : String, connectToken codec cfg env token ≠ .ok fuid) →
      (onConnect codec cfg env s hub connID token).1 ≠ .ok () ∧
      (onConnect codec cfg env s hub connID token).2 = (s, hub)) := by
  constructor
  · intro fuid h
    unfold onConnect
    rw [h]
  · intro h
    unfold onConnect
    cases hc : connectToken codec cfg env token with
    | ok fuid => exact absurd hc (h fuid)
    | error m => exact ⟨by simp, rfl⟩
    | panic m => exact ⟨by simp, rfl⟩

/-- Where the code agrees with C19: a token is accepted only if it is not empty, decodes,
decrypts and parses to a payload whose `exp` is a number not before the current second and
whose `fuid` is a string. -/
theorem connectToken_ok (codec : Codec) (cfg : SocketConfig) (env : Env) (token fuid : String)
    (h : connectToken codec cfg env token = .ok fuid) :
    token ≠ "" ∧
    ∃ (enc plain : List Nat) (payload : List (String × JSONValue)) (exp : ℚ),
      codec.base64Decode token = some enc ∧
      aesDecrypt codec enc cfg.Secret = .ok plain ∧
      codec.jsonObject plain = some payload ∧
      payload.lookup "exp" = some (.number exp) ∧
      ¬ int64OfFloat exp < unixSeconds env.now ∧
      payload.lookup "fuid" = some (.string fuid) := by
  unfold connectToken at h
  split at h
  · cases h
  · rename_i htok
    split at h
    · cases h
    · rename_i enc henc
      split at h
      · cases h
      · cases h
      · rename_i plain hplain
        split at h
        · cases h
        · rename_i payload hpayload
          split at h
          · rename_i exp hexp
            split at h
            · cases h
            · rename_i hnotexp
              split at h
              · rename_i f hf
                cases h
                exact ⟨htok, enc, plain, payload, exp, henc, hplain, hpayload, hexp, hnotexp, hf⟩
              · cases h
          · cases h

/-- C19 (the code departs from the claim). The token `tok-nofuid` decodes, decrypts and parses
to a payload with an expiry in the future and no `fuid`; the connect handler does not reject
it with an error: the unchecked type assertion on `fuid` panics.  The token `tok-odd`, whose
ciphertext is not a whole number of blocks, ends in the panic of `CryptBlocks`.  (In both
cases no presence key is written and no connection is opened; the token `tok-alice`, with a
`fuid`, is accepted.) -/
theorem connect_without_subject_panics :
    onConnect demoCodec demoSocketCfg demoEnv demoGroup [] "conn-9" "tok-nofuid"
      = (.panic "interface conversion: interface is not string", demoGroup, []) ∧
    onConnect demoCodec demoSocketCfg demoEnv demoGroup [] "conn-9" "tok-odd"
      = (.panic "crypto/cipher: input not full blocks", demoGroup, []) ∧
    (onConnect demoCodec demoSocketCfg demoEnv demoGroup [] "conn-9" "tok-alice").1 = .ok () ∧
    (onConnect demoCodec demoSocketCfg demoEnv demoGroup [] "conn-9" "").1 = .error "未提供Token" :=
  ⟨by rfl, by rfl, by rfl, by rfl⟩

/-- C17 (the claim as stated fails). `alice` opens the connection `conn-1` and then the
connection `conn-2`: the presence key holds `conn-2`, and `conn-1` is still among the open
connections. -/
theorem first_session_stays_open :
    (onConnect demoCodec demoSocketCfg demoEnv
        (onConnect demoCodec demoSocketCfg demoEnv demoGroup [] "conn-1" "tok-alice").2.1
        (onConnect demoCodec demoSocketCfg demoEnv demoGroup [] "conn-1" "tok-alice").2.2
        "conn-2" "tok-alice").2.2.map (fun c => c.id) = ["conn-1", "conn-2"] ∧
    rdbGetString demoEnv
      (onConnect demoCodec demoSocketCfg demoEnv
        (onConnect demoCodec demoSocketCfg demoEnv demoGroup [] "conn-1" "tok-alice").2.1
        (onConnect demoCodec demoSocketCfg demoEnv demoGroup [] "conn-1" "tok-alice").2.2
        "conn-2" "tok-alice").2.1.rdb "online_user:alice" = "conn-2" :=
  ⟨by rfl, by rfl⟩

/-- C17 (amended). Presence is keyed by the user alone.  When two connections are opened one
after the other with tokens of the same user, and the second presence write reaches the store,
the store holds exactly one entry under the presence key of the user, it is live and holds the
id of the second connection; both connections are open afterwards. -/
theorem second_connect_overwrites_presence (codec : Codec) (cfg : SocketConfig)
    (env1 env2 : Env) (s : State) (hub : List Session) (conn1 conn2 token1 token2 u : String)
    (h1 : connectToken codec cfg env1 token1 = .ok u)
    (h2 : connectToken codec cfg env2 token2 = .ok u)
    (hup : env2.redisDown ("online_user:" ++ u) = false) :
    (onConnect codec cfg env2 (onConnect codec cfg env1 s hub conn1 token1).2.1
        (onConnect codec cfg env1 s hub conn1 token1).2.2 conn2 token2).1 = .ok () ∧
    (∃ e : RedisEntry,
      redisFind (onConnect codec cfg env2 (onConnect codec cfg env1 s hub conn1 token1).2.1
        (onConnect codec cfg env1 s hub conn1 token1).2.2 conn2 token2).2.1.rdb env2.now
        ("online_user:" ++ u) = some e ∧ e.val = .str conn2) ∧
    ((onConnect codec cfg env2 (onConnect codec cfg env1 s hub conn1 token1).2.1
        (onConnect codec cfg env1 s hub conn1 token1).2.2 conn2 token2).2.1.rdb.filter
        (fun e => decide (e.key = "online_user:" ++ u))).length = 1 ∧
    (∃ c1 c2 : Session, c1.id = conn1 ∧ c2.id = conn2 ∧
      (onConnect codec cfg env2 (onConnect codec cfg env1 s hub conn1 token1).2.1
        (onConnect codec cfg env1 s hub conn1 token1).2.2 conn2 token2).2.2
        = hub ++ [c1, c2]) := by
  rw [(onConnect_eq codec cfg env1 s hub conn1 token1).1 u h1]
  rw [(onConnect_eq codec cfg env2 _ _ conn2 token2).1 u h2]
  obtain ⟨hfind, hlen⟩ := rdbSet_reads_back env2 (setOnline cfg env1 s u conn1).rdb
    ("online_user:" ++ u) (.str conn2) (wrap64 (cfg.Expire * second)) hup
  refine ⟨rfl, ⟨_, hfind, rfl⟩, hlen,
    ⟨⟨conn1, roomsFor env1 s u⟩, ⟨conn2, roomsFor env2 (setOnline cfg env1 s u conn1) u⟩,
      rfl, rfl, ?_⟩⟩
  simp

/-- C17 (amended), for the two connections of `alice`. -/
theorem second_connect_overwrites_presence_witness :
    ∃ e : RedisEntry,
      redisFind (onConnect demoCodec demoSocketCfg demoEnv
        (onConnect demoCodec demoSocketCfg demoEnv demoGroup [] "conn-1" "tok-alice").2.1
        (onConnect demoCodec demoSocketCfg demoEnv demoGroup [] "conn-1" "tok-alice").2.2
        "conn-2" "tok-alice").2.1.rdb demoEnv.now ("online_user:" ++ "alice") = some e ∧
      e.val = .str "conn-2" :=
  (second_connect_overwrites_presence demoCodec demoSocketCfg demoEnv demoEnv demoGroup []
    "conn-1" "conn-2" "tok-alice" "tok-alice" "alice" (by rfl) (by rfl) (by rfl)).2.1

/-- C20 (the claim as stated fails). With Redis unreachable for the presence key of `alice`,
her connect still succeeds and joins her rooms, and the registry holds no entry for her.  With
the membership query failing, her connect succeeds as well and joins the room `user:alice`
only, although she has an active membership row in `g1`. -/
theorem connect_succeeds_without_presence :
    (onConnect demoCodec demoSocketCfg demoEnvDownAlice demoGroup [] "conn-1" "tok-alice").1
      = .ok () ∧
    (onConnect demoCodec demoSocketCfg demoEnvDownAlice demoGroup [] "conn-1" "tok-alice").2.2
      = [⟨"conn-1", ["user:alice", "group:g1"]⟩] ∧
    (onConnect demoCodec demoSocketCfg demoEnvDownAlice demoGroup [] "conn-1"
      "tok-alice").2.1.rdb.filter (fun e => decide (e.key = "online_user:alice")) = [] ∧
    (membershipsOf demoGroup "alice").map (fun gm => gm.GroupQUID) = ["g1"] ∧
    (onConnect demoCodec demoSocketCfg demoEnvMembershipsDown demoGroup [] "conn-1" "tok-alice").1
      = .ok () ∧
    (onConnect demoCodec demoSocketCfg demoEnvMembershipsDown demoGroup [] "conn-1" "tok-alice").2.2
      = [⟨"conn-1", ["user:alice"]⟩] :=
  ⟨by rfl, by rfl, by rfl, by rfl, by rfl, by rfl⟩

/-- C20 (amended). After a successful connect with a token of the user `u`, the connection is
open in the room `user:<u>` and, when the membership query succeeds, in the rooms `group:<g>`
for the groups `g` in which `u` has an active membership row, and in no other room (when that
query fails, in `user:<u>` only); and, when the presence write reaches the store, the registry
holds a live entry for `u` with the id of the connection. -/
theorem connect_joins_rooms_and_records_presence (codec : Codec) (cfg : SocketConfig)
    (env : Env) (s : State) (hub : List Session) (connID token : String)
    (hok : (onConnect codec cfg env s hub connID token).1 = .ok ()) :
    ∃ (u : String) (rooms : List String), connectToken codec cfg env token = .ok u ∧
      (onConnect codec cfg env s hub connID token).2.2 = hub ++ [⟨connID, rooms⟩] ∧
      (∀ r : String, r ∈ rooms ↔
        r = "user:" ++ u ∨
        (env.dbDown .findMemberships = false ∧
          ∃ m ∈ s.groupMembers, m.UserFUID = u ∧ m.Status = 1 ∧ r = "group:" ++ m.GroupQUID)) ∧
      (env.redisDown ("online_user:" ++ u) = false →
        ∃ e : RedisEntry,
          redisFind (onConnect codec cfg env s hub connID token).2.1.rdb env.now
            ("online_user:" ++ u) = some e ∧ e.val = .str connID) := by
  cases hc : connectToken codec cfg env token with
  | ok u =>
    refine ⟨u, roomsFor env s u, rfl, ?_, mem_roomsFor env s u, ?_⟩
    · rw [(onConnect_eq codec cfg env s hub connID token).1 u hc]
    · intro hup
      rw [(onConnect_eq codec cfg env s hub connID token).1 u hc]
      exact ⟨_, (rdbSet_reads_back env s.rdb _ (.str connID) _ hup).1, rfl⟩
  | error m =>
    exact absurd hok ((onConnect_eq codec cfg env s hub connID token).2
      (fun fuid h => by rw [hc] at h; cases h)).1
  | panic m =>
    exact absurd hok ((onConnect_eq codec cfg env s hub connID token).2
      (fun fuid h => by rw [hc] at h; cases h)).1

/-- C20 (amended), for the connect of `alice`, a member of `g1`. -/
theorem connect_joins_rooms_witness :
    (onConnect demoCodec demoSocketCfg demoEnv demoGroup [] "conn-1" "tok-alice").2.2
      = [⟨"conn-1", ["user:alice", "group:g1"]⟩] ∧
    ∃ (u : String) (rooms : List String),
      connectToken demoCodec demoSocketCfg demoEnv "tok-alice" = .ok u ∧
      (onConnect demoCodec demoSocketCfg demoEnv demoGroup [] "conn-1" "tok-alice").2.2
        = [] ++ [⟨"conn-1", rooms⟩] ∧
      (∀ r : String, r ∈ rooms ↔
        r = "user:" ++ u ∨
        (demoEnv.dbDown .findMemberships = false ∧
          ∃ m ∈ demoGroup.groupMembers, m.UserFUID = u ∧ m.Status = 1 ∧
            r = "group:" ++ m.GroupQUID)) ∧
      (demoEnv.redisDown ("online_user:" ++ u) = false →
        ∃ e : RedisEntry,
          redisFind (onConnect demoCodec demoSocketCfg demoEnv demoGroup [] "conn-1"
            "tok-alice").2.1.rdb demoEnv.now ("online_user:" ++ u) = some e ∧
          e.val = .str "conn-1") :=
  ⟨by rfl,
    connect_joins_rooms_and_records_presence demoCodec demoSocketCfg demoEnv demoGroup []
      "conn-1" "tok-alice" (by rfl)⟩

theorem scanPresence_erase (env : Env) (rdb : List RedisEntry) (k : String) :
    scanPresence env (redisErase rdb k)
      = (scanPresence env rdb).filter (fun key => decide (key ≠ k)) := by
  unfold scanPresence redisErase
  split
  · rfl
  · rw [List.filter_map, List.filter_filter, List.filter_filter]
    congr 1
    apply List.filter_congr
    intro e _
    simp only [Function.comp, Bool.and_comm]

theorem rdbGetString_erase_ne (env : Env) (rdb : List RedisEntry) (k key : String)
    (h : key ≠ k) : rdbGetString env (redisErase rdb k) key = rdbGetString env rdb key := by
  unfold rdbGetString
  rw [redisFind_erase_ne rdb env.now key k h]

theorem sessionKeys_erase (env : Env) (rdb : List RedisEntry) (k connID : String) :
    sessionKeys env (redisErase rdb k) connID
      = (sessionKeys env rdb connID).filter (fun key => decide (key ≠ k)) := by
  unfold sessionKeys
  rw [scanPresence_erase, List.filter_filter, List.filter_filter]
  apply List.filter_congr
  intro key _
  by_cases hk : key = k
  · simp [hk]
  · simp [hk, rdbGetString_erase_ne env rdb k key hk]

theorem presence_key_of_scan (env : Env) (rdb : List RedisEntry) (key : String)
    (h : key ∈ scanPresence env rdb) : "online_user:" ++ trimPresencePrefix key = key := by
  unfold scanPresence at h
  split at h
  · cases h
  · simp only [List.mem_map, List.mem_filter, Bool.and_eq_true] at h
    obtain ⟨e, ⟨_, _, hp⟩, rfl⟩ := h
    unfold trimPresencePrefix
    rw [if_pos hp]
    have hpre := List.isPrefixOf_iff_prefix.mp hp
    have happ := List.prefix_iff_eq_append.mp hpre
    apply String.ext
    rw [String.data_append]
    exact happ

theorem disconnectFUID_none (env : Env) (rdb : List RedisEntry) (connID : String)
    (h : sessionKeys env rdb connID = []) : disconnectFUID env rdb connID = "" := by
  unfold disconnectFUID
  have : (scanPresence env rdb).find? (fun key => decide (rdbGetString env rdb key = connID))
      = none := by
    rw [List.find?_eq_none]
    unfold sessionKeys at h
    rw [List.filter_eq_nil_iff] at h
    exact h
  rw [this]

/-- C18 (the claim as stated fails). In the registry `demoSharedID` the presence keys of
`alice` and `bob` both hold `conn-1`: one run of the disconnect handler for `conn-1` deletes
the key of `alice` and a second run deletes the key of `bob` as well. -/
theorem disconnect_twice_differs_from_once :
    (onDisconnect demoEnv demoSharedID [] "conn-1").1.rdb
      = [⟨"online_user:bob", .str "conn-1", none⟩] ∧
    (onDisconnect demoEnv (onDisconnect demoEnv demoSharedID [] "conn-1").1
        (onDisconnect demoEnv demoSharedID [] "conn-1").2 "conn-1").1.rdb = [] :=
  ⟨by rfl, by rfl⟩

/-- C18 (amended). When the registry holds the id of the connection under at most one presence
key, running the disconnect handler for the connection twice leaves the state and the open
connections as one run does. -/
theorem disconnect_idempotent_for_single_key (env : Env) (s : State) (hub : List Session)
    (connID : String)
    (hone : ∀ k ∈ sessionKeys env s.rdb connID, ∀ k' ∈ sessionKeys env s.rdb connID, k = k') :
    onDisconnect env (onDisconnect env s hub connID).1 (onDisconnect env s hub connID).2 connID
      = onDisconnect env s hub connID := by
  have hhub : ∀ l : List Session,
      (l.filter (fun c => decide (c.id ≠ connID))).filter (fun c => decide (c.id ≠ connID))
        = l.filter (fun c => decide (c.id ≠ connID)) := by
    intro l
    rw [List.filter_filter]
    apply List.filter_congr
    intro c _
    simp
  cases hfind : (scanPresence env s.rdb).find?
      (fun key => decide (rdbGetString env s.rdb key = connID)) with
  | none =>
    have hf : disconnectFUID env s.rdb connID = "" := by
      unfold disconnectFUID; rw [hfind]
    have hval : ∀ l : List Session, onDisconnect env s l connID
        = (s, l.filter (fun c => decide (c.id ≠ connID))) := by
      intro l
      unfold onDisconnect
      simp only [hf, ne_eq, not_true_eq_false, if_false]
    rw [hval hub, hval, hhub]
  | some key =>
    have hmem : key ∈ scanPresence env s.rdb := List.mem_of_find?_eq_some hfind
    have hval0 : rdbGetString env s.rdb key = connID := by
      simpa using List.find?_some hfind
    have hkeys : key ∈ sessionKeys env s.rdb connID := by
      unfold sessionKeys
      simp only [List.mem_filter, decide_eq_true_eq]
      exact ⟨hmem, hval0⟩
    have hf : disconnectFUID env s.rdb connID = trimPresencePrefix key := by
      unfold disconnectFUID; rw [hfind]
    have hkey := presence_key_of_scan env s.rdb key hmem
    by_cases hempty : trimPresencePrefix key = ""
    · have hval : ∀ l : List Session, onDisconnect env s l connID
          = (s, l.filter (fun c => decide (c.id ≠ connID))) := by
        intro l
        unfold onDisconnect
        simp only [hf, hempty, ne_eq, not_true_eq_false, if_false]
      rw [hval hub, hval, hhub]
    · by_cases hdown : env.redisDown key = true
      · have hval : ∀ l : List Session, onDisconnect env s l connID
            = (s, l.filter (fun c => decide (c.id ≠ connID))) := by
          intro l
          unfold onDisconnect rdbDel
          simp only [hf, hkey, hdown, if_true, ne_eq, hempty, not_false_eq_true]
        rw [hval hub, hval, hhub]
      · have hval : onDisconnect env s hub connID
            = ({ s with rdb := redisErase s.rdb key },
                hub.filter (fun c => decide (c.id ≠ connID))) := by
          unfold onDisconnect rdbDel
          simp only [hf, hkey, hdown, if_false, ne_eq, hempty, not_false_eq_true, if_true,
            Bool.false_eq_true]
        have hnone : sessionKeys env (redisErase s.rdb key) connID = [] := by
          rw [sessionKeys_erase, List.filter_eq_nil_iff]
          intro k hk
          simp only [ne_eq, decide_not, Bool.not_eq_true', decide_eq_false_iff_not, not_not]
          exact hone k hk key hkeys
        have hf2 := disconnectFUID_none env (redisErase s.rdb key) connID hnone
        have hval2 : onDisconnect env { s with rdb := redisErase s.rdb key }
            (hub.filter (fun c => decide (c.id ≠ connID))) connID
            = ({ s with rdb := redisErase s.rdb key },
                hub.filter (fun c => decide (c.id ≠ connID))) := by
          unfold onDisconnect
          simp only [hf2, ne_eq, not_true_eq_false, if_false, hhub]
        rw [hval, hval2]

/-- C18 (amended), for the connection `conn-1` of `bob`, the only key that holds its id. -/
theorem disconnect_idempotent_witness :
    onDisconnect demoEnv (onDisconnect demoEnv demoDirect [] "conn-1").1
        (onDisconnect demoEnv demoDirect [] "conn-1").2 "conn-1"
      = onDisconnect demoEnv demoDirect [] "conn-1" ∧
    (onDisconnect demoEnv demoDirect [] "conn-1").1.rdb = [] :=
  ⟨disconnect_idempotent_for_single_key demoEnv demoDirect [] "conn-1" (by decide), by rfl⟩

/-! ### Call signalling: the duration of an ended call

`Seconds` is exact below `2^24` seconds: the sum of the whole seconds and the rounded fraction
then rounds to a `float64` that is still below the next whole second. -/

theorem log2Fuel_spec (fuel : Nat) : ∀ n : Nat, n ≤ fuel → 0 < n →
    2 ^ log2Fuel fuel n ≤ n ∧ n < 2 ^ (log2Fuel fuel n + 1) := by
  induction fuel with
  | zero => intro n h1 h2; omega
  | succ f ih =>
    intro n h1 h2
    unfold log2Fuel
    split
    · simp only [pow_zero, zero_add, pow_one]; omega
    · have h3 := ih (n / 2) (by omega) (by omega)
      rw [pow_succ, pow_succ]
      omega

theorem log2Floor_spec (n : Nat) (h : 0 < n) :
    2 ^ log2Floor n ≤ n ∧ n < 2 ^ (log2Floor n + 1) :=
  log2Fuel_spec n n (le_refl n) h

theorem roundHalfEven_spec (n d : Nat) (hd : 0 < d) :
    n / d ≤ roundHalfEven n d ∧ roundHalfEven n d ≤ n / d + 1 ∧
    2 * (roundHalfEven n d * d) ≤ 2 * n + d ∧ 2 * n ≤ 2 * (roundHalfEven n d * d) + d := by
  have h1 := Nat.div_add_mod n d
  have h2 := Nat.mod_lt n hd
  have h3 : (n / d + 1) * d = d * (n / d) + d := by ring
  have h4 : n / d * d = d * (n / d) := by ring
  unfold roundHalfEven
  split
  · rw [h4]; omega
  · split
    · rw [h3]; omega
    · split
      · rw [h4]; omega
      · rw [h3]; omega

theorem exponentOf_spec (n d : Nat) (hn : 0 < n) (hd : 0 < d) :
    2 ^ 52 * (d * 2 ^ (exponentOf n d).toNat) ≤ n * 2 ^ (-(exponentOf n d)).toNat ∧
    n * 2 ^ (-(exponentOf n d)).toNat < 2 ^ 53 * (d * 2 ^ (exponentOf n d).toNat) := by
  obtain ⟨hn1, hn2⟩ := log2Floor_spec n hn
  obtain ⟨hd1, hd2⟩ := log2Floor_spec d hd
  unfold exponentOf
  simp only
  generalize log2Floor n = ln at *
  generalize log2Floor d = ld at *
  rw [pow_succ] at hd2
  rcases le_or_lt (ld + 52) ln with h | h
  · -- the first guess is not negative
    obtain ⟨a, rfl⟩ : ∃ a, ln = ld + 52 + a := ⟨ln - (ld + 52), by omega⟩
    have he0 : ((ld + 52 + a : ℕ) : ℤ) - (ld : ℤ) - 52 = (a : ℤ) := by push_cast; ring
    rw [he0]
    have hpow1 : 2 ^ (ld + 52 + a) = 2 ^ ld * (2 ^ 52 * 2 ^ a) := by rw [pow_add, pow_add]; ring
    have hpow2 : 2 ^ (ld + 52 + a + 1) = 2 * (2 ^ ld * (2 ^ 52 * 2 ^ a)) := by
      rw [pow_succ, hpow1]; ring
    rw [hpow1] at hn1
    rw [hpow2] at hn2
    have hmono : 2 ^ ld * (2 ^ 52 * 2 ^ a) ≤ d * (2 ^ 52 * 2 ^ a) := Nat.mul_le_mul_right _ hd1
    have hmono2 : d * (2 ^ 52 * 2 ^ a) < 2 ^ ld * 2 * (2 ^ 52 * 2 ^ a) :=
      Nat.mul_lt_mul_of_pos_right hd2 (by positivity)
    have e1 : 2 ^ 52 * (d * 2 ^ a) = d * (2 ^ 52 * 2 ^ a) := by ring
    have e2 : 2 ^ 53 * (d * 2 ^ a) = 2 * (d * (2 ^ 52 * 2 ^ a)) := by ring
    have e3 : 2 ^ ld * 2 * (2 ^ 52 * 2 ^ a) = 2 * (2 ^ ld * (2 ^ 52 * 2 ^ a)) := by ring
    simp only [Int.toNat_ofNat, Int.toNat_neg_nat, pow_zero, mul_one]
    split
    · rename_i hc
      simp only [Int.toNat_ofNat, Int.toNat_neg_nat, pow_zero, mul_one]
      rw [e1] at hc
      rw [e1, e2]
      omega
    · rename_i hc
      rw [e1] at hc
      cases a with
      | zero =>
        have t1 : ((0 : ℕ) : ℤ) - 1 = -1 := by norm_num
        rw [t1]
        have t2 : (-1 : ℤ).toNat = 0 := by decide
        have t3 : (-(-1 : ℤ)).toNat = 1 := by decide
        rw [t2, t3]
        simp only [pow_zero, mul_one, pow_one] at *
        omega
      | succ a =>
        have t1 : ((a + 1 : ℕ) : ℤ) - 1 = (a : ℤ) := by push_cast; ring
        rw [t1]
        simp only [Int.toNat_ofNat, Int.toNat_neg_nat, pow_zero, mul_one]
        have e4 : 2 ^ 52 * (d * 2 ^ a) * 2 = d * (2 ^ 52 * 2 ^ (a + 1)) := by rw [pow_succ]; ring
        have e5 : 2 ^ 53 * (d * 2 ^ a) = d * (2 ^ 52 * 2 ^ (a + 1)) := by rw [pow_succ]; ring
        rw [e5]
        omega
  · -- the first guess is negative
    obtain ⟨b, hb⟩ : ∃ b, ld + 52 = ln + (b + 1) := ⟨ld + 52 - ln - 1, by omega⟩
    have he0 : (ln : ℤ) - (ld : ℤ) - 52 = -((b + 1 : ℕ) : ℤ) := by push_cast; omega
    have he1 : -((b + 1 : ℕ) : ℤ) - 1 = -((b + 2 : ℕ) : ℤ) := by push_cast; ring
    rw [he0]
    have hX1 : 2 ^ ld * 2 ^ 52 ≤ n * 2 ^ (b + 1) := by
      calc 2 ^ ld * 2 ^ 52 = 2 ^ ln * 2 ^ (b + 1) := by rw [← pow_add, ← pow_add, hb]
        _ ≤ n * 2 ^ (b + 1) := Nat.mul_le_mul_right _ hn1
    have hX2 : n * 2 ^ (b + 1) < 2 * (2 ^ ld * 2 ^ 52) := by
      calc n * 2 ^ (b + 1) < 2 ^ (ln + 1) * 2 ^ (b + 1) :=
            Nat.mul_lt_mul_of_pos_right hn2 (by positivity)
        _ = 2 * (2 ^ ld * 2 ^ 52) := by
            rw [← pow_add 2 ld, hb, pow_succ, pow_add]; ring
    have hW1 : 2 ^ ld * 2 ^ 52 ≤ d * 2 ^ 52 := Nat.mul_le_mul_right _ hd1
    have hW2 : d * 2 ^ 52 < 2 ^ ld * 2 * 2 ^ 52 := Nat.mul_lt_mul_of_pos_right hd2 (by positivity)
    have e1 : 2 ^ 52 * d = d * 2 ^ 52 := by ring
    have e2 : 2 ^ 53 * d = 2 * (d * 2 ^ 52) := by ring
    have e3 : 2 ^ ld * 2 * 2 ^ 52 = 2 * (2 ^ ld * 2 ^ 52) := by ring
    have e4 : n * 2 ^ (b + 2) = 2 * (n * 2 ^ (b + 1)) := by rw [pow_succ 2 (b + 1)]; ring
    simp only [Int.toNat_neg_nat, neg_neg, Int.toNat_ofNat, pow_zero, mul_one]
    split
    · rename_i hc
      simp only [Int.toNat_neg_nat, neg_neg, Int.toNat_ofNat, pow_zero, mul_one]
      rw [e1] at hc
      rw [e1, e2]
      omega
    · rename_i hc
      rw [he1]
      simp only [Int.toNat_neg_nat, neg_neg, Int.toNat_ofNat, pow_zero, mul_one]
      rw [e1] at hc
      rw [e1, e2, e4]
      omega

theorem roundF64_small (n : Int) (d : Nat) (hn : 0 < n) (hd : 0 < d) (hlt : n < 2 ^ 53 * d) :
    ∃ M m : ℕ, roundF64 n d = ⟨M, -m⟩ ∧
      2 ^ 52 * d ≤ n.toNat * 2 ^ m ∧ n.toNat * 2 ^ m < 2 ^ 53 * d ∧
      n.toNat * 2 ^ m / d ≤ M ∧
      2 * (M * d) ≤ 2 * (n.toNat * 2 ^ m) + d ∧ 2 * (n.toNat * 2 ^ m) ≤ 2 * (M * d) + d := by
  obtain ⟨k, rfl⟩ : ∃ k : ℕ, n = k := ⟨n.toNat, by omega⟩
  have hk : 0 < k := by omega
  have hlt2 : k < 2 ^ 53 * d := by exact_mod_cast hlt
  obtain ⟨h1, h2⟩ := exponentOf_spec k d hk hd
  have hsign : (k : ℤ).sign = 1 := Int.sign_eq_one_of_pos hn
  unfold roundF64
  rw [if_neg (by omega)]
  simp only [Int.natAbs_ofNat, Int.toNat_ofNat, hsign, one_mul]
  generalize exponentOf k d = e at *
  rcases le_or_lt e 0 with he | he
  · obtain ⟨m, rfl⟩ : ∃ m : ℕ, e = -m := ⟨(-e).toNat, by omega⟩
    simp only [Int.toNat_neg_nat, neg_neg, Int.toNat_ofNat, pow_zero, mul_one] at h1 h2 ⊢
    obtain ⟨r1, r2, r3, r4⟩ := roundHalfEven_spec (k * 2 ^ m) d hd
    exact ⟨_, m, rfl, h1, h2, r1, r3, r4⟩
  · exfalso
    obtain ⟨p, rfl⟩ : ∃ p : ℕ, e = (p + 1 : ℕ) := ⟨(e - 1).toNat, by omega⟩
    simp only [Int.toNat_neg_nat, neg_neg, Int.toNat_ofNat, pow_zero, mul_one] at h1 h2
    have : d * 2 ≤ d * 2 ^ (p + 1) := by
      apply Nat.mul_le_mul_left
      calc 2 = 2 ^ 1 := by norm_num
        _ ≤ 2 ^ (p + 1) := Nat.pow_le_pow_right (by norm_num) (by omega)
    have : 2 ^ 52 * (d * 2) ≤ 2 ^ 52 * (d * 2 ^ (p + 1)) := Nat.mul_le_mul_left _ this
    omega

theorem ofInt_exact (z : Int) (h0 : 0 ≤ z) (h1 : z < 2 ^ 53) :
    ∃ m : ℕ, (F64.ofInt z).num = z * 2 ^ m ∧ (F64.ofInt z).den = 2 ^ m := by
  rcases eq_or_lt_of_le h0 with h | h
  · subst h
    exact ⟨0, by decide, by decide⟩
  · obtain ⟨M, m, hr, _, _, _, r3, r4⟩ := roundF64_small z 1 h (by norm_num) (by simpa using h1)
    refine ⟨m, ?_, ?_⟩
    · unfold F64.ofInt
      rw [hr]
      simp only [F64.num, Int.toNat_neg_nat, pow_zero, mul_one]
      have : M = z.toNat * 2 ^ m := by omega
      rw [this]
      push_cast
      rw [Int.toNat_of_nonneg h0]
    · unfold F64.ofInt
      rw [hr]
      simp [F64.den]

theorem num_den_of_eq (r : F64) (M m : ℕ) (h : r = ⟨M, -m⟩) : r.num = M ∧ r.den = 2 ^ m := by
  subst h
  simp [F64.num, F64.den]

theorem div_fraction_bound (ν mb mc : ℕ) (hν : ν < 10 ^ 9) (x y : F64)
    (hx1 : x.num = (ν : ℤ) * 2 ^ mb) (hx2 : x.den = 2 ^ mb)
    (hy1 : y.num = 10 ^ 9 * 2 ^ mc) (hy2 : y.den = 2 ^ mc) :
    ∃ Mq mq : ℕ, (F64.div x y).num = Mq ∧ (F64.div x y).den = 2 ^ mq ∧
      Mq * 2 ^ 30 + 2 ^ mq < 2 ^ 30 * 2 ^ mq := by
  have hypos : (0 : ℤ) < 10 ^ 9 * 2 ^ mc := by positivity
  have hsign : y.num.sign = 1 := by rw [hy1]; exact Int.sign_eq_one_of_pos hypos
  have habs : y.num.natAbs = 10 ^ 9 * 2 ^ mc := by
    rw [hy1]
    have : ((10 : ℤ) ^ 9 * 2 ^ mc) = ((10 ^ 9 * 2 ^ mc : ℕ) : ℤ) := by push_cast; rfl
    rw [this, Int.natAbs_ofNat]
  unfold F64.div
  rw [hx1, hx2, hy2, hsign, habs, mul_one]
  rcases Nat.eq_zero_or_pos ν with h0 | hpos
  · subst h0
    refine ⟨0, 0, ?_, ?_, by norm_num⟩
    · simp [roundF64, F64.num]
    · simp [roundF64, F64.den]
  · set S : ℕ := 2 ^ mb * 2 ^ mc with hS
    have hSpos : 0 < S := by positivity
    have hn : ((ν : ℤ) * 2 ^ mb * ((2 ^ mc : ℕ) : ℤ)) = ((ν * S : ℕ) : ℤ) := by
      rw [hS]; push_cast; ring
    have hd : 2 ^ mb * (10 ^ 9 * 2 ^ mc) = 10 ^ 9 * S := by rw [hS]; ring
    rw [hn, hd]
    obtain ⟨M, m, hr, e1, e2, r1, r3, r4⟩ := roundF64_small ((ν * S : ℕ) : ℤ) (10 ^ 9 * S)
      (by positivity) (by positivity) (by
        have : ν * S < 2 ^ 53 * (10 ^ 9 * S) := by
          calc ν * S < 10 ^ 9 * S := Nat.mul_lt_mul_of_pos_right hν hSpos
            _ ≤ 2 ^ 53 * (10 ^ 9 * S) := Nat.le_mul_of_pos_left _ (by positivity)
        exact_mod_cast this)
    obtain ⟨hnum, hden⟩ := num_den_of_eq _ M m hr
    refine ⟨M, m, hnum, hden, ?_⟩
    rw [Int.toNat_ofNat] at e1 r3
    -- cancel the common factor S
    have e1' : 2 ^ 52 * 10 ^ 9 ≤ ν * 2 ^ m := by
      have : (2 ^ 52 * 10 ^ 9) * S ≤ (ν * 2 ^ m) * S := by
        calc (2 ^ 52 * 10 ^ 9) * S = 2 ^ 52 * (10 ^ 9 * S) := by ring
          _ ≤ ν * S * 2 ^ m := e1
          _ = (ν * 2 ^ m) * S := by ring
      exact Nat.le_of_mul_le_mul_right this hSpos
    have r3' : 2 * (M * 10 ^ 9) ≤ 2 * (ν * 2 ^ m) + 10 ^ 9 := by
      have : (2 * (M * 10 ^ 9)) * S ≤ (2 * (ν * 2 ^ m) + 10 ^ 9) * S := by
        calc (2 * (M * 10 ^ 9)) * S = 2 * (M * (10 ^ 9 * S)) := by ring
          _ ≤ 2 * (ν * S * 2 ^ m) + 10 ^ 9 * S := r3
          _ = (2 * (ν * 2 ^ m) + 10 ^ 9) * S := by ring
      exact Nat.le_of_mul_le_mul_right this hSpos
    have hνT : ν * 2 ^ m ≤ (10 ^ 9 - 1) * 2 ^ m := Nat.mul_le_mul_right _ (by omega)
    generalize 2 ^ m = T at *
    norm_num at e1' r3' hνT ⊢
    omega

theorem add_fraction_toInt (σ ma Mq mq : ℕ) (hσ : σ < 2 ^ 24) (x y : F64)
    (hx1 : x.num = (σ : ℤ) * 2 ^ ma) (hx2 : x.den = 2 ^ ma)
    (hy1 : y.num = Mq) (hy2 : y.den = 2 ^ mq)
    (hQ : Mq * 2 ^ 30 + 2 ^ mq < 2 ^ 30 * 2 ^ mq) :
    (F64.add x y).toInt = σ := by
  unfold F64.toInt F64.add
  rw [hx1, hx2, hy1, hy2]
  set A : ℕ := 2 ^ ma with hA
  set Tq : ℕ := 2 ^ mq with hTq
  have hApos : 0 < A := by positivity
  have hTqpos : 0 < Tq := by positivity
  have hMq : Mq < Tq := by omega
  have hn : ((σ : ℤ) * 2 ^ ma * ((Tq : ℕ) : ℤ) + (Mq : ℤ) * ((A : ℕ) : ℤ))
      = (((σ * Tq + Mq) * A : ℕ) : ℤ) := by
    rw [hA]; push_cast; ring
  rw [hn]
  rcases Nat.eq_zero_or_pos (σ * Tq + Mq) with h0 | hpos
  · have hσ0 : σ = 0 := by
      rcases Nat.eq_zero_or_pos σ with h | h
      · exact h
      · have : 0 < σ * Tq := Nat.mul_pos h hTqpos
        omega
    rw [h0, hσ0]
    simp [roundF64, F64.num, F64.den]
  · have hlt : ((σ * Tq + Mq) * A) < 2 ^ 53 * (A * Tq) := by
      have h1 : σ * Tq ≤ (2 ^ 24 - 1) * Tq := Nat.mul_le_mul_right _ (by omega)
      have h2 : σ * Tq + Mq < 2 ^ 53 * Tq := by norm_num at h1 ⊢; omega
      calc (σ * Tq + Mq) * A < 2 ^ 53 * Tq * A := Nat.mul_lt_mul_of_pos_right h2 hApos
        _ = 2 ^ 53 * (A * Tq) := by ring
    obtain ⟨M, m, hr, e1, e2, r1, r3, r4⟩ := roundF64_small (((σ * Tq + Mq) * A : ℕ) : ℤ) (A * Tq)
      (by positivity) (by positivity) (by exact_mod_cast hlt)
    obtain ⟨hnum, hden⟩ := num_den_of_eq _ M m hr
    rw [hnum, hden]
    rw [Int.toNat_ofNat] at e1 r1 r3
    set T : ℕ := 2 ^ m with hT
    have hTpos : 0 < T := by positivity
    -- cancel the common factor A
    have e1' : 2 ^ 52 * Tq ≤ σ * (Tq * T) + Mq * T := by
      have : (2 ^ 52 * Tq) * A ≤ (σ * (Tq * T) + Mq * T) * A := by
        calc (2 ^ 52 * Tq) * A = 2 ^ 52 * (A * Tq) := by ring
          _ ≤ (σ * Tq + Mq) * A * T := e1
          _ = (σ * (Tq * T) + Mq * T) * A := by ring
      exact Nat.le_of_mul_le_mul_right this hApos
    have r3' : 2 * (M * Tq) ≤ 2 * (σ * (Tq * T) + Mq * T) + Tq := by
      have : (2 * (M * Tq)) * A ≤ (2 * (σ * (Tq * T) + Mq * T) + Tq) * A := by
        calc (2 * (M * Tq)) * A = 2 * (M * (A * Tq)) := by ring
          _ ≤ 2 * ((σ * Tq + Mq) * A * T) + A * Tq := r3
          _ = (2 * (σ * (Tq * T) + Mq * T) + Tq) * A := by ring
      exact Nat.le_of_mul_le_mul_right this hApos
    have r1' : σ * T ≤ M := by
      refine le_trans ?_ r1
      rw [Nat.le_div_iff_mul_le (by positivity)]
      calc σ * T * (A * Tq) = σ * Tq * A * T := by ring
        _ ≤ (σ * Tq + Mq) * A * T := by
            apply Nat.mul_le_mul_right
            apply Nat.mul_le_mul_right
            omega
    -- the products as atoms
    have hσP : σ * (Tq * T) ≤ (2 ^ 24 - 1) * (Tq * T) := Nat.mul_le_mul_right _ (by omega)
    have hMqT : Mq * T < Tq * T := Nat.mul_lt_mul_of_pos_right hMq hTpos
    have hQT : (Mq * 2 ^ 30 + Tq) * T < 2 ^ 30 * Tq * T := Nat.mul_lt_mul_of_pos_right hQ hTpos
    have hQT' : Mq * T * 2 ^ 30 + Tq * T < 2 ^ 30 * (Tq * T) := by
      calc Mq * T * 2 ^ 30 + Tq * T = (Mq * 2 ^ 30 + Tq) * T := by ring
        _ < 2 ^ 30 * Tq * T := hQT
        _ = 2 ^ 30 * (Tq * T) := by ring
    have hT28 : 2 ^ 28 < T := by
      have h1 : 2 ^ 52 * Tq < 2 ^ 24 * (Tq * T) := by norm_num at hσP e1' ⊢; omega
      have h2 : 2 ^ 28 * (2 ^ 24 * Tq) < T * (2 ^ 24 * Tq) := by
        calc 2 ^ 28 * (2 ^ 24 * Tq) = 2 ^ 52 * Tq := by ring
          _ < 2 ^ 24 * (Tq * T) := h1
          _ = T * (2 ^ 24 * Tq) := by ring
      exact Nat.lt_of_mul_lt_mul_right h2
    have hm29 : 29 ≤ m := by
      by_contra hc
      have : T ≤ 2 ^ 28 := by
        rw [hT]
        exact Nat.pow_le_pow_right (by norm_num) (by omega)
      omega
    have hT29 : 2 ^ 29 ≤ T := by
      rw [hT]
      exact Nat.pow_le_pow_right (by norm_num) hm29
    have hTqT : 2 ^ 29 * Tq ≤ Tq * T := by
      calc 2 ^ 29 * Tq = Tq * 2 ^ 29 := by ring
        _ ≤ Tq * T := Nat.mul_le_mul_left _ hT29
    have hup : M * Tq < (σ + 1) * T * Tq := by
      have : (σ + 1) * T * Tq = σ * (Tq * T) + Tq * T := by ring
      rw [this]
      norm_num at hQT' hTqT ⊢
      omega
    have hup' : M < (σ + 1) * T := Nat.lt_of_mul_lt_mul_right hup
    have hdiv : M / T = σ := Nat.div_eq_of_lt_le r1' hup'
    rw [← Int.ofNat_tdiv, hdiv]

theorem durationSeconds_exact (d : Int) (h0 : 0 ≤ d) (h1 : d < 2 ^ 24 * second) :
    durationSeconds d = Int.tdiv d second := by
  have hs : second = 1000000000 := rfl
  obtain ⟨σ, hσ⟩ : ∃ σ : ℕ, Int.tdiv d second = σ :=
    ⟨(Int.tdiv d second).toNat, by
      rw [Int.toNat_of_nonneg]
      rw [Int.tdiv_eq_ediv h0 (by decide)]
      exact Int.ediv_nonneg h0 (by decide)⟩
  obtain ⟨ν, hν⟩ : ∃ ν : ℕ, Int.tmod d second = ν :=
    ⟨(Int.tmod d second).toNat, by
      rw [Int.toNat_of_nonneg]
      rw [Int.tmod_eq_emod h0 (by decide)]
      exact Int.emod_nonneg _ (by decide)⟩
  have hσlt : σ < 2 ^ 24 := by
    have : (σ : ℤ) < 2 ^ 24 := by
      rw [← hσ, Int.tdiv_eq_ediv h0 (by decide)]
      rw [hs] at h1 ⊢
      omega
    exact_mod_cast this
  have hνlt : ν < 10 ^ 9 := by
    have : (ν : ℤ) < 10 ^ 9 := by
      rw [← hν, Int.tmod_eq_emod h0 (by decide), hs]
      omega
    exact_mod_cast this
  unfold durationSeconds Seconds
  simp only
  rw [hσ, hν]
  obtain ⟨ma, ha1, ha2⟩ := ofInt_exact σ (by positivity) (by
    have : (σ : ℤ) < 2 ^ 24 := by exact_mod_cast hσlt
    omega)
  obtain ⟨mb, hb1, hb2⟩ := ofInt_exact ν (by positivity) (by
    have : (ν : ℤ) < 10 ^ 9 := by exact_mod_cast hνlt
    omega)
  obtain ⟨mc, hc1, hc2⟩ := ofInt_exact 1000000000 (by decide) (by decide)
  obtain ⟨Mq, mq, hq1, hq2, hQ⟩ := div_fraction_bound ν mb mc hνlt _ _ hb1 hb2 (by rw [hc1]; norm_num) hc2
  exact add_fraction_toInt σ ma Mq mq hσlt _ _ ha1 ha2 hq1 hq2 hQ

theorem timeSub_small (t u : Int) (h0 : 0 ≤ t - u) (h1 : t - u < 2 ^ 24 * second) :
    timeSub t u = t - u := by
  have hs : second = 1000000000 := rfl
  rw [hs] at h1
  unfold timeSub
  rw [if_neg (by omega), if_neg (by omega)]

/-- A call created by a successful `initCallHandler`, then accepted by its recipient at the
instant `t1` and ended by one of its parties at an instant `t2` with `t1 ≤ t2 < t1 + 2^24`
seconds (the store accepting both updates), is stored with status 3 (ended), start time `t1`,
end time `t2` and as duration the whole seconds of `t2 - t1`, which is not negative. -/
theorem accepted_call_ended_within_span (env env2 env3 : Env) (s s1 : State) (u : String)
    (req : InitCallReq) (resp : Response InitCallData) (jobs : List Job) (r v : String)
    (hinit : initCallHandler env s u req = some (s1, resp, jobs)) (hok : resp.Code = 200)
    (hr : r ≠ "") (hv : v ≠ "")
    (hrecv : (req.ReceiverType = 1 ∧ r = req.ReceiverID) ∨
      (req.ReceiverType = 2 ∧ (firstMember s1 req.ReceiverID r).isSome = true))
    (hend : v = u ∨ (req.ReceiverType = 1 ∧ v = req.ReceiverID) ∨
      (req.ReceiverType = 2 ∧ isGroupMember s1 req.ReceiverID v = true))
    (hdb2 : env2.dbErr = false) (hdb3 : env3.dbErr = false)
    (hle : env2.now ≤ env3.now) (hspan : env3.now - env2.now < 2 ^ 24 * second) :
    ∃ callID : String,
      resp.Data = some ⟨callID, env.formatTime env.now, "等待对方接听"⟩ ∧
      (acceptCallHandler env2 s1 r callID).2.1.Code = 200 ∧
      (endCallHandler env3 (acceptCallHandler env2 s1 r callID).1 v callID).2.1.Code = 200 ∧
      ∃ c : Call,
        firstCall (endCallHandler env3 (acceptCallHandler env2 s1 r callID).1 v callID).1 callID
          = some c ∧
        c.Status = 3 ∧ c.StartTime = env2.now ∧ c.EndTime = env3.now ∧
        c.Duration = Int.tdiv (env3.now - env2.now) second ∧ 0 ≤ c.Duration := by
  rcases initCallHandler_cases env s u req s1 resp jobs hinit with
    ⟨hc, _, _⟩ | ⟨callID, rdb1, hgen, hresp, hcalls, _, hfresh, _⟩
  · exact absurd hok hc
  · have hne : callID ≠ "" := generateUniqueID_ne_empty env 31 env.draws _ _ _ hgen
    have hfind : firstCall s1 callID = some (newCall env u req callID) :=
      firstCall_append_fresh s s1 (newCall env u req callID) hcalls hfresh
    have hcheck : acceptCheck s1 (newCall env u req callID) r = none := by
      unfold acceptCheck
      rcases hrecv with ⟨h1, h2⟩ | ⟨h1, h2⟩
      · rw [if_neg (by simp [newCall, h2]), if_neg (by simp [newCall, h1])]
      · have h3 : firstMember s1 req.ReceiverID r ≠ none := by
          intro h
          rw [h] at h2
          cases h2
        rw [if_neg (by simp [newCall, h1]), if_neg (by simp [newCall, h3])]
    have hval : acceptCallHandler env2 s1 r callID =
        (updateCall s1 (newCall env u req callID)
            (fun c => { c with Status := 1, StartTime := env2.now }),
          success ⟨callID, env2.formatTime env2.now, "通话中"⟩,
          [.pushCallNotification
            { newCall env u req callID with Status := 1, StartTime := env2.now } "accepted"
            []]) := by
      unfold acceptCallHandler
      rw [if_neg hr, if_neg hne, hfind]
      simp only [hcheck]
      rw [if_neg (by simp [newCall]), if_neg (by simp [hdb2])]
      rfl
    set s2 : State := updateCall s1 (newCall env u req callID)
      (fun c => { c with Status := 1, StartTime := env2.now }) with hs2
    set c2 : Call := { newCall env u req callID with Status := 1, StartTime := env2.now } with hc2
    have hfind2 : firstCall s2 callID = some c2 :=
      firstCall_updateCall s1 _ _ callID (fun _ => rfl) hfind
    have hmem : isGroupMember s2 req.ReceiverID v = isGroupMember s1 req.ReceiverID v := rfl
    have hallow : endAllowed s2 c2 v = true := by
      unfold endAllowed
      rcases hend with h | ⟨h1, h2⟩ | ⟨h1, h2⟩
      · simp [hc2, newCall, h]
      · simp [hc2, newCall, h1, h2]
      · have : isGroupMember s2 req.ReceiverID v = true := by rw [hmem, h2]
        simp [hc2, newCall, h1, this]
    have hdur : durationSeconds (timeSub env3.now c2.StartTime)
        = Int.tdiv (env3.now - env2.now) second := by
      have : c2.StartTime = env2.now := rfl
      rw [this, timeSub_small _ _ (by omega) hspan]
      exact durationSeconds_exact _ (by omega) hspan
    set dur : Int := Int.tdiv (env3.now - env2.now) second with hdurdef
    have hval3 : endCallHandler env3 s2 v callID =
        (updateCall s2 c2 (fun c => { c with Status := 3, EndTime := env3.now, Duration := dur }),
          success ⟨"通话已结束", dur, env3.formatTime env3.now⟩,
          [.pushCallNotification { c2 with Status := 3, EndTime := env3.now, Duration := dur }
            "ended" ["通话时长: " ++ toString dur ++ "秒"]]) := by
      unfold endCallHandler
      rw [if_neg hv, if_neg hne, hfind2]
      simp only [hallow, Bool.not_true, Bool.false_eq_true, if_false]
      rw [if_neg (by simp [hc2]), if_neg (by simp [hdb3])]
      simp only [hdur]
    have hdur0 : 0 ≤ dur := by
      have hs : second = 1000000000 := rfl
      rw [hdurdef, Int.tdiv_eq_ediv (by omega) (by decide)]
      exact Int.ediv_nonneg (by omega) (by decide)
    refine ⟨callID, by rw [hresp]; rfl, by rw [hval]; rfl, ?_, ?_⟩
    · rw [hval]
      simp only
      rw [hval3]
      rfl
    · rw [hval]
      simp only
      rw [hval3]
      exact ⟨_, firstCall_updateCall s2 _ _ callID (fun _ => rfl) hfind2, rfl, rfl, rfl, rfl, hdur0⟩

/-- A call from `alice` to her friend `bob` that `bob` accepts ten seconds later and `alice`
ends 65.999999999 seconds after that is stored with the duration 65. -/
theorem accepted_call_ended_within_span_witness :
    ∃ (s1 : State) (callID : String),
      (initCallHandler demoEnv demoDirect "alice" demoInitCall).map (fun o => o.1) = some s1 ∧
      (acceptCallHandler (demoEnvAfter 10) s1 "bob" callID).2.1.Code = 200 ∧
      (endCallHandler demoEnvShort (acceptCallHandler (demoEnvAfter 10) s1 "bob" callID).1
        "alice" callID).2.1.Code = 200 ∧
      ∃ c : Call,
        firstCall (endCallHandler demoEnvShort (acceptCallHandler (demoEnvAfter 10) s1 "bob"
          callID).1 "alice" callID).1 callID = some c ∧
        c.Status = 3 ∧ c.StartTime = (demoEnvAfter 10).now ∧ c.EndTime = demoEnvShort.now ∧
        c.Duration = 65 := by
  cases hinit : initCallHandler demoEnv demoDirect "alice" demoInitCall with
  | none => exact absurd hinit (by decide)
  | some o =>
    obtain ⟨s1, resp, jobs⟩ := o
    have hok : resp.Code = 200 := by
      have h2 : (initCallHandler demoEnv demoDirect "alice" demoInitCall).map
          (fun o => o.2.1.Code) = some 200 := by rfl
      rw [hinit] at h2
      simpa using h2
    obtain ⟨callID, _, h1, h2, c, h3, h4, h5, h6, h7, _⟩ :=
      accepted_call_ended_within_span demoEnv (demoEnvAfter 10) demoEnvShort demoDirect s1
        "alice" demoInitCall resp jobs "bob" "alice" hinit hok (by decide) (by decide)
        (Or.inl ⟨rfl, rfl⟩) (Or.inl rfl) rfl rfl (by decide) (by decide)
    exact ⟨s1, callID, rfl, h1, h2, c, h3, h4, h5, h6, h7⟩

set_option maxRecDepth 4000

/-- C11 (the code departs from the claim). In the sample state `alice` calls her friend `bob`,
`bob` accepts ten seconds later (`t1`) and `alice` ends the call `2^24` seconds and 999999999
nanoseconds after that (`t2`).  All three requests succeed and the call is stored with status
3, start time `t1` and end time `t2`, as the claim says; but `t2 - t1` holds 16777216 whole
seconds and the stored duration is 16777217: `Seconds` adds `16777216` and `0.999999999` as
`float64`, whose values lie `2^-28` apart there, and the sum rounds up to `16777217`. -/
theorem long_call_duration_is_one_second_more :
    (initCallHandler demoEnv demoDirect "alice" demoInitCall).map (fun o => (o.1, o.2.1.Code))
      = some (demoRinging, 200) ∧
    (acceptCallHandler (demoEnvAfter 10) demoRinging "bob" demoCallID).2.1.Code = 200 ∧
    (endCallHandler demoEnvLong demoAccepted "alice" demoCallID).2.1.Code = 200 ∧
    (demoEnvAfter 10).now ≤ demoEnvLong.now ∧
    Int.tdiv (demoEnvLong.now - (demoEnvAfter 10).now) second = 16777216 ∧
    firstCall (endCallHandler demoEnvLong demoAccepted "alice" demoCallID).1 demoCallID
      = some ⟨demoCallID, "alice", 1, "bob", 1, 3, (demoEnvAfter 10).now, demoEnvLong.now,
          16777217, demoEnv.now⟩ :=
  ⟨by rfl, by rfl, by rfl, by decide, by rfl, by rfl⟩

/-! ### PKCS7 padding and `aesDecrypt` -/

theorem pkcs7Padding_eq (data : List Nat) (b : Nat) (h1 : 1 ≤ b) :
    pkcs7Padding data (b : Int)
      = .ok (data ++ List.replicate (b - data.length % b) ((b - data.length % b) % 256)) := by
  have hmod : data.length % b < b := Nat.mod_lt _ (by omega)
  have hcast : ((b : Int) - Int.tmod (data.length : Int) (b : Int))
      = ((b - data.length % b : ℕ) : Int) := by
    rw [← Int.ofNat_tmod]
    omega
  unfold pkcs7Padding
  rw [if_neg (by omega)]
  simp only [hcast]
  rw [if_neg (by omega), Int.toNat_ofNat]

/-- C30. For a block size `b` from 1 to 255, `pkcs7Padding(data, b)` returns a string whose
length is a multiple of `b` and greater than that of `data`, and `pkcs7Unpadding` of it returns
`data` without an error. -/
theorem pkcs7Unpadding_of_pkcs7Padding (data : List Nat) (b : Int) (h1 : 1 ≤ b) (h2 : b ≤ 255) :
    ∃ padded : List Nat,
      pkcs7Padding data b = .ok padded ∧
      (padded.length : Int) % b = 0 ∧
      data.length < padded.length ∧
      pkcs7Unpadding padded = .ok data := by
  obtain ⟨n, rfl⟩ : ∃ n : ℕ, b = n := ⟨b.toNat, by omega⟩
  have hn1 : 1 ≤ n := by omega
  have hn2 : n ≤ 255 := by omega
  have hmod : data.length % n < n := Nat.mod_lt _ (by omega)
  set p : ℕ := n - data.length % n with hp
  have hp1 : 1 ≤ p := by omega
  have hp2 : p ≤ 255 := by omega
  have hp256 : p % 256 = p := Nat.mod_eq_of_lt (by omega)
  refine ⟨data ++ List.replicate p (p % 256), pkcs7Padding_eq data n hn1, ?_, ?_, ?_⟩
  · simp only [List.length_append, List.length_replicate]
    have hdvd : n ∣ data.length + p := by
      have h := Nat.div_add_mod data.length n
      refine ⟨data.length / n + 1, ?_⟩
      rw [Nat.mul_add, mul_one]
      omega
    have : ((data.length + p : ℕ) : Int) % (n : Int) = 0 := by
      rw [← Int.ofNat_emod]
      exact_mod_cast Nat.mod_eq_zero_of_dvd hdvd
    exact_mod_cast this
  · simp only [List.length_append, List.length_replicate]
    omega
  · unfold pkcs7Unpadding
    simp only [List.length_append, List.length_replicate]
    rw [if_neg (by omega)]
    have hlast : (data ++ List.replicate p (p % 256)).getD (data.length + p - 1) 0 = p := by
      rw [List.getD_eq_getElem?_getD, List.getElem?_append_right (by omega)]
      rw [List.getElem?_replicate]
      rw [if_pos (by omega)]
      simp [hp256]
    rw [hlast, if_neg (by omega)]
    simp

/-- C30, for three bytes and the block size 16 of AES. -/
theorem pkcs7Unpadding_of_pkcs7Padding_witness :
    ∃ padded : List Nat,
      pkcs7Padding [104, 105, 33] 16 = .ok padded ∧
      (padded.length : Int) % 16 = 0 ∧
      [104, 105, 33].length < padded.length ∧
      pkcs7Unpadding padded = .ok [104, 105, 33] :=
  pkcs7Unpadding_of_pkcs7Padding [104, 105, 33] 16 (by decide) (by decide)

/-- Where the code agrees with C29: on a key of 16, 24 or 32 bytes and a ciphertext that is
shorter than a block or a whole number of blocks, `aesDecrypt` returns a plaintext or an
error. -/
theorem aesDecrypt_whole_blocks (codec : Codec) (cipherText key : List Nat)
    (h : cipherText.length < 16 ∨ cipherText.length % 16 = 0) :
    ∀ m : String, aesDecrypt codec cipherText key ≠ .panic m := by
  intro m
  unfold aesDecrypt
  split
  · simp
  · simp only
    split
    · simp
    · rename_i hlen
      have hrest : (cipherText.drop 16).length % 16 = 0 := by
        rw [List.length_drop]
        omega
      rw [if_neg (by omega)]
      split <;> simp

/-- The panic of `CryptBlocks`: on a key of 16, 24 or 32 bytes, every ciphertext of at least one
block that is not a whole number of blocks makes `aesDecrypt` panic. -/
theorem aesDecrypt_partial_block (codec : Codec) (cipherText key : List Nat)
    (hkey : key.length = 16 ∨ key.length = 24 ∨ key.length = 32)
    (hlen : 16 ≤ cipherText.length) (hpart : cipherText.length % 16 ≠ 0) :
    aesDecrypt codec cipherText key = .panic "crypto/cipher: input not full blocks" := by
  unfold aesDecrypt
  rw [if_neg (not_not.mpr hkey)]
  simp only
  rw [if_neg (by omega)]
  have hrest : (cipherText.drop 16).length % 16 ≠ 0 := by
    rw [List.length_drop]
    omega
  rw [if_pos hrest]

/-- C29 (the code departs from the claim). A ciphertext of 17 bytes (an initialisation vector
and one more byte) under a key of 32 bytes makes `aesDecrypt` panic in `CryptBlocks`, where the
claim has an error; and the connect handler, given the token `tok-odd` that decodes to these 17
bytes, ends in that panic and not in an error. -/
theorem aesDecrypt_panics_on_partial_block :
    aesDecrypt demoCodec (List.replicate 16 0 ++ [1]) (List.replicate 32 7)
      = .panic "crypto/cipher: input not full blocks" ∧
    demoCodec.base64Decode "tok-odd" = some (List.replicate 16 0 ++ [1]) ∧
    connectToken demoCodec demoSocketCfg demoEnv "tok-odd"
      = .panic "crypto/cipher: input not full blocks" ∧
    (onConnect demoCodec demoSocketCfg demoEnv demoGroup [] "conn-9" "tok-odd").1
      = .panic "crypto/cipher: input not full blocks" :=
  ⟨by rfl, by rfl, by rfl, by rfl⟩

/-! ### The room of a push and of a recall -/

/-- C24. The room of a push is fixed by the target of the message: `user:<receiverID>` for a
direct message and `group:<receiverID>` otherwise (so for a group message).  A run of
`pushMessageToClient` on a group message always adds one `new_message` to that room; on a
direct message it adds one `new_message` to that room when the presence test sees the receiver
online, and nothing otherwise.  A run of `pushRecallMessageToClient` on the message as stored
later (the columns written by the insert are the same) adds exactly one broadcast, to the same
room, of the event `recall_message`, which is not the event of the push. -/
theorem recall_goes_to_room_of_push (env : Env) (s s' : State) (m m' : Message)
    (h : m'.fixedPart = m.fixedPart) :
    ∃ room : String,
      (m.ReceiverType = 1 → room = "user:" ++ m.ReceiverID) ∧
      (m.ReceiverType ≠ 1 → room = "group:" ++ m.ReceiverID) ∧
      (pushMessageToClient env s m).broadcasts
        = (if m.ReceiverType = 1 ∧
              seenOnline (rdbExists env s.rdb ("online_user:" ++ m.ReceiverID)) = false then
            s.broadcasts
          else s.broadcasts ++ [⟨room, "new_message", m.MsgID, m.IsRecalled⟩]) ∧
      (pushRecallMessageToClient s' m').broadcasts
        = s'.broadcasts ++ [⟨room, "recall_message", m.MsgID, true⟩] ∧
      "recall_message" ≠ "new_message" := by
  simp only [Message.fixedPart, Prod.mk.injEq] at h
  obtain ⟨_, hid, _, hT, hR, _⟩ := h
  by_cases h1 : m.ReceiverType = 1
  · refine ⟨"user:" ++ m.ReceiverID, fun _ => rfl, fun h2 => absurd h1 h2, ?_, ?_, by decide⟩
    · unfold pushMessageToClient
      rw [if_pos h1]
      simp only
      by_cases hon : seenOnline (rdbExists env s.rdb ("online_user:" ++ m.ReceiverID)) = true
      · have hcond : ¬ (m.ReceiverType = 1 ∧
            seenOnline (rdbExists env s.rdb ("online_user:" ++ m.ReceiverID)) = false) := by
          simp [hon]
        rw [if_pos hon, if_neg hcond]
        split
        · rfl
        · simp [updateMessage]
      · have hcond : m.ReceiverType = 1 ∧
            seenOnline (rdbExists env s.rdb ("online_user:" ++ m.ReceiverID)) = false :=
          ⟨h1, by simpa using hon⟩
        rw [if_neg hon, if_pos hcond]
    · unfold pushRecallMessageToClient
      rw [if_pos (by rw [hT]; exact h1), hR, hid]
  · refine ⟨"group:" ++ m.ReceiverID, fun h2 => absurd h2 h1, fun _ => rfl, ?_, ?_, by decide⟩
    · unfold pushMessageToClient
      rw [if_neg h1, if_neg (fun hc => h1 hc.1)]
    · unfold pushRecallMessageToClient
      rw [if_neg (by rw [hT]; exact h1), hR, hid]

/-- C24, for the stored message of `alice` to `bob`, whose push goes to `user:bob` and whose
recall by `alice` a minute later starts the job that broadcasts `recall_message`, and for a
message of `alice` to the group `g1`: its push goes to `group:g1`, and so does its recall. -/
theorem recall_goes_to_room_of_push_witness :
    (recallMessageHandler demoCfg (demoEnvAfter 60) demoStored "alice" "m1").2.2
      = [.pushRecallMessageToClient
          { demoMessage with IsRecalled := true, UpdatedAt := (demoEnvAfter 60).now }] ∧
    (pushMessageToClient demoEnv demoStored demoMessage).broadcasts
      = [⟨"user:bob", "new_message", "m1", false⟩] ∧
    (pushRecallMessageToClient demoStored
        { demoMessage with IsRecalled := true, UpdatedAt := (demoEnvAfter 60).now }).broadcasts
      = [⟨"user:bob", "recall_message", "m1", true⟩] ∧
    (pushMessageToClient demoEnv demoGroup demoGroupMessage).broadcasts
      = [⟨"group:g1", "new_message", "m3", false⟩] ∧
    (pushRecallMessageToClient demoGroup { demoGroupMessage with IsRecalled := true }).broadcasts
      = [⟨"group:g1", "recall_message", "m3", true⟩] ∧
    ∃ room : String,
      (demoGroupMessage.ReceiverType = 1 → room = "user:" ++ demoGroupMessage.ReceiverID) ∧
      (demoGroupMessage.ReceiverType ≠ 1 → room = "group:" ++ demoGroupMessage.ReceiverID) ∧
      (pushMessageToClient demoEnv demoGroup demoGroupMessage).broadcasts
        = (if demoGroupMessage.ReceiverType = 1 ∧
              seenOnline (rdbExists demoEnv demoGroup.rdb
                ("online_user:" ++ demoGroupMessage.ReceiverID)) = false then
            demoGroup.broadcasts
          else demoGroup.broadcasts
            ++ [⟨room, "new_message", demoGroupMessage.MsgID, demoGroupMessage.IsRecalled⟩]) ∧
      (pushRecallMessageToClient demoGroup { demoGroupMessage with IsRecalled := true }).broadcasts
        = demoGroup.broadcasts ++ [⟨room, "recall_message", demoGroupMessage.MsgID, true⟩] ∧
      "recall_message" ≠ "new_message" :=
  ⟨by rfl, by rfl, by rfl, by rfl, by rfl,
    recall_goes_to_room_of_push demoEnv demoGroup demoGroup demoGroupMessage
      { demoGroupMessage with IsRecalled := true } rfl⟩

/-! ### Access tokens -/

/-- What a request that `authMiddleware` lets through has shown: a token that parses, with the
issuer `cfg.App.Name` and the subject `access_token`, of an active user. -/
theorem authMiddleware_next (lib : JWTLib) (cfg : AuthConfig) (env : Env) (users : List User)
    (authHeader fuid username nickname : String)
    (h : authMiddleware lib cfg env users authHeader = .next fuid username nickname) :
    ∃ (tokenStr : String) (token : Token),
      splitN2 authHeader = ["Bearer", tokenStr] ∧
      lib.parseWithClaims tokenStr cfg.Secret env.now = .ok token ∧
      token.Claims.Issuer = cfg.AppName ∧ token.Claims.Subject = "access_token" ∧
      token.Claims.FUID = fuid ∧
      ∃ u ∈ users, u.FUID = fuid ∧ u.Status = 1 := by
  unfold authMiddleware at h
  split at h
  · cases h
  · simp only at h
    split at h
    · cases h
    · rename_i hparts
      simp only [not_not] at hparts
      split at h
      · cases h
      · rename_i token hparse
        split at h
        · split at h
          · cases h
          · rename_i hiss
            split at h
            · cases h
            · rename_i hsub
              split at h
              · cases h
              · rename_i u hu
                · cases h
                  have hmem := List.mem_of_find?_eq_some hu
                  have hp := List.find?_some hu
                  simp only [decide_eq_true_eq] at hp
                  refine ⟨(splitN2 authHeader).getD 1 "", token, ?_, hparse,
                    not_not.mp hiss, not_not.mp hsub, rfl, u, hmem, hp.1, hp.2⟩
                  obtain ⟨hlen, h0⟩ := hparts
                  match hs : splitN2 authHeader, hlen, h0 with
                  | [a, b], _, h0 =>
                    simp only [List.getD_cons_zero] at h0
                    simp [h0]
        · cases h

/-- The claims that `loginHandler` signs never pass the checks of `authMiddleware`: whenever
the parse of the presented token returns these claims, the request is aborted with code 401. -/
theorem authMiddleware_rejects_accessClaims (lib : JWTLib) (cfg : AuthConfig) (env : Env)
    (users : List User) (tokenStr : String) (now : Int) (user : User) (deviceID : String)
    (hparse : lib.parseWithClaims tokenStr cfg.Secret env.now
      = .ok ⟨accessClaims cfg now user deviceID, true⟩)
    (hsplit : splitN2 ("Bearer " ++ tokenStr) = ["Bearer", tokenStr]) :
    authMiddleware lib cfg env users ("Bearer " ++ tokenStr)
      = .aborted (fail 401 (if cfg.AppName = "" then "令牌类型错误" else "无效的令牌签发者")) := by
  have hne : ("Bearer " ++ tokenStr) ≠ "" := by
    intro h
    have := congrArg String.length h
    simp only [String.length_append] at this
    have h7 : "Bearer ".length = 7 := by decide
    have h0 : ("" : String).length = 0 := by decide
    omega
  unfold authMiddleware
  rw [if_neg hne]
  simp only [hsplit]
  rw [if_neg (by simp)]
  simp only [List.getD_cons_succ, List.getD_cons_zero, hparse]
  by_cases hname : cfg.AppName = ""
  · simp [accessClaims, hname]
  · have : ¬ ("" = cfg.AppName) := fun h => hname h.symm
    simp [accessClaims, hname, this]

/-- C28 (the code departs from the claim). `alice` is an active user; her login signs claims
with an expiry and an issue date and with no issuer and no subject.  Ten seconds later her
request presents `Bearer ` and this token: the token parses, and `authMiddleware` aborts the
request with code 401 on the issuer check.  Under a configuration whose application name is
empty the issuer check passes and the subject check aborts the request. -/
theorem login_token_is_rejected_by_authMiddleware :
    firstActiveUser [demoAlice] "alice" = some demoAlice ∧
    loginAccessToken (demoJWT demoAuthCfg) demoAuthCfg (1700000000 * second) demoAlice "dev-1"
      = .ok "jwt:alice" ∧
    (∃ token : Token,
      (demoJWT demoAuthCfg).parseWithClaims "jwt:alice" demoAuthCfg.Secret (demoEnvAfter 10).now
        = .ok token ∧
      token.Valid = true ∧ token.Claims.Issuer = "" ∧ token.Claims.Subject = "" ∧
      token.Claims.ExpiresAt = some ((1700000000 + 3600) * second)) ∧
    authMiddleware (demoJWT demoAuthCfg) demoAuthCfg (demoEnvAfter 10) [demoAlice]
        "Bearer jwt:alice"
      = .aborted (fail 401 "无效的令牌签发者") ∧
    authMiddleware (demoJWT demoAuthCfgNoName) demoAuthCfgNoName (demoEnvAfter 10) [demoAlice]
        "Bearer jwt:alice"
      = .aborted (fail 401 "令牌类型错误") :=
  ⟨by rfl, by rfl, ⟨_, by rfl, by rfl, by rfl, by rfl, by rfl⟩, by rfl, by rfl⟩

/-! ### The offline queue: counters -/

theorem counter_key_injective (a b : String)
    (h : "offline_msg_count:" ++ a = "offline_msg_count:" ++ b) : a = b := by
  have h2 := congrArg String.data h
  simp only [String.data_append, List.append_cancel_left_eq] at h2
  exact String.ext h2

theorem redisFind_erase_append_self (rdb : List RedisEntry) (now : Int) (e : RedisEntry)
    (hlive : e.live now = true) :
    redisFind (redisErase rdb e.key ++ [e]) now e.key = some e := by
  have h1 := redisFind_erase_self rdb now e.key
  unfold redisFind at h1 ⊢
  rw [List.find?_append, h1]
  simp [hlive]

theorem redisFind_key (rdb : List RedisEntry) (now : Int) (key : String) (e : RedisEntry)
    (h : redisFind rdb now key = some e) : e ∈ rdb ∧ e.key = key ∧ e.live now = true := by
  unfold redisFind at h
  have h1 := List.mem_of_find?_eq_some h
  have h2 := List.find?_some h
  simp only [Bool.and_eq_true, decide_eq_true_eq] at h2
  exact ⟨h1, h2.1, h2.2⟩

/-- A call `rdb.Incr` that reaches the store, read back at the same instant: a missing key
reads 1 afterwards, and a number below the largest `int64` reads one more. -/
theorem rdbIncr_reads (env : Env) (rdb : List RedisEntry) (key : String)
    (hup : env.redisDown key = false) :
    (redisFind rdb env.now key = none →
      redisFind (rdbIncr env rdb key) env.now key = some ⟨key, .int 1, none⟩) ∧
    (∀ (e : RedisEntry) (n : Int), redisFind rdb env.now key = some e → e.val = .int n →
      n + 1 < 2 ^ 63 →
      redisFind (rdbIncr env rdb key) env.now key = some ⟨key, .int (n + 1), e.expireAt⟩) := by
  constructor
  · intro hnone
    unfold rdbIncr
    rw [hup]
    simp only [Bool.false_eq_true, if_false, hnone]
    exact redisFind_erase_append_self rdb env.now ⟨key, .int 1, none⟩ rfl
  · intro e n hsome hval hlt
    obtain ⟨_, _, hlive⟩ := redisFind_key rdb env.now key e hsome
    unfold rdbIncr
    rw [hup]
    simp only [Bool.false_eq_true, if_false, hsome, hval]
    rw [if_pos hlt]
    exact redisFind_erase_append_self rdb env.now ⟨key, .int (n + 1), e.expireAt⟩ hlive

/-- The count reported after an enqueue for `u` whose `Incr` reaches the store, when the
counter of `u` is missing or holds a number below the largest `int64`: one more. -/
theorem offlineCount_enqueueOffline (env : Env) (s : State) (u msgID : String)
    (hup : env.redisDown ("offline_msg_count:" ++ u) = false)
    (hint : ∀ e : RedisEntry, redisFind s.rdb env.now ("offline_msg_count:" ++ u) = some e →
      ∃ n : Int, e.val = .int n ∧ n + 1 < 2 ^ 63) :
    offlineCount env (enqueueOffline env s u msgID) u = offlineCount env s u + 1 ∧
    ∀ e : RedisEntry,
      redisFind (enqueueOffline env s u msgID).rdb env.now ("offline_msg_count:" ++ u) = some e →
      e.val = .int (offlineCount env s u + 1) := by
  obtain ⟨hnone, hsome⟩ := rdbIncr_reads env s.rdb ("offline_msg_count:" ++ u) hup
  have hrdb := enqueueOffline_rdb env s u msgID
  unfold offlineCount
  rw [hup, hrdb]
  simp only [Bool.false_eq_true, if_false]
  cases hf : redisFind s.rdb env.now ("offline_msg_count:" ++ u) with
  | none =>
    rw [hnone hf]
    refine ⟨by simp, ?_⟩
    intro e he
    cases he
    simp
  | some e =>
    obtain ⟨n, hval, hlt⟩ := hint e hf
    rw [hsome e n hf hval hlt]
    simp only [hval]
    refine ⟨trivial, ?_⟩
    intro e' he'
    cases he'
    rfl

/-! ### The offline queue: drain -/

theorem markDelivered_rdb (env : Env) (s : State) (u : String) :
    (markDelivered env s u).rdb = s.rdb := by
  unfold markDelivered
  split <;> rfl

theorem markDelivered_messages (env : Env) (s : State) (u : String) :
    (markDelivered env s u).messages = s.messages := by
  unfold markDelivered
  split <;> rfl

theorem markDelivered_rows (env : Env) (s : State) (u : String)
    (hmark : env.dbDown .markDelivered = false) :
    (markDelivered env s u).offlineMessages
      = s.offlineMessages.map (fun (om : OfflineMessage) =>
          if om.UserFUID = u then { om with Status := 1 } else om) := by
  unfold markDelivered
  rw [hmark]
  rfl

/-- A drain whose first query fails answers with code 500 and leaves the state as it was. -/
theorem getOfflineMessageHandler_query_error (env : Env) (s : State) (u : String) (hu : u ≠ "")
    (hfind : env.dbDown .findOffline = true) :
    getOfflineMessageHandler env s u = (s, fail 500 ("查询离线消息失败: " ++ env.errText)) := by
  unfold getOfflineMessageHandler
  rw [if_neg hu, if_pos hfind]

/-- A drain whose first query answers: the state after the update and the `Del`, and the
success with the messages that the second query returned. -/
theorem getOfflineMessageHandler_eq (env : Env) (s : State) (u : String) (hu : u ≠ "")
    (hfind : env.dbDown .findOffline = false) :
    getOfflineMessageHandler env s u =
      ({ markDelivered env s u with
          rdb := rdbDel env (markDelivered env s u).rdb ("offline_msg_count:" ++ u) },
        successCount
          ((findOrEmpty env .findMessages
            (messagesIn s ((pendingOffline s u).map (fun om => om.MsgID)))).map messageData)
          (Int.ofNat
            ((findOrEmpty env .findMessages
              (messagesIn s ((pendingOffline s u).map (fun om => om.MsgID)))).map
              messageData).length)) := by
  unfold getOfflineMessageHandler
  rw [if_neg hu, hfind]
  rfl

theorem getOfflineMessageHandler_rdb (env : Env) (s : State) (u : String) (hu : u ≠ "")
    (hfind : env.dbDown .findOffline = false) :
    (getOfflineMessageHandler env s u).1.rdb = rdbDel env s.rdb ("offline_msg_count:" ++ u) := by
  rw [getOfflineMessageHandler_eq env s u hu hfind]
  simp only
  rw [markDelivered_rdb]

theorem getOfflineMessageHandler_rows (env : Env) (s : State) (u : String) (hu : u ≠ "")
    (hfind : env.dbDown .findOffline = false) :
    (getOfflineMessageHandler env s u).1.offlineMessages
      = (markDelivered env s u).offlineMessages := by
  rw [getOfflineMessageHandler_eq env s u hu hfind]

/-- The identifiers that a drain whose two queries answer returns: those of the stored
messages, in the order of the table `messages`, whose identifier is in a pending row of the
user. -/
theorem drainedIDs_drain (env : Env) (s : State) (u : String) (hu : u ≠ "")
    (hfind : env.dbDown .findOffline = false) (hmsgs : env.dbDown .findMessages = false) :
    drainedIDs (getOfflineMessageHandler env s u).2
      = (s.messages.map (fun m => m.MsgID)).filter
          (fun id => decide (id ∈ (pendingOffline s u).map (fun om => om.MsgID))) := by
  rw [getOfflineMessageHandler_eq env s u hu hfind, findOrEmpty_up env _ _ hmsgs]
  simp only [drainedIDs, successCount, Option.getD_some, List.map_map]
  have hcomp : ((fun d : MessageData => d.msg_id) ∘ messageData) = fun m : Message => m.MsgID := by
    funext m
    rfl
  rw [hcomp]
  unfold messagesIn
  split
  · rw [List.filter_map]
    rfl
  · rename_i hlen
    have hnil : (pendingOffline s u).map (fun om => om.MsgID) = [] := by
      apply List.eq_nil_of_length_eq_zero
      omega
    rw [hnil]
    simp

theorem filter_map_of_fixed {α : Type} (f : α → α) (p : α → Bool) (l : List α)
    (h : ∀ x ∈ l, (p (f x) = p x) ∧ (p x = true → f x = x)) :
    (l.map f).filter p = l.filter p := by
  induction l with
  | nil => rfl
  | cons a t ih =>
    have ha := h a (List.mem_cons_self a t)
    have ht := ih (fun x hx => h x (List.mem_cons_of_mem a hx))
    simp only [List.map_cons, List.filter_cons, ha.1]
    by_cases hp : p a = true
    · simp only [hp, if_true, ha.2 hp, ht]
    · simp only [hp, if_false, ht]
      simp [ht]

/-- The rows of another user are as before after the update of a drain by `u`, whether the
update succeeds or not. -/
theorem markDelivered_other (env : Env) (s : State) (u v : String) (hv : v ≠ u) :
    (markDelivered env s u).offlineMessages.filter (fun om => decide (om.UserFUID = v))
      = s.offlineMessages.filter (fun om => decide (om.UserFUID = v)) ∧
    pendingOffline (markDelivered env s u) v = pendingOffline s v := by
  unfold markDelivered
  split
  · exact ⟨rfl, rfl⟩
  · constructor
    · simp only
      apply filter_map_of_fixed
      intro x _
      by_cases hxu : x.UserFUID = u
      · simp only [hxu, if_true]
        have : ¬ (u = v) := fun h => hv h.symm
        simp [this]
      · simp only [hxu, if_false]
        simp
    · unfold pendingOffline
      simp only
      apply filter_map_of_fixed
      intro x _
      by_cases hxu : x.UserFUID = u
      · simp only [hxu, if_true]
        have : ¬ (u = v) := fun h => hv h.symm
        simp [this]
      · simp only [hxu, if_false]
        simp

/-- After a drain by `u` whose first query and update succeed, no row of `u` is pending; and
after any drain by `u` the pending rows of every other user are as before. -/
theorem pendingOffline_drain (env : Env) (s : State) (u : String) (hu : u ≠ "") :
    (env.dbDown .findOffline = false → env.dbDown .markDelivered = false →
      (∀ om ∈ (getOfflineMessageHandler env s u).1.offlineMessages,
        om.UserFUID = u → om.Status = 1) ∧
      pendingOffline (getOfflineMessageHandler env s u).1 u = []) ∧
    ∀ v : String, v ≠ u →
      pendingOffline (getOfflineMessageHandler env s u).1 v = pendingOffline s v := by
  refine ⟨?_, ?_⟩
  · intro hfind hmark
    have hrows : (getOfflineMessageHandler env s u).1.offlineMessages
        = s.offlineMessages.map (fun (om : OfflineMessage) =>
            if om.UserFUID = u then { om with Status := 1 } else om) := by
      rw [getOfflineMessageHandler_rows env s u hu hfind, markDelivered_rows env s u hmark]
    refine ⟨?_, ?_⟩
    · intro om hom hou
      rw [hrows, List.mem_map] at hom
      obtain ⟨x, _, hx⟩ := hom
      by_cases hxu : x.UserFUID = u
      · rw [if_pos hxu] at hx
        rw [← hx]
      · rw [if_neg hxu] at hx
        rw [← hx] at hou
        exact absurd hou hxu
    · unfold pendingOffline
      rw [hrows, List.filter_eq_nil_iff]
      intro om hom hp
      simp only [decide_eq_true_eq] at hp
      rw [List.mem_map] at hom
      obtain ⟨x, _, hx⟩ := hom
      by_cases hxu : x.UserFUID = u
      · rw [if_pos hxu] at hx
        rw [← hx] at hp
        simp at hp
      · rw [if_neg hxu] at hx
        rw [← hx] at hp
        exact hxu hp.1
  · intro v hv
    by_cases hfind : env.dbDown .findOffline = true
    · rw [getOfflineMessageHandler_query_error env s u hu hfind]
    · simp only [Bool.not_eq_true] at hfind
      have h1 : pendingOffline (getOfflineMessageHandler env s u).1 v
          = pendingOffline (markDelivered env s u) v := by
        unfold pendingOffline
        rw [getOfflineMessageHandler_rows env s u hu hfind]
      rw [h1]
      exact (markDelivered_other env s u v hv).2

/-! ### Claims on the offline queue -/

theorem pendingOffline_enqueueOffline (env : Env) (s : State) (u msgID : String)
    (hcreate : env.dbDown (.createOffline u) = false) :
    pendingOffline (enqueueOffline env s u msgID) u
      = pendingOffline s u ++ [⟨s.offlineSeq + 1, u, msgID, 0, env.now⟩] := by
  unfold pendingOffline
  rw [enqueueOffline_rows, hcreate]
  simp only [Bool.false_eq_true, if_false]
  rw [List.filter_append]
  simp

theorem enqueueOffline_messages (env : Env) (s : State) (u msgID : String) :
    (enqueueOffline env s u msgID).messages = s.messages :=
  (enqueueOffline_frame env s u msgID).messages

/-- C21 (the claim as stated fails). The message `m1` to `bob` is stored; enqueuing the pair
(`bob`, `m1`) twice, with every store call succeeding, does not leave the state of enqueuing
it once: the queue holds two pending rows for the pair and the count of `bob` is 2, against
one row and a count of 1.  The next drain returns `m1` once. -/
theorem enqueue_twice_differs_from_once :
    saveOfflineMessage demoEnv (saveOfflineMessage demoEnv demoStored 1 "bob" "m1") 1 "bob" "m1"
      ≠ saveOfflineMessage demoEnv demoStored 1 "bob" "m1" ∧
    (pendingOffline (saveOfflineMessage demoEnv demoStored 1 "bob" "m1") "bob").map
      (fun om => om.MsgID) = ["m1"] ∧
    offlineCount demoEnv (saveOfflineMessage demoEnv demoStored 1 "bob" "m1") "bob" = 1 ∧
    (pendingOffline (saveOfflineMessage demoEnv
      (saveOfflineMessage demoEnv demoStored 1 "bob" "m1") 1 "bob" "m1") "bob").map
      (fun om => om.MsgID) = ["m1", "m1"] ∧
    offlineCount demoEnv (saveOfflineMessage demoEnv
      (saveOfflineMessage demoEnv demoStored 1 "bob" "m1") 1 "bob" "m1") "bob" = 2 ∧
    drainedIDs (getOfflineMessageHandler demoEnv (saveOfflineMessage demoEnv
      (saveOfflineMessage demoEnv demoStored 1 "bob" "m1") 1 "bob" "m1") "bob").2 = ["m1"] :=
  ⟨by decide, by rfl, by rfl, by rfl, by rfl, by rfl⟩

/-- C21 (amended). Enqueuing the pair (`u`, `msgID`) twice, with both inserts succeeding and
the counter of `u` reachable and holding no value or a number that can grow by two, adds two
pending rows for the pair and raises the count of `u` by two.  The next drain by `u`, when its
two queries succeed, returns a message that is stored once under `msgID` exactly once, and,
when its update succeeds too, leaves no pending row of `u`. -/
theorem enqueue_twice_adds_two_entries (env env2 : Env) (s : State) (u msgID : String)
    (hu : u ≠ "") (hup : env.redisDown ("offline_msg_count:" ++ u) = false)
    (hcreate : env.dbDown (.createOffline u) = false)
    (hfind : env2.dbDown .findOffline = false) (hmsgs : env2.dbDown .findMessages = false)
    (hmark : env2.dbDown .markDelivered = false)
    (hint : ∀ e : RedisEntry, redisFind s.rdb env.now ("offline_msg_count:" ++ u) = some e →
      ∃ n : Int, e.val = .int n ∧ n + 2 < 2 ^ 63)
    (hstored : (s.messages.map (fun m => m.MsgID)).count msgID = 1) :
    (pendingOffline (saveOfflineMessage env (saveOfflineMessage env s 1 u msgID) 1 u msgID) u).map
      (fun om => om.MsgID) = (pendingOffline s u).map (fun om => om.MsgID) ++ [msgID, msgID] ∧
    offlineCount env (saveOfflineMessage env (saveOfflineMessage env s 1 u msgID) 1 u msgID) u
      = offlineCount env s u + 2 ∧
    (drainedIDs (getOfflineMessageHandler env2
      (saveOfflineMessage env (saveOfflineMessage env s 1 u msgID) 1 u msgID) u).2).count msgID
      = 1 ∧
    pendingOffline (getOfflineMessageHandler env2
      (saveOfflineMessage env (saveOfflineMessage env s 1 u msgID) 1 u msgID) u).1 u = [] := by
  have hsave : ∀ t : State, saveOfflineMessage env t 1 u msgID = enqueueOffline env t u msgID := by
    intro t
    unfold saveOfflineMessage
    rw [if_pos rfl]
  rw [hsave, hsave]
  have hint1 : ∀ e : RedisEntry,
      redisFind s.rdb env.now ("offline_msg_count:" ++ u) = some e →
      ∃ n : Int, e.val = .int n ∧ n + 1 < 2 ^ 63 := by
    intro e he
    obtain ⟨n, hn, hlt⟩ := hint e he
    exact ⟨n, hn, by omega⟩
  have hc : offlineCount env s u + 2 < 2 ^ 63 := by
    unfold offlineCount
    rw [hup]
    simp only [Bool.false_eq_true, if_false]
    cases hf : redisFind s.rdb env.now ("offline_msg_count:" ++ u) with
    | none => simp
    | some e =>
      obtain ⟨n, hn, hlt⟩ := hint e hf
      simp only [hn]
      exact hlt
  obtain ⟨hc1, hval1⟩ := offlineCount_enqueueOffline env s u msgID hup hint1
  have hint2 : ∀ e : RedisEntry,
      redisFind (enqueueOffline env s u msgID).rdb env.now ("offline_msg_count:" ++ u) = some e →
      ∃ n : Int, e.val = .int n ∧ n + 1 < 2 ^ 63 := by
    intro e he
    exact ⟨_, hval1 e he, by omega⟩
  obtain ⟨hc2, _⟩ := offlineCount_enqueueOffline env (enqueueOffline env s u msgID) u msgID hup hint2
  have hpend : (pendingOffline (enqueueOffline env (enqueueOffline env s u msgID) u msgID) u).map
      (fun om => om.MsgID) = (pendingOffline s u).map (fun om => om.MsgID) ++ [msgID, msgID] := by
    rw [pendingOffline_enqueueOffline _ _ _ _ hcreate, pendingOffline_enqueueOffline _ _ _ _ hcreate]
    simp
  refine ⟨hpend, by rw [hc2, hc1]; ring, ?_,
    ((pendingOffline_drain env2 _ u hu).1 hfind hmark).2⟩
  rw [drainedIDs_drain env2 _ u hu hfind hmsgs, hpend]
  have hmsgs2 : (enqueueOffline env (enqueueOffline env s u msgID) u msgID).messages = s.messages := by
    rw [enqueueOffline_messages, enqueueOffline_messages]
  rw [hmsgs2, List.count_filter (by simp), hstored]

/-- C21 (amended), for the stored message `m1` and `bob`, whose counter is missing. -/
theorem enqueue_twice_adds_two_entries_witness :
    (pendingOffline (saveOfflineMessage demoEnv
      (saveOfflineMessage demoEnv demoStored 1 "bob" "m1") 1 "bob" "m1") "bob").map
      (fun om => om.MsgID) = (pendingOffline demoStored "bob").map (fun om => om.MsgID)
        ++ ["m1", "m1"] ∧
    offlineCount demoEnv (saveOfflineMessage demoEnv
      (saveOfflineMessage demoEnv demoStored 1 "bob" "m1") 1 "bob" "m1") "bob"
      = offlineCount demoEnv demoStored "bob" + 2 ∧
    (drainedIDs (getOfflineMessageHandler (demoEnvAfter 9) (saveOfflineMessage demoEnv
      (saveOfflineMessage demoEnv demoStored 1 "bob" "m1") 1 "bob" "m1") "bob").2).count "m1"
      = 1 ∧
    pendingOffline (getOfflineMessageHandler (demoEnvAfter 9) (saveOfflineMessage demoEnv
      (saveOfflineMessage demoEnv demoStored 1 "bob" "m1") 1 "bob" "m1") "bob").1 "bob" = [] :=
  enqueue_twice_adds_two_entries demoEnv (demoEnvAfter 9) demoStored "bob" "m1" (by decide)
    (by rfl) (by rfl) (by rfl) (by rfl) (by rfl)
    (fun e he => by
      have hnone : redisFind demoStored.rdb demoEnv.now ("offline_msg_count:" ++ "bob") = none := by
        rfl
      rw [hnone] at he
      cases he)
    (by decide)

/-- C22 (the claim as stated fails). `bob` has one pending row and a count of 1.  His drain,
in a run in which Redis does not answer on his counter key, returns `m1` and marks the row
delivered, but the count of `bob` read afterwards is still 1: the result of `rdb.Del` is not
looked at.  His drain in a run in which the update of the rows fails returns `m1` with
success and leaves the row pending (its error is dropped too), so the drain that follows
returns `m1` again. -/
theorem drain_leaves_count_when_store_is_down :
    offlineCount demoEnv (saveOfflineMessage demoEnv demoStored 1 "bob" "m1") "bob" = 1 ∧
    drainedIDs (getOfflineMessageHandler demoEnvCounterDown
      (saveOfflineMessage demoEnv demoStored 1 "bob" "m1") "bob").2 = ["m1"] ∧
    pendingOffline (getOfflineMessageHandler demoEnvCounterDown
      (saveOfflineMessage demoEnv demoStored 1 "bob" "m1") "bob").1 "bob" = [] ∧
    offlineCount demoEnv (getOfflineMessageHandler demoEnvCounterDown
      (saveOfflineMessage demoEnv demoStored 1 "bob" "m1") "bob").1 "bob" = 1 ∧
    (getOfflineMessageHandler demoEnvMarkDown
      (saveOfflineMessage demoEnv demoStored 1 "bob" "m1") "bob").2.Code = 200 ∧
    drainedIDs (getOfflineMessageHandler demoEnvMarkDown
      (saveOfflineMessage demoEnv demoStored 1 "bob" "m1") "bob").2 = ["m1"] ∧
    (pendingOffline (getOfflineMessageHandler demoEnvMarkDown
      (saveOfflineMessage demoEnv demoStored 1 "bob" "m1") "bob").1 "bob").map
      (fun om => (om.MsgID, om.Status)) = [("m1", 0)] ∧
    drainedIDs (getOfflineMessageHandler (demoEnvAfter 1) (getOfflineMessageHandler demoEnvMarkDown
      (saveOfflineMessage demoEnv demoStored 1 "bob" "m1") "bob").1 "bob").2 = ["m1"] :=
  ⟨by rfl, by rfl, by rfl, by rfl, by rfl, by rfl, by rfl, by rfl⟩

theorem offlineCounter_rdbDel_ne (env : Env) (s : State) (now : Int) (u v : String) (hv : v ≠ u) :
    redisFind (rdbDel env s.rdb ("offline_msg_count:" ++ u)) now ("offline_msg_count:" ++ v)
      = redisFind s.rdb now ("offline_msg_count:" ++ v) := by
  unfold rdbDel
  split
  · rfl
  · exact redisFind_erase_ne _ _ _ _ (fun h => hv (counter_key_injective v u h))

/-- C22 (amended). A drain by the logged-in user `u` whose first query fails answers with code
500 and changes nothing.  After a drain whose first query succeeds: when its update succeeds,
every row of `u` in `offline_messages` is marked delivered, and a drain that follows at once,
its first query succeeding, returns the empty list with count 0; when its `Del` reaches the
store, the count of `u` reads 0 in every later run.  After every drain by `u`, for every other
user the rows, in their order, and the counter are as before. -/
theorem drain_marks_delivered_and_clears_count (env env2 : Env) (s : State) (u : String)
    (hu : u ≠ "") :
    (env.dbDown .findOffline = true →
      getOfflineMessageHandler env s u = (s, fail 500 ("查询离线消息失败: " ++ env.errText))) ∧
    (env.dbDown .findOffline = false → env.dbDown .markDelivered = false →
      ∀ om ∈ (getOfflineMessageHandler env s u).1.offlineMessages,
        om.UserFUID = u → om.Status = 1) ∧
    (env.dbDown .findOffline = false → env.redisDown ("offline_msg_count:" ++ u) = false →
      ∀ env3 : Env, offlineCount env3 (getOfflineMessageHandler env s u).1 u = 0) ∧
    (env.dbDown .findOffline = false → env.dbDown .markDelivered = false →
      env2.dbDown .findOffline = false →
      (getOfflineMessageHandler env2 (getOfflineMessageHandler env s u).1 u).2
        = successCount [] 0) ∧
    ∀ v : String, v ≠ u →
      (getOfflineMessageHandler env s u).1.offlineMessages.filter
          (fun om => decide (om.UserFUID = v))
        = s.offlineMessages.filter (fun om => decide (om.UserFUID = v)) ∧
      ∀ now : Int, offlineCounter (getOfflineMessageHandler env s u).1 now v
        = offlineCounter s now v := by
  refine ⟨getOfflineMessageHandler_query_error env s u hu, ?_, ?_, ?_, ?_⟩
  · intro hfind hmark
    exact ((pendingOffline_drain env s u hu).1 hfind hmark).1
  · intro hfind hup env3
    unfold offlineCount
    split
    · rfl
    · rw [getOfflineMessageHandler_rdb env s u hu hfind]
      have hdel : rdbDel env s.rdb ("offline_msg_count:" ++ u)
          = redisErase s.rdb ("offline_msg_count:" ++ u) := by
        unfold rdbDel
        rw [hup]
        rfl
      rw [hdel, redisFind_erase_self]
  · intro hfind hmark hfind2
    have hnil := ((pendingOffline_drain env s u hu).1 hfind hmark).2
    rw [getOfflineMessageHandler_eq env2 _ u hu hfind2, hnil]
    simp [messagesIn, findOrEmpty, successCount]
  · intro v hv
    by_cases hfind : env.dbDown .findOffline = true
    · rw [getOfflineMessageHandler_query_error env s u hu hfind]
      exact ⟨rfl, fun _ => rfl⟩
    · simp only [Bool.not_eq_true] at hfind
      constructor
      · rw [getOfflineMessageHandler_rows env s u hu hfind]
        exact (markDelivered_other env s u v hv).1
      · intro now
        unfold offlineCounter
        rw [getOfflineMessageHandler_rdb env s u hu hfind,
          offlineCounter_rdbDel_ne env s now u v hv]

/-- C22 (amended), for the drain of `bob`, who has one pending row. -/
theorem drain_marks_delivered_witness :
    (demoEnv.dbDown .findOffline = false → demoEnv.dbDown .markDelivered = false →
      ∀ om ∈ (getOfflineMessageHandler demoEnv
          (saveOfflineMessage demoEnv demoStored 1 "bob" "m1") "bob").1.offlineMessages,
        om.UserFUID = "bob" → om.Status = 1) ∧
    (demoEnv.dbDown .findOffline = false →
      demoEnv.redisDown ("offline_msg_count:" ++ "bob") = false →
      ∀ env3 : Env, offlineCount env3 (getOfflineMessageHandler demoEnv
        (saveOfflineMessage demoEnv demoStored 1 "bob" "m1") "bob").1 "bob" = 0) ∧
    (getOfflineMessageHandler (demoEnvAfter 1) (getOfflineMessageHandler demoEnv
      (saveOfflineMessage demoEnv demoStored 1 "bob" "m1") "bob").1 "bob").2
      = successCount [] 0 :=
  ⟨(drain_marks_delivered_and_clears_count demoEnv (demoEnvAfter 1)
      (saveOfflineMessage demoEnv demoStored 1 "bob" "m1") "bob" (by decide)).2.1,
    (drain_marks_delivered_and_clears_count demoEnv (demoEnvAfter 1)
      (saveOfflineMessage demoEnv demoStored 1 "bob" "m1") "bob" (by decide)).2.2.1,
    (drain_marks_delivered_and_clears_count demoEnv (demoEnvAfter 1)
      (saveOfflineMessage demoEnv demoStored 1 "bob" "m1") "bob" (by decide)).2.2.2.1
      rfl rfl rfl⟩

/-- C23 (the claim as stated fails). The messages `m1` and then `m2` are stored; the delivery
job of `m2` ran first, so `m2` was enqueued for `bob` before `m1`.  The drain of `bob` returns
`m1` before `m2`: the order of the table `messages`, not the order of the enqueues.  In a run
in which the query for the messages fails, his drain answers with success and an empty list,
and marks both rows delivered. -/
theorem drain_order_is_not_enqueue_order :
    (pendingOffline demoQueued "bob").map (fun om => (om.ID, om.MsgID, om.CreatedAt))
      = [(1, "m2", 1700000002 * second), (2, "m1", 1700000005 * second)] ∧
    drainedIDs (getOfflineMessageHandler (demoEnvAfter 9) demoQueued "bob").2 = ["m1", "m2"] ∧
    (getOfflineMessageHandler demoEnvMessagesDown demoQueued "bob").2 = successCount [] 0 ∧
    pendingOffline (getOfflineMessageHandler demoEnvMessagesDown demoQueued "bob").1 "bob" = [] :=
  ⟨by rfl, by rfl, by rfl, by rfl⟩

/-- C23 (amended). A drain by the logged-in user `u` whose two queries succeed returns the
identifiers of the stored messages that have a pending row of `u`, each stored message once,
in the order of the table `messages`.  A drain whose first query fails answers with code 500
and no data, and a drain whose second query fails (its error is dropped) answers with success
and an empty list. -/
theorem drain_returns_messages_in_table_order (env : Env) (s : State) (u : String)
    (hu : u ≠ "") :
    (env.dbDown .findOffline = false → env.dbDown .findMessages = false →
      drainedIDs (getOfflineMessageHandler env s u).2
        = (s.messages.map (fun m => m.MsgID)).filter
            (fun id => decide (id ∈ (pendingOffline s u).map (fun om => om.MsgID))) ∧
      List.Sublist (drainedIDs (getOfflineMessageHandler env s u).2)
        (s.messages.map (fun m => m.MsgID)) ∧
      ∀ id : String, id ∈ drainedIDs (getOfflineMessageHandler env s u).2 ↔
        (∃ m ∈ s.messages, m.MsgID = id) ∧
        ∃ om ∈ s.offlineMessages, om.UserFUID = u ∧ om.Status = 0 ∧ om.MsgID = id) ∧
    (env.dbDown .findOffline = true →
      (getOfflineMessageHandler env s u).2 = fail 500 ("查询离线消息失败: " ++ env.errText)) ∧
    (env.dbDown .findOffline = false → env.dbDown .findMessages = true →
      (getOfflineMessageHandler env s u).2 = successCount [] 0) := by
  refine ⟨?_, ?_, ?_⟩
  · intro hfind hmsgs
    have h := drainedIDs_drain env s u hu hfind hmsgs
    refine ⟨h, ?_, ?_⟩
    · rw [h]
      exact List.filter_sublist _
    · intro id
      rw [h]
      simp only [List.mem_filter, List.mem_map, decide_eq_true_eq, pendingOffline]
      constructor
      · rintro ⟨⟨m, hm, rfl⟩, om, hom, hid⟩
        exact ⟨⟨m, hm, rfl⟩, om, hom.1, hom.2.1, hom.2.2, hid⟩
      · rintro ⟨⟨m, hm, rfl⟩, om, hom, h1, h2, hid⟩
        exact ⟨⟨m, hm, rfl⟩, om, ⟨hom, h1, h2⟩, hid⟩
  · intro hfind
    rw [getOfflineMessageHandler_query_error env s u hu hfind]
  · intro hfind hmsgs
    rw [getOfflineMessageHandler_eq env s u hu hfind, findOrEmpty_down env _ _ hmsgs]
    rfl

/-- C23 (amended), for the drain of `bob` in `demoQueued`. -/
theorem drain_returns_messages_in_table_order_witness :
    drainedIDs (getOfflineMessageHandler (demoEnvAfter 9) demoQueued "bob").2 = ["m1", "m2"] ∧
    List.Sublist (drainedIDs (getOfflineMessageHandler (demoEnvAfter 9) demoQueued "bob").2)
      (demoQueued.messages.map (fun m => m.MsgID)) :=
  ⟨by rfl,
    ((drain_returns_messages_in_table_order (demoEnvAfter 9) demoQueued "bob" (by decide)).1
      rfl rfl).2.1⟩

/-! ### The offline queue: counters along enqueues and drains -/

theorem storedCount_eq_of_find (s s' : State) (now : Int) (u : String)
    (h : redisFind s'.rdb now ("offline_msg_count:" ++ u)
      = redisFind s.rdb now ("offline_msg_count:" ++ u)) :
    storedCount s' now u = storedCount s now u := by
  unfold storedCount offlineCounter
  rw [h]

theorem pendingOffline_enqueueOffline_ne (env : Env) (s : State) (u v msgID : String)
    (hv : v ≠ u) :
    pendingOffline (enqueueOffline env s u msgID) v = pendingOffline s v := by
  unfold pendingOffline
  rw [enqueueOffline_rows]
  split
  · rfl
  · rw [List.filter_append]
    have : ¬ (u = v) := fun h => hv h.symm
    simp [this]

theorem rdbIncr_mem (env : Env) (rdb : List RedisEntry) (key : String) (x : RedisEntry)
    (hx : x ∈ rdbIncr env rdb key) :
    x ∈ rdb ∨ (x.key = key ∧ (∃ n : Int, x.val = .int n) ∧
      (x.expireAt = none ∨ ∃ e ∈ rdb, e.key = key ∧ x.expireAt = e.expireAt)) := by
  unfold rdbIncr at hx
  split at hx
  · exact Or.inl hx
  · split at hx
    · rw [List.mem_append] at hx
      rcases hx with h | h
      · exact Or.inl (List.mem_of_mem_filter h)
      · simp only [List.mem_singleton] at h
        subst h
        exact Or.inr ⟨rfl, ⟨1, rfl⟩, Or.inl rfl⟩
    · rename_i e hfind
      obtain ⟨hmem, hkey, _⟩ := redisFind_key rdb env.now key e hfind
      split at hx
      · split at hx
        · rw [List.mem_append] at hx
          rcases hx with h | h
          · exact Or.inl (List.mem_of_mem_filter h)
          · simp only [List.mem_singleton] at h
            subst h
            exact Or.inr ⟨rfl, ⟨_, rfl⟩, Or.inr ⟨e, hmem, hkey, rfl⟩⟩
        · exact Or.inl hx
      · exact Or.inl hx

theorem redisFind_of_no_expiry (rdb : List RedisEntry) (now now2 : Int) (key : String)
    (hplain : ∀ x ∈ rdb, x.key = key → x.expireAt = none) :
    redisFind rdb now2 key = redisFind rdb now key := by
  induction rdb with
  | nil => rfl
  | cons a t ih =>
    have iht := ih (fun x hx => hplain x (List.mem_cons_of_mem a hx))
    unfold redisFind at iht ⊢
    simp only [List.find?_cons]
    by_cases hk : a.key = key
    · have hexp := hplain a (List.mem_cons_self a t) hk
      have hl : ∀ n : Int, a.live n = true := by
        intro n
        unfold RedisEntry.live
        rw [hexp]
      simp [hk, hl]
    · simp [hk, iht]

/-- An enqueue for one user keeps the counters plain and exact, when the insert succeeds, the
counter key answers and the table has room below the largest `int64`. -/
theorem enqueueOffline_counters (env : Env) (s : State) (u msgID : String)
    (hup : env.redisDown ("offline_msg_count:" ++ u) = false)
    (hcreate : env.dbDown (.createOffline u) = false)
    (hrows : (s.offlineMessages.length : Int) + 1 < 2 ^ 63)
    (hplain : CountersPlain s) (hexact : CountersExact s) :
    CountersPlain (enqueueOffline env s u msgID) ∧
    CountersExact (enqueueOffline env s u msgID) := by
  have hrdb := enqueueOffline_rdb env s u msgID
  have hplain' : CountersPlain (enqueueOffline env s u msgID) := by
    intro x hx fuid hk
    rw [hrdb] at hx
    rcases rdbIncr_mem env s.rdb _ x hx with h | ⟨_, hval, hexp⟩
    · exact hplain x h fuid hk
    · refine ⟨?_, hval⟩
      rcases hexp with h | ⟨e, he, hek, hxe⟩
      · exact h
      · rw [hxe]
        exact (hplain e he u hek).1
  refine ⟨hplain', ?_⟩
  intro now v
  by_cases hv : v = u
  · subst hv
    rw [pendingOffline_enqueueOffline _ _ _ _ hcreate]
    simp only [List.length_append, List.length_singleton, Nat.cast_add, Nat.cast_one]
    have hlen : ((pendingOffline s v).length : Int) ≤ (s.offlineMessages.length : Int) := by
      have := List.length_filter_le
        (fun om : OfflineMessage => decide (om.UserFUID = v ∧ om.Status = 0)) s.offlineMessages
      unfold pendingOffline
      exact_mod_cast this
    obtain ⟨hnone, hsome⟩ := rdbIncr_reads env s.rdb ("offline_msg_count:" ++ v) hup
    have hold := hexact env.now v
    -- the entry after the increment, read at the instant of the enqueue
    have hnew : ∃ e' : RedisEntry,
        redisFind (rdbIncr env s.rdb ("offline_msg_count:" ++ v)) env.now
          ("offline_msg_count:" ++ v) = some e' ∧
        e'.val = .int ((pendingOffline s v).length + 1) := by
      cases hf : redisFind s.rdb env.now ("offline_msg_count:" ++ v) with
      | none =>
        have h0 : storedCount s env.now v = 0 := by
          unfold storedCount offlineCounter
          rw [hf]
          rfl
        refine ⟨_, hnone hf, ?_⟩
        simp only
        rw [← hold, h0]
        rfl
      | some e =>
        obtain ⟨hmem, hkey, _⟩ := redisFind_key _ _ _ e hf
        obtain ⟨_, n, hn⟩ := hplain e hmem v hkey
        have hcount : storedCount s env.now v = n := by
          unfold storedCount offlineCounter
          rw [hf]
          simp [hn]
        refine ⟨_, hsome e n hf hn (by omega), ?_⟩
        simp only
        rw [← hold, hcount]
    obtain ⟨e', hfind', hval'⟩ := hnew
    obtain ⟨hmem', hkey', _⟩ := redisFind_key _ _ _ e' hfind'
    have hexp' : e'.expireAt = none := by
      have := hplain' e' (by rw [hrdb]; exact hmem') v hkey'
      exact this.1
    -- without an expiry the entry reads the same at every instant
    have hany : redisFind (rdbIncr env s.rdb ("offline_msg_count:" ++ v)) now
        ("offline_msg_count:" ++ v) = some e' := by
      rw [redisFind_of_no_expiry _ env.now now _ (fun x hx hk =>
        (hplain' x (by rw [hrdb]; exact hx) v hk).1)]
      exact hfind'
    unfold storedCount offlineCounter
    rw [hrdb, hany]
    simp [hval']
  · rw [pendingOffline_enqueueOffline_ne env s u v msgID hv]
    rw [storedCount_eq_of_find s _ now v]
    · exact hexact now v
    · rw [hrdb]
      exact redisFind_incr_ne env s.rdb now _ _
        (fun h => hv (counter_key_injective v u h))

theorem foldl_saveOfflineMember_counters (env : Env) (msgID : String) (hup : CountersUp env)
    (hdb : DatabaseUp env) (members : List GroupMember) :
    ∀ s : State, ((s.offlineMessages.length + members.length : ℕ) : Int) + 1 ≤ 2 ^ 63 →
      CountersPlain s → CountersExact s →
      CountersPlain (members.foldl (saveOfflineMember env msgID) s) ∧
      CountersExact (members.foldl (saveOfflineMember env msgID) s) := by
  induction members with
  | nil => intro s _ hp he; exact ⟨hp, he⟩
  | cons m t ih =>
    intro s hrows hp he
    simp only [List.foldl_cons]
    simp only [List.length_cons] at hrows
    have hstep : CountersPlain (saveOfflineMember env msgID s m) ∧
        CountersExact (saveOfflineMember env msgID s m) ∧
        (saveOfflineMember env msgID s m).offlineMessages.length ≤ s.offlineMessages.length + 1 := by
      unfold saveOfflineMember
      split
      · obtain ⟨h1, h2⟩ := enqueueOffline_counters env s m.UserFUID msgID (hup _) (hdb _)
          (by push_cast at hrows ⊢; omega) hp he
        refine ⟨h1, h2, ?_⟩
        rw [enqueueOffline_rows, hdb]
        simp
      · exact ⟨hp, he, by omega⟩
    obtain ⟨h1, h2, h3⟩ := hstep
    exact ih _ (by push_cast at hrows ⊢; omega) h1 h2

theorem saveOfflineMessage_counters (env : Env) (s : State) (receiverType : Nat)
    (receiverID msgID : String) (hup : CountersUp env) (hdb : DatabaseUp env)
    (hrows : s.offlineMessages.length < 2 ^ 62)
    (hmembers : (activeMembers s receiverID).length < 2 ^ 62)
    (hp : CountersPlain s) (he : CountersExact s) :
    CountersPlain (saveOfflineMessage env s receiverType receiverID msgID) ∧
    CountersExact (saveOfflineMessage env s receiverType receiverID msgID) := by
  unfold saveOfflineMessage
  split
  · exact enqueueOffline_counters env s receiverID msgID (hup _) (hdb _)
      (by have : (s.offlineMessages.length : Int) < 2 ^ 62 := by exact_mod_cast hrows
          omega) hp he
  · rw [findOrEmpty_up env _ _ (hdb _)]
    exact foldl_saveOfflineMember_counters env msgID hup hdb _ s
      (by
        have h1 : (s.offlineMessages.length : Int) < 2 ^ 62 := by exact_mod_cast hrows
        have h2 : ((activeMembers s receiverID).length : Int) < 2 ^ 62 := by exact_mod_cast hmembers
        push_cast
        omega) hp he

theorem getOfflineMessageHandler_counters (env : Env) (s : State) (u : String)
    (hup : CountersUp env) (hdb : DatabaseUp env) (hp : CountersPlain s) (he : CountersExact s) :
    CountersPlain (getOfflineMessageHandler env s u).1 ∧
    CountersExact (getOfflineMessageHandler env s u).1 := by
  by_cases hu : u = ""
  · have : getOfflineMessageHandler env s u = (s, fail 401 "未登录") := by
      unfold getOfflineMessageHandler
      rw [if_pos hu]
    rw [this]
    exact ⟨hp, he⟩
  · obtain ⟨hmine, hother⟩ := pendingOffline_drain env s u hu
    have hnil := (hmine (hdb _) (hdb _)).2
    have hrdb : (getOfflineMessageHandler env s u).1.rdb
        = redisErase s.rdb ("offline_msg_count:" ++ u) := by
      rw [getOfflineMessageHandler_rdb env s u hu (hdb _)]
      simp only [rdbDel, hup u]
      rfl
    constructor
    · intro x hx fuid hk
      rw [hrdb] at hx
      exact hp x (List.mem_of_mem_filter hx) fuid hk
    · intro now v
      by_cases hv : v = u
      · subst hv
        rw [hnil]
        unfold storedCount offlineCounter
        rw [hrdb, redisFind_erase_self]
        rfl
      · rw [hother v hv, storedCount_eq_of_find s _ now v]
        · exact he now v
        · rw [hrdb]
          exact redisFind_erase_ne _ _ _ _ (fun h => hv (counter_key_injective v u h))

theorem queueStepUp_counters {s s' : State} (h : QueueStepUp s s') (hp : CountersPlain s)
    (he : CountersExact s) : CountersPlain s' ∧ CountersExact s' := by
  cases h with
  | enqueue env _ receiverType receiverID msgID hup hdb hrows hmembers =>
    exact saveOfflineMessage_counters env s receiverType receiverID msgID hup hdb hrows hmembers
      hp he
  | drain env _ u hup hdb => exact getOfflineMessageHandler_counters env s u hup hdb hp he

/-- C27 (the claim as stated fails). From `demoStored`, where `bob` has no row and no counter:
an enqueue for `bob` followed by a round of the clean-up that deletes his row leaves the count
of `bob` at 1 with no pending row; an enqueue for `bob` in a run in which Redis does not
answer on his counter key leaves one pending row with a count of 0; and an enqueue for `bob`
whose insert fails leaves no pending row with a count of 1.  With every store call
succeeding, a drain of `bob` that runs between the two statements of a delivery for `bob`
(after its insert, before its increment) leaves no pending row with a count of 1. -/
theorem counter_departs_from_pending_rows :
    Relation.ReflTransGen QueueStep demoStored
      (messageAutoClean (demoEnvAfter 90000) (saveOfflineMessage demoEnv demoStored 1 "bob" "m1")
        (1700003600 * second)) ∧
    pendingOffline (messageAutoClean (demoEnvAfter 90000)
      (saveOfflineMessage demoEnv demoStored 1 "bob" "m1") (1700003600 * second)) "bob" = [] ∧
    offlineCount (demoEnvAfter 90000) (messageAutoClean (demoEnvAfter 90000)
      (saveOfflineMessage demoEnv demoStored 1 "bob" "m1") (1700003600 * second)) "bob" = 1 ∧
    Relation.ReflTransGen QueueStep demoStored
      (saveOfflineMessage demoEnvCounterDown demoStored 1 "bob" "m1") ∧
    (pendingOffline (saveOfflineMessage demoEnvCounterDown demoStored 1 "bob" "m1") "bob").length
      = 1 ∧
    offlineCount demoEnv (saveOfflineMessage demoEnvCounterDown demoStored 1 "bob" "m1") "bob"
      = 0 ∧
    pendingOffline (saveOfflineMessage demoEnvInsertDown demoStored 1 "bob" "m1") "bob" = [] ∧
    offlineCount demoEnv (saveOfflineMessage demoEnvInsertDown demoStored 1 "bob" "m1") "bob"
      = 1 ∧
    saveOfflineMessage demoEnv demoStored 1 "bob" "m1"
      = incrOfflineCount demoEnv (createOfflineMessage demoEnv demoStored "bob" "m1") "bob" ∧
    demoInterleaved
      = incrOfflineCount demoEnv
          (getOfflineMessageHandler demoEnv
            (createOfflineMessage demoEnv demoStored "bob" "m1") "bob").1 "bob" ∧
    drainedIDs (getOfflineMessageHandler demoEnv
      (createOfflineMessage demoEnv demoStored "bob" "m1") "bob").2 = ["m1"] ∧
    pendingOffline demoInterleaved "bob" = [] ∧
    offlineCount (demoEnvAfter 2) demoInterleaved "bob" = 1 :=
  ⟨Relation.ReflTransGen.tail
      (Relation.ReflTransGen.single (QueueStep.enqueue demoEnv demoStored 1 "bob" "m1"))
      (QueueStep.clean (demoEnvAfter 90000) _ (1700003600 * second)),
    by rfl, by rfl,
    Relation.ReflTransGen.single (QueueStep.enqueue demoEnvCounterDown demoStored 1 "bob" "m1"),
    by rfl, by rfl, by rfl, by rfl, by rfl, by rfl, by rfl, by rfl, by rfl⟩

/-- C27 (amended). From a state in which the counters are plain and exact, along any sequence
of whole runs of `saveOfflineMessage` and of `getOfflineMessageHandler`, one after the other
with no statement of one run between two statements of another, in which the counter keys and
the database answer, the counter of every user stays the number of the pending rows of the
user, and that is the count that `getUnreadMessageCountHandler` reads in a run in which the
counter keys answer. -/
theorem counters_exact_along_enqueues_and_drains (s0 s : State)
    (hp : CountersPlain s0) (he : CountersExact s0)
    (h : Relation.ReflTransGen QueueStepUp s0 s) :
    CountersExact s ∧
    ∀ (env : Env) (u : String), CountersUp env →
      offlineCount env s u = ((pendingOffline s u).length : Int) := by
  have hboth : CountersPlain s ∧ CountersExact s := by
    induction h with
    | refl => exact ⟨hp, he⟩
    | tail _ hstep ih => exact queueStepUp_counters hstep ih.1 ih.2
  refine ⟨hboth.2, ?_⟩
  intro env u hup
  have h1 := hboth.2 env.now u
  unfold storedCount offlineCounter at h1
  unfold offlineCount
  rw [hup u]
  simp only [Bool.false_eq_true, if_false]
  cases hf : redisFind s.rdb env.now ("offline_msg_count:" ++ u) with
  | none =>
    rw [hf] at h1
    exact h1
  | some e =>
    rw [hf] at h1
    simp only [Option.map_some'] at h1
    cases hv : e.val with
    | int n =>
      rw [hv] at h1
      simp only
      rw [hv]
      exact h1
    | str v =>
      rw [hv] at h1
      simp only
      rw [hv]
      exact h1

theorem countersPlain_demoStored : CountersPlain demoStored := by
  intro e he fuid hk
  have hmem : e = ⟨"online_user:bob", .str "conn-1", some (1700003600 * second)⟩ := by
    simpa [demoStored, demoDirect] using he
  rw [hmem] at hk
  exact absurd hk (online_key_ne_counter_key "bob" fuid)

theorem countersExact_demoStored : CountersExact demoStored := by
  intro now fuid
  have hfind : redisFind demoStored.rdb now ("offline_msg_count:" ++ fuid) = none := by
    unfold redisFind
    rw [List.find?_eq_none]
    intro e he
    have hmem : e = ⟨"online_user:bob", .str "conn-1", some (1700003600 * second)⟩ := by
      simpa [demoStored, demoDirect] using he
    rw [hmem]
    have hne : ("online_user:bob" : String) ≠ "offline_msg_count:" ++ fuid :=
      online_key_ne_counter_key "bob" fuid
    simp [hne]
  unfold storedCount offlineCounter
  rw [hfind]
  rfl

/-- C27 (amended), from `demoStored` along an enqueue for `bob` and his drain. -/
theorem counters_exact_witness :
    CountersExact (getOfflineMessageHandler (demoEnvAfter 9)
      (saveOfflineMessage demoEnv demoStored 1 "bob" "m1") "bob").1 ∧
    ∀ (env : Env) (u : String), CountersUp env →
      offlineCount env (getOfflineMessageHandler (demoEnvAfter 9)
        (saveOfflineMessage demoEnv demoStored 1 "bob" "m1") "bob").1 u
      = ((pendingOffline (getOfflineMessageHandler (demoEnvAfter 9)
        (saveOfflineMessage demoEnv demoStored 1 "bob" "m1") "bob").1 u).length : Int) :=
  counters_exact_along_enqueues_and_drains demoStored _ countersPlain_demoStored
    countersExact_demoStored
    (Relation.ReflTransGen.tail
      (Relation.ReflTransGen.single
        (QueueStepUp.enqueue demoEnv demoStored 1 "bob" "m1" (fun _ => rfl) (fun _ => rfl)
          (by decide) (by decide)))
      (QueueStepUp.drain (demoEnvAfter 9) _ "bob" (fun _ => rfl) (fun _ => rfl)))

/-! ### Identifiers -/

theorem unique_key_injective (a b : String) (h : "unique_id:" ++ a = "unique_id:" ++ b) :
    a = b := by
  have h2 := congrArg String.data h
  simp only [String.data_append, List.append_cancel_left_eq] at h2
  exact String.ext h2

/-- What a call of `generateUniqueID` that returns an identifier found and left in the store:
the key of the identifier was not live, and it is set with an expiry of one hour. -/
theorem generateUniqueID_ok (env : Env) (length : Nat)
    (draws : List (Except String (List Nat))) :
    ∀ (rdb rdb1 : List RedisEntry) (id : String),
      generateUniqueID env length draws rdb = some (.ok id, rdb1) →
      redisFind rdb env.now ("unique_id:" ++ id) = none ∧
      rdb1 = redisErase rdb ("unique_id:" ++ id)
        ++ [⟨"unique_id:" ++ id, .int 1, some (env.now + 3600 * second)⟩] := by
  induction draws with
  | nil => intro rdb rdb1 id h; cases h
  | cons d rest ih =>
    intro rdb rdb1 id h
    cases d with
    | error e => simp [generateUniqueID] at h
    | ok b =>
      simp only [generateUniqueID] at h
      unfold rdbSetNX at h
      split at h
      · rename_i e heq
        cases h
      · rename_i r heq
        split at heq
        · cases heq
        · split at heq
          · cases heq
          · rename_i hdown hfound
            simp only [Except.ok.injEq, Prod.mk.injEq] at heq
            obtain ⟨_, h2⟩ := heq
            simp only [Option.some.injEq, Prod.mk.injEq, Except.ok.injEq] at h
            obtain ⟨h3, h4⟩ := h
            subst h3
            refine ⟨?_, ?_⟩
            · cases hf : redisFind rdb env.now ("unique_id:" ++ encodeID length b) with
              | none => rfl
              | some e => rw [hf] at hfound; simp at hfound
            · rw [← h4, ← h2]
      · rename_i r heq
        split at heq
        · cases heq
        · split at heq
          · simp only [Except.ok.injEq, Prod.mk.injEq] at heq
            obtain ⟨_, h2⟩ := heq
            subst h2
            exact ih _ _ _ h
          · cases heq

/-- A call of `generateUniqueID` that returns an error leaves the store as it was. -/
theorem generateUniqueID_error (env : Env) (length : Nat)
    (draws : List (Except String (List Nat))) :
    ∀ (rdb rdb1 : List RedisEntry) (e : String),
      generateUniqueID env length draws rdb = some (.error e, rdb1) → rdb1 = rdb := by
  induction draws with
  | nil => intro rdb rdb1 e h; cases h
  | cons d rest ih =>
    intro rdb rdb1 e h
    cases d with
    | error e' =>
      simp only [generateUniqueID, Option.some.injEq, Prod.mk.injEq] at h
      exact h.2.symm
    | ok b =>
      simp only [generateUniqueID] at h
      unfold rdbSetNX at h
      split at h
      · simp only [Option.some.injEq, Prod.mk.injEq] at h
        exact h.2.symm
      · cases h
      · rename_i r heq
        split at heq
        · cases heq
        · split at heq
          · simp only [Except.ok.injEq, Prod.mk.injEq] at heq
            obtain ⟨_, h2⟩ := heq
            subst h2
            exact ih _ _ _ h
          · cases heq
/-- Within a window of one hour that starts at `t0`: if the key of every identifier of `seen`
is live throughout the window, the identifiers that a sequence of calls in the window returns
are distinct from each other and from those of `seen`. -/
theorem generateIDs_fresh (length : Nat) (t0 : Int) (envs : List Env) :
    ∀ (rdb : List RedisEntry) (seen : List String),
      (∀ env ∈ envs, t0 ≤ env.now ∧ env.now < t0 + 3600 * second) →
      (∀ id ∈ seen, ∀ now : Int, now < t0 + 3600 * second →
        (redisFind rdb now ("unique_id:" ++ id)).isSome = true) →
      (generateIDs length envs rdb).1.Nodup ∧
      ∀ id ∈ (generateIDs length envs rdb).1, id ∉ seen := by
  induction envs with
  | nil =>
    intro rdb seen _ _
    exact ⟨List.nodup_nil, fun id h => by cases h⟩
  | cons env rest ih =>
    intro rdb seen hwin hseen
    have hrest : ∀ e ∈ rest, t0 ≤ e.now ∧ e.now < t0 + 3600 * second :=
      fun e he => hwin e (List.mem_cons_of_mem env he)
    obtain ⟨henv0, henv1⟩ := hwin env (List.mem_cons_self env rest)
    unfold generateIDs
    cases hgen : generateUniqueID env length env.draws rdb with
    | none => exact ih rdb seen hrest hseen
    | some r =>
      obtain ⟨res, rdb1⟩ := r
      cases res with
      | error e =>
        have h1 := generateUniqueID_error env length env.draws rdb rdb1 e hgen
        subst h1
        exact ih _ seen hrest hseen
      | ok id =>
        obtain ⟨hnone, hrdb1⟩ := generateUniqueID_ok env length env.draws rdb rdb1 id hgen
        have hnotseen : id ∉ seen := by
          intro hmem
          have := hseen id hmem env.now henv1
          rw [hnone] at this
          cases this
        have hseen1 : ∀ x ∈ id :: seen, ∀ now : Int, now < t0 + 3600 * second →
            (redisFind rdb1 now ("unique_id:" ++ x)).isSome = true := by
          intro x hx now hnow
          rw [hrdb1]
          rcases List.mem_cons.mp hx with hxid | hxseen
          · subst hxid
            have hlive : RedisEntry.live now
                ⟨"unique_id:" ++ x, .int 1, some (env.now + 3600 * second)⟩ = true := by
              unfold RedisEntry.live
              simp only [decide_eq_true_eq]
              omega
            have := redisFind_erase_append_self rdb now
              ⟨"unique_id:" ++ x, .int 1, some (env.now + 3600 * second)⟩ hlive
            simp only at this
            rw [this]
            rfl
          · have hne : x ≠ id := fun h => hnotseen (h ▸ hxseen)
            have hkey : "unique_id:" ++ x ≠ "unique_id:" ++ id :=
              fun h => hne (unique_key_injective x id h)
            rw [redisFind_append_ne _ _ _ _ (fun h => hkey h.symm),
              redisFind_erase_ne _ _ _ _ hkey]
            exact hseen x hxseen now hnow
        obtain ⟨hnodup, hfresh⟩ := ih rdb1 (id :: seen) hrest hseen1
        simp only
        refine ⟨List.nodup_cons.mpr ⟨?_, hnodup⟩, ?_⟩
        · intro hmem
          exact hfresh id hmem (List.mem_cons_self id seen)
        · intro x hx
          rcases List.mem_cons.mp hx with hxid | hxrest
          · rw [hxid]
            exact hnotseen
          · exact fun h => hfresh x hxrest (List.mem_cons_of_mem id h)

/-- C25 (the code departs from the claim). Two calls of `generateUniqueID` an hour and a second
apart, over the same random bytes, return the same identifier: the key that marks the first
one has expired.  A second call made 3599 seconds after the first finds the key and returns no
identifier from these bytes.  Two sends of `alice` an hour and a second apart, the second over
the random bytes of the first, both succeed, and the table `messages` holds two rows with the
same `msg_id`. -/
theorem identifier_is_returned_again_after_an_hour :
    (generateIDs 32 [demoEnv, demoEnvAfter 3601] []).1 = [demoCallID, demoCallID] ∧
    (generateIDs 32 [demoEnv, demoEnvAfter 3599] []).1 = [demoCallID] ∧
    demoSentTwice.map (fun s => s.messages.map (fun m => (m.ID, m.MsgID, m.SendTime)))
      = some [(1, demoCallID, 1700000000 * second), (2, demoCallID, 1700003601 * second)] :=
  ⟨by rfl, by rfl, by rfl⟩

/-- Where the code agrees with C25: the identifiers that a sequence of calls of
`generateUniqueID` returns are distinct when every call is made within the same hour. -/
theorem identifiers_within_an_hour_are_distinct (length : Nat) (t0 : Int) (envs : List Env)
    (rdb : List RedisEntry)
    (hwin : ∀ env ∈ envs, t0 ≤ env.now ∧ env.now < t0 + 3600 * second) :
    (generateIDs length envs rdb).1.Nodup :=
  (generateIDs_fresh length t0 envs rdb [] hwin (fun id h => by cases h)).1

/-- Two calls a second apart: the second one draws the bytes of the first again, retries, and
returns another identifier. -/
theorem identifiers_within_an_hour_witness :
    (generateIDs 32 [demoEnv, demoEnvRetry] []).1
      = [demoCallID, "00000000000000000000000000000000"] ∧
    (generateIDs 32 [demoEnv, demoEnvRetry] []).1.Nodup :=
  ⟨by rfl,
    identifiers_within_an_hour_are_distinct 32 (1700000000 * second) [demoEnv, demoEnvRetry] []
      (by
        intro env henv
        simp only [List.mem_cons, List.mem_singleton, List.not_mem_nil, or_false] at henv
        rcases henv with h | h <;> subst h <;> decide)⟩

/-! ### Presence with two sessions -/

theorem redisErase_rdbSet (env : Env) (rdb : List RedisEntry) (key : String) (val : RedisValue)
    (ttl : Int) : redisErase (rdbSet env rdb key val ttl) key = redisErase rdb key := by
  unfold rdbSet
  split
  · rfl
  · unfold redisErase
    rw [List.filter_append, List.filter_filter]
    simp

/-- The registry after two connects of `u`, the second of which reaches the store: what it
held under other keys, and one entry for `u` with the id of the second connection. -/
theorem setOnline_twice (cfg : SocketConfig) (env1 env2 : Env) (s : State) (u conn1 conn2 : String)
    (hup : env2.redisDown ("online_user:" ++ u) = false) :
    (setOnline cfg env2 (setOnline cfg env1 s u conn1) u conn2).rdb
      = redisErase s.rdb ("online_user:" ++ u)
        ++ [⟨"online_user:" ++ u, .str conn2,
            if wrap64 (cfg.Expire * second) > 0 then some (env2.now + wrap64 (cfg.Expire * second))
            else none⟩] := by
  have h1 : (setOnline cfg env2 (setOnline cfg env1 s u conn1) u conn2).rdb
      = rdbSet env2 (rdbSet env1 s.rdb ("online_user:" ++ u) (.str conn1)
          (wrap64 (cfg.Expire * second))) ("online_user:" ++ u) (.str conn2)
          (wrap64 (cfg.Expire * second)) := rfl
  have hset : ∀ r : List RedisEntry,
      rdbSet env2 r ("online_user:" ++ u) (.str conn2) (wrap64 (cfg.Expire * second))
        = redisErase r ("online_user:" ++ u)
          ++ [⟨"online_user:" ++ u, .str conn2,
              if wrap64 (cfg.Expire * second) > 0 then
                some (env2.now + wrap64 (cfg.Expire * second))
              else none⟩] := by
    intro r
    unfold rdbSet
    rw [hup]
    rfl
  rw [h1, hset, redisErase_rdbSet]

theorem redisFind_erase_append_key (rdb : List RedisEntry) (now : Int) (e : RedisEntry) :
    redisFind (redisErase rdb e.key ++ [e]) now e.key = if e.live now then some e else none := by
  by_cases hl : e.live now = true
  · rw [if_pos hl]
    exact redisFind_erase_append_self rdb now e hl
  · rw [if_neg hl]
    have h1 := redisFind_erase_self rdb now e.key
    unfold redisFind at h1 ⊢
    rw [List.find?_append, h1]
    simp [hl]

/-- A disconnect of a connection whose id the presence key of `u` does not hold leaves the
entry of `u` as it is. -/
theorem onDisconnect_other_session (env : Env) (s : State) (hub : List Session)
    (connID u : String) (hval : rdbGetString env s.rdb ("online_user:" ++ u) ≠ connID) :
    ∀ now : Int, redisFind (onDisconnect env s hub connID).1.rdb now ("online_user:" ++ u)
      = redisFind s.rdb now ("online_user:" ++ u) := by
  intro now
  unfold onDisconnect
  simp only
  split
  · rename_i hf
    simp only
    unfold disconnectFUID at hf ⊢
    cases hfind : (scanPresence env s.rdb).find?
        (fun key => decide (rdbGetString env s.rdb key = connID)) with
    | none => rw [hfind] at hf; exact absurd rfl hf
    | some key =>
      simp only
      have hmem : key ∈ scanPresence env s.rdb := List.mem_of_find?_eq_some hfind
      have hval0 : rdbGetString env s.rdb key = connID := by
        simpa using List.find?_some hfind
      have hkey := presence_key_of_scan env s.rdb key hmem
      rw [hkey]
      have hne : "online_user:" ++ u ≠ key := by
        intro h
        rw [← h] at hval0
        exact hval hval0
      unfold rdbDel
      split
      · rfl
      · exact redisFind_erase_ne _ _ _ _ hne
  · rfl

/-- A disconnect of the connection whose id the presence key of `u` holds, and no other
presence key, deletes the entry of `u`, when Redis answers. -/
theorem onDisconnect_holding_session (env : Env) (s : State) (hub : List Session)
    (connID u : String) (hu : u ≠ "")
    (hmem : "online_user:" ++ u ∈ scanPresence env s.rdb)
    (hval : rdbGetString env s.rdb ("online_user:" ++ u) = connID)
    (honly : ∀ k ∈ scanPresence env s.rdb, rdbGetString env s.rdb k = connID →
      k = "online_user:" ++ u)
    (hup : env.redisDown ("online_user:" ++ u) = false) :
    ∀ now : Int, redisFind (onDisconnect env s hub connID).1.rdb now ("online_user:" ++ u)
      = none := by
  intro now
  have hfind : ∃ key, (scanPresence env s.rdb).find?
      (fun key => decide (rdbGetString env s.rdb key = connID)) = some key := by
    cases hf : (scanPresence env s.rdb).find?
        (fun key => decide (rdbGetString env s.rdb key = connID)) with
    | some key => exact ⟨key, rfl⟩
    | none =>
      rw [List.find?_eq_none] at hf
      have := hf _ hmem
      simp [hval] at this
  obtain ⟨key, hkeyfind⟩ := hfind
  have hkmem : key ∈ scanPresence env s.rdb := List.mem_of_find?_eq_some hkeyfind
  have hkval : rdbGetString env s.rdb key = connID := by
    simpa using List.find?_some hkeyfind
  have hkeq : key = "online_user:" ++ u := honly key hkmem hkval
  have htrim : trimPresencePrefix key = u := by
    have h1 := presence_key_of_scan env s.rdb key hkmem
    rw [hkeq] at h1 ⊢
    have h2 := congrArg String.data h1
    simp only [String.data_append, List.append_cancel_left_eq] at h2
    exact String.ext h2
  have hf : disconnectFUID env s.rdb connID = u := by
    unfold disconnectFUID
    rw [hkeyfind]
    exact htrim
  unfold onDisconnect
  simp only [hf, ne_eq, hu, not_false_eq_true, if_true]
  unfold rdbDel
  rw [hup]
  simp only [Bool.false_eq_true, if_false]
  exact redisFind_erase_self _ _ _
theorem presence_key_has_prefix (u : String) :
    "online_user:".toList.isPrefixOf ("online_user:" ++ u).toList = true := by
  rw [List.isPrefixOf_iff_prefix]
  have : ("online_user:" ++ u).toList = "online_user:".toList ++ u.toList := by
    simp [String.toList]
  rw [this]
  exact List.prefix_append _ _

/-- C26 (the claim as stated fails). `alice` has the connections `conn-1` and `conn-2` open
and is reported online.  The disconnect of `conn-2`, the later one, deletes her presence key:
she is reported offline while `conn-1` is still open.  (The disconnect of `conn-1` leaves her
reported online.) -/
theorem later_session_disconnect_removes_presence :
    demoTwoSessions.2.map (fun c => c.id) = ["conn-1", "conn-2"] ∧
    rdbExists (demoEnvAfter 2) demoTwoSessions.1.rdb "online_user:alice" = .ok 1 ∧
    (onDisconnect (demoEnvAfter 2) demoTwoSessions.1 demoTwoSessions.2 "conn-2").2.map
      (fun c => c.id) = ["conn-1"] ∧
    rdbExists (demoEnvAfter 2)
      (onDisconnect (demoEnvAfter 2) demoTwoSessions.1 demoTwoSessions.2 "conn-2").1.rdb
      "online_user:alice" = .ok 0 ∧
    rdbExists (demoEnvAfter 2)
      (onDisconnect (demoEnvAfter 2) demoTwoSessions.1 demoTwoSessions.2 "conn-1").1.rdb
      "online_user:alice" = .ok 1 :=
  ⟨by rfl, by rfl, by rfl, by rfl, by rfl⟩

/-- C26 (amended). The presence entry of a user follows the connection that the user opened
last.  After two connects of `u`, first `conn1` and then `conn2`, the second reaching the
store: a disconnect of `conn1` leaves the entry of `u` as it is, with `conn2` open; and a
disconnect of `conn2`, in a run in which Redis answers, the entry is live and no presence key
of another user holds the id `conn2`, deletes the entry of `u` although `conn1` is still
open. -/
theorem presence_follows_last_connect (codec : Codec) (cfg : SocketConfig)
    (env1 env2 env3 : Env) (s : State) (hub : List Session)
    (conn1 conn2 token1 token2 u : String)
    (h1 : connectToken codec cfg env1 token1 = .ok u)
    (h2 : connectToken codec cfg env2 token2 = .ok u)
    (hne : conn1 ≠ conn2) (hc1 : conn1 ≠ "") (hu : u ≠ "")
    (hup2 : env2.redisDown ("online_user:" ++ u) = false) :
    ((∀ now : Int,
        redisFind (onDisconnect env3
          (onConnect codec cfg env2 (onConnect codec cfg env1 s hub conn1 token1).2.1
            (onConnect codec cfg env1 s hub conn1 token1).2.2 conn2 token2).2.1
          (onConnect codec cfg env2 (onConnect codec cfg env1 s hub conn1 token1).2.1
            (onConnect codec cfg env1 s hub conn1 token1).2.2 conn2 token2).2.2 conn1).1.rdb
          now ("online_user:" ++ u)
        = redisFind (onConnect codec cfg env2 (onConnect codec cfg env1 s hub conn1 token1).2.1
            (onConnect codec cfg env1 s hub conn1 token1).2.2 conn2 token2).2.1.rdb
          now ("online_user:" ++ u)) ∧
      ∃ c ∈ (onDisconnect env3
          (onConnect codec cfg env2 (onConnect codec cfg env1 s hub conn1 token1).2.1
            (onConnect codec cfg env1 s hub conn1 token1).2.2 conn2 token2).2.1
          (onConnect codec cfg env2 (onConnect codec cfg env1 s hub conn1 token1).2.1
            (onConnect codec cfg env1 s hub conn1 token1).2.2 conn2 token2).2.2 conn1).2,
        c.id = conn2) ∧
    (env3.redisDown ("online_user:" ++ u) = false → env3.redisDown "online_user:*" = false →
      (wrap64 (cfg.Expire * second) > 0 → env3.now < env2.now + wrap64 (cfg.Expire * second)) →
      (∀ k ∈ scanPresence env3 s.rdb, k ≠ "online_user:" ++ u →
        rdbGetString env3 s.rdb k ≠ conn2) →
      (∀ now : Int,
        redisFind (onDisconnect env3
          (onConnect codec cfg env2 (onConnect codec cfg env1 s hub conn1 token1).2.1
            (onConnect codec cfg env1 s hub conn1 token1).2.2 conn2 token2).2.1
          (onConnect codec cfg env2 (onConnect codec cfg env1 s hub conn1 token1).2.1
            (onConnect codec cfg env1 s hub conn1 token1).2.2 conn2 token2).2.2 conn2).1.rdb
          now ("online_user:" ++ u) = none) ∧
      ∃ c ∈ (onDisconnect env3
          (onConnect codec cfg env2 (onConnect codec cfg env1 s hub conn1 token1).2.1
            (onConnect codec cfg env1 s hub conn1 token1).2.2 conn2 token2).2.1
          (onConnect codec cfg env2 (onConnect codec cfg env1 s hub conn1 token1).2.1
            (onConnect codec cfg env1 s hub conn1 token1).2.2 conn2 token2).2.2 conn2).2,
        c.id = conn1) := by
  rw [(onConnect_eq codec cfg env1 s hub conn1 token1).1 u h1]
  rw [(onConnect_eq codec cfg env2 _ _ conn2 token2).1 u h2]
  simp only
  set new2 : RedisEntry := ⟨"online_user:" ++ u, .str conn2,
    if wrap64 (cfg.Expire * second) > 0 then some (env2.now + wrap64 (cfg.Expire * second))
    else none⟩ with hnew2
  have hrdb : (setOnline cfg env2 (setOnline cfg env1 s u conn1) u conn2).rdb
      = redisErase s.rdb new2.key ++ [new2] := setOnline_twice cfg env1 env2 s u conn1 conn2 hup2
  refine ⟨⟨?_, ?_⟩, ?_⟩
  · apply onDisconnect_other_session
    unfold rdbGetString
    split
    · exact fun h => hc1 h.symm
    · rw [hrdb]
      have hfind := redisFind_erase_append_key s.rdb env3.now new2
      have hkey : ("online_user:" ++ u) = new2.key := rfl
      rw [hkey, hfind]
      by_cases hl : new2.live env3.now = true
      · rw [if_pos hl]
        simp only [hnew2]
        exact fun h => hne h.symm
      · rw [if_neg hl]
        exact fun h => hc1 h.symm
  · refine ⟨Session.mk conn2 (roomsFor env2 (setOnline cfg env1 s u conn1) u), ?_, rfl⟩
    unfold onDisconnect
    simp only [List.mem_filter, decide_eq_true_eq]
    exact ⟨List.mem_append_right _ (List.mem_singleton.mpr rfl), fun h => hne h.symm⟩
  · intro hup3 hscan hlive hother
    have hl : new2.live env3.now = true := by
      unfold RedisEntry.live
      simp only [hnew2]
      split
      · rfl
      · rename_i t ht
        split at ht
        · rename_i hpos
          cases ht
          simp only [decide_eq_true_eq]
          exact hlive hpos
        · cases ht
    have hfind : redisFind (redisErase s.rdb new2.key ++ [new2]) env3.now new2.key = some new2 :=
      redisFind_erase_append_self s.rdb env3.now new2 hl
    refine ⟨?_, ?_⟩
    · apply onDisconnect_holding_session env3 _ _ conn2 u hu
      · rw [hrdb]
        unfold scanPresence
        rw [hscan]
        simp only [Bool.false_eq_true, if_false, List.mem_map, List.mem_filter, List.mem_append,
          List.mem_singleton, Bool.and_eq_true]
        exact ⟨new2, ⟨Or.inr rfl, hl, presence_key_has_prefix u⟩, rfl⟩
      · unfold rdbGetString
        rw [hup3, hrdb]
        simp only [Bool.false_eq_true, if_false]
        have : ("online_user:" ++ u) = new2.key := rfl
        rw [this, hfind]
      · intro k hk hkval
        by_contra hkne
        rw [hrdb] at hk hkval
        have hkne' : k ≠ new2.key := hkne
        have hget : rdbGetString env3 (redisErase s.rdb new2.key ++ [new2]) k
            = rdbGetString env3 s.rdb k := by
          unfold rdbGetString
          rw [redisFind_append_ne _ _ _ _ (fun h => hkne' h.symm),
            redisFind_erase_ne _ _ _ _ hkne']
        have hscank : k ∈ scanPresence env3 s.rdb := by
          unfold scanPresence at hk ⊢
          rw [hscan] at hk ⊢
          simp only [Bool.false_eq_true, if_false, List.mem_map, List.mem_filter,
            List.mem_append, List.mem_singleton, Bool.and_eq_true] at hk ⊢
          obtain ⟨e, ⟨hmem, hp⟩, hek⟩ := hk
          rcases hmem with hmem | hmem
          · exact ⟨e, ⟨List.mem_of_mem_filter hmem, hp⟩, hek⟩
          · rw [hmem] at hek
            exact absurd hek.symm hkne'
        rw [hget] at hkval
        exact hother k hscank hkne hkval
      · exact hup3
    · refine ⟨Session.mk conn1 (roomsFor env1 s u), ?_, rfl⟩
      unfold onDisconnect
      simp only [List.mem_filter, decide_eq_true_eq]
      exact ⟨List.mem_append_left _ (List.mem_append_right _ (List.mem_singleton.mpr rfl)), hne⟩
/-- C26 (amended), for the two connections of `alice`: the disconnect of `conn-1` leaves her
presence entry, and the disconnect of `conn-2` deletes it. -/
theorem presence_follows_last_connect_witness :
    (∀ now : Int,
      redisFind (onDisconnect (demoEnvAfter 2) demoTwoSessions.1 demoTwoSessions.2 "conn-1").1.rdb
        now ("online_user:" ++ "alice")
      = redisFind demoTwoSessions.1.rdb now ("online_user:" ++ "alice")) ∧
    (∀ now : Int,
      redisFind (onDisconnect (demoEnvAfter 2) demoTwoSessions.1 demoTwoSessions.2 "conn-2").1.rdb
        now ("online_user:" ++ "alice") = none) :=
  ⟨(presence_follows_last_connect demoCodec demoSocketCfg demoEnv (demoEnvAfter 1)
      (demoEnvAfter 2) demoGroup [] "conn-1" "conn-2" "tok-alice" "tok-alice" "alice"
      (by rfl) (by rfl) (by decide) (by decide) (by decide) (by rfl)).1.1,
    ((presence_follows_last_connect demoCodec demoSocketCfg demoEnv (demoEnvAfter 1)
      (demoEnvAfter 2) demoGroup [] "conn-1" "conn-2" "tok-alice" "tok-alice" "alice"
      (by rfl) (by rfl) (by decide) (by decide) (by decide) (by rfl)).2
      (by rfl) (by rfl) (by decide) (by decide)).1⟩

end IMServer
